import Mathlib

/-!
Whatsapp-Web clone: message store, ingestion, status updates, conversation list.

A shallow embedding of the server (`server.js`, `processPayloads.js`,
`models/Message.js`, `models/User.js`, `routes/messages.js`) and of the client reducer
(`client/src/context/ChatContext.js`).

Modelling conventions.
* A MongoDB collection is a list of documents in insertion (natural) order.
* A `Date` is its number of milliseconds since the epoch (`Int`).
* A JavaScript value that may be `undefined` is an `Option`.
* `parseInt` is not re-implemented: a field that the code passes through `parseInt`
  holds the integer `parseInt` yields, `none` standing for `NaN`.
* The store itself never fails (no connection loss); the only failures of `save` are the
  schema validation and the unique index, both declared in the model files.
* Fields of the schemas that no code path reads or writes (`media_url`, `media_id`,
  `media_caption`, `reaction`, `createdAt`, `updatedAt`, `phone_number`, `last_seen`,
  `status_message`, `blocked`, `muted`) are left out.
-/

namespace WhatsappClone

/-! ## Data model -/

/-- A document of the `processed_messages` collection (`messageSchema`). `_id` is the
ObjectId of the document, represented by a number. -/
structure Message where
  _id : Nat
  id : String
  wa_id : String
  message_type : String
  content : String
  timestamp : Int
  status : String
  is_from_me : Bool
  meta_msg_id : Option String
  deriving DecidableEq, Repr

/-- A document of the users collection (`userSchema`); also the shape of the placeholder
object the routes build when no user document exists. -/
structure User where
  wa_id : String
  name : String
  profile_name : String
  profile_picture : Option String
  is_online : Bool
  deriving DecidableEq, Repr

/-- The database: the two collections, and the state of the ObjectId generator
(`oidSeq`, which is not part of either collection). -/
structure Db where
  messages : List Message
  users : List User
  oidSeq : Nat
  deriving DecidableEq, Repr

/-! ## JavaScript helpers -/

/-- The expression `a || d` for a string `a` that may be undefined: `d` when `a` is
undefined or empty. -/
def orElse (a : Option String) (d : String) : String :=
  match a with
  | some v => if v = "" then d else v
  | none => d

/-- Truthiness of a string that may be undefined. -/
def truthy (a : Option String) : Bool :=
  match a with
  | some v => decide (v ≠ "")
  | none => false

/-- The characters removed by `String.prototype.trim`. -/
def isJsWhitespace (c : Char) : Bool :=
  let n := c.toNat
  n = 0x09 || n = 0x0A || n = 0x0B || n = 0x0C || n = 0x0D || n = 0x20 || n = 0xA0 ||
  n = 0x1680 || (0x2000 ≤ n && n ≤ 0x200A) || n = 0x2028 || n = 0x2029 || n = 0x202F ||
  n = 0x205F || n = 0x3000 || n = 0xFEFF

/-- The method `String.prototype.trim`. -/
def jsTrim (s : String) : String :=
  String.mk ((s.data.dropWhile isJsWhitespace).reverse.dropWhile isJsWhitespace).reverse

/-- The number of UTF-16 code units of a character in a JavaScript string: 2 for a
character outside the Basic Multilingual Plane (a surrogate pair), 1 otherwise. -/
def utf16Length (c : Char) : Nat :=
  if c.toNat < 0x10000 then 1 else 2

/-- The last `n` UTF-16 code units of a string whose characters are given last to first;
the result is last to first too. When the cut falls inside a surrogate pair only the low
surrogate is kept: a Lean string holds no surrogate, so it is written `U+FFFD`, the
character that the UTF-8 encoding of a stored document holds for it. -/
def lastUnitsRev : List Char → Nat → List Char
  | [], _ => []
  | c :: cs, n =>
    if n = 0 then []
    else if utf16Length c ≤ n then c :: lastUnitsRev cs (n - utf16Length c)
    else [Char.ofNat 0xFFFD]

/-- The call `s.slice(-4)`: the last four UTF-16 code units of `s` (all of `s` when it is
shorter). -/
def sliceLast4 (s : String) : String :=
  String.mk (lastUnitsRev s.data.reverse 4).reverse

/-- The value `new Date(ms)`: `none` (Invalid Date) when `ms` is `NaN` or outside the
range of a `Date`. -/
def jsDate (ms : Option Int) : Option Int :=
  match ms with
  | some v => if v.natAbs ≤ 8640000000000000 then some v else none
  | none => none

/-- The expression `parseInt(q) || d` of the routes: `q` is the result of `parseInt`. -/
def parseIntOr (q : Option Int) (d : Int) : Int :=
  match q with
  | some v => if v = 0 then d else v
  | none => d

/-! ## Schemas: validation and `save` -/

/-- The `enum` of `message_type`. -/
def messageTypeEnum : List String :=
  ["text", "image", "audio", "video", "document", "sticker", "location"]

/-- The `enum` of `status`. -/
def statusEnum : List String := ["sent", "delivered", "read", "received"]

/-- The `required` validator of a string path: the value is present and not empty. -/
def required (a : Option String) : Option String :=
  match a with
  | some v => if v = "" then none else some v
  | none => none

/-- The fields the code passes to `new Message({...})`. -/
structure MessageInit where
  id : Option String
  wa_id : Option String
  message_type : Option String
  content : Option String
  timestamp : Option Int
  status : String
  is_from_me : Bool
  deriving DecidableEq, Repr

/-- Validation of a new message against `messageSchema`: `id`, `wa_id`, `content` are
required, `message_type` defaults to `text` and must be in its enum, the timestamp must be
a valid date, `status` must be in its enum. `none` is a validation error. -/
def Message.validate (oid : Nat) (i : MessageInit) : Option Message :=
  match required i.id, required i.wa_id, required i.content, i.timestamp with
  | some id, some wa_id, some content, some ts =>
    if i.message_type.getD "text" ∈ messageTypeEnum ∧ i.status ∈ statusEnum then
      some { _id := oid, id := id, wa_id := wa_id,
             message_type := i.message_type.getD "text",
             content := content, timestamp := ts, status := i.status,
             is_from_me := i.is_from_me, meta_msg_id := none }
    else none
  | _, _, _, _ => none

/-- The call `new Message(i)` followed by `save()`: the document gets the next ObjectId,
is validated, and is inserted unless the unique index on `id` rejects it. The first
component is the database afterwards; the second is the saved document, `none` when
`save` threw. -/
def Message.save (db : Db) (i : MessageInit) : Db × Option Message :=
  let db1 := { db with oidSeq := db.oidSeq + 1 }
  match Message.validate db.oidSeq i with
  | none => (db1, none)
  | some doc =>
    if db.messages.any (fun m => m.id = doc.id) then (db1, none)
    else ({ db1 with messages := db.messages ++ [doc] }, some doc)

/-- The fields the code passes to `new User({...})`. -/
structure UserInit where
  wa_id : Option String
  name : String
  profile_name : String
  deriving DecidableEq, Repr

/-- The call `new User(i)` followed by `save()`: `name` and `profile_name` are trimmed,
all three paths are required, and the unique index on `wa_id` rejects a second document
with the same `wa_id`. `none` when `save` threw. -/
def User.save (db : Db) (i : UserInit) : Option (Db × User) :=
  match required i.wa_id, required (some (jsTrim i.name)),
        required (some (jsTrim i.profile_name)) with
  | some wa_id, some name, some profile_name =>
    if db.users.any (fun u => u.wa_id = wa_id) then none
    else
      let u : User := { wa_id := wa_id, name := name, profile_name := profile_name,
                        profile_picture := none, is_online := false }
      some ({ db with users := db.users ++ [u] }, u)
  | _, _, _ => none

/-- The static `User.findByWaId(wa_id)`, i.e. `User.findOne` on the path `wa_id`. A query
for an undefined `wa_id` matches no document, since every stored user has one. -/
def findByWaId (db : Db) (wa_id : Option String) : Option User :=
  db.users.find? (fun u => decide (some u.wa_id = wa_id))

/-! ## Webhook payloads -/

/-- A contact of a webhook payload; `name` is the value of `contact.profile?.name`. -/
structure Contact where
  wa_id : Option String
  name : Option String
  deriving DecidableEq, Repr

/-- A message event of a webhook payload. `from_` is the field `from`; `timestamp` is the
value of `parseInt(message.timestamp)`; `text_body`, `image_caption`, `document_filename`
and `video_caption` are the values of `message.text?.body`, `message.image?.caption`,
`message.document?.filename` and `message.video?.caption`. -/
structure MessageEvent where
  id : Option String
  from_ : Option String
  type : Option String
  timestamp : Option Int
  text_body : Option String
  image_caption : Option String
  document_filename : Option String
  video_caption : Option String
  deriving DecidableEq, Repr

/-- A status event of a webhook payload. -/
structure StatusEvent where
  id : String
  status : String
  deriving DecidableEq, Repr

/-- The object `change.value`. -/
structure Value where
  messages : Option (List MessageEvent)
  contacts : Option (List Contact)
  statuses : Option (List StatusEvent)
  deriving DecidableEq, Repr

/-- An element of `changes`. -/
structure Change where
  field : Option String
  value : Option Value
  deriving DecidableEq, Repr

/-- An element of `payload.entry`. -/
structure Entry where
  changes : Option (List Change)
  deriving DecidableEq, Repr

/-- The body of a webhook request. -/
structure Payload where
  entry : Option (List Entry)
  deriving DecidableEq, Repr

/-- The helper `getMessageContent` (the same text in `server.js` and in
`processPayloads.js`). -/
def getMessageContent (message : MessageEvent) : String :=
  match message.type with
  | some "text" => orElse message.text_body ""
  | some "image" => "📷 Image: " ++ orElse message.image_caption "No caption"
  | some "audio" => "🎵 Audio message"
  | some "document" => "📄 Document: " ++ orElse message.document_filename "Unknown file"
  | some "video" => "🎥 Video: " ++ orElse message.video_caption "No caption"
  | some "sticker" => "🎭 Sticker"
  | some "location" => "📍 Location shared"
  | some t => "📎 " ++ t ++ " message"
  | none => "📎 undefined message"

/-! ## Events pushed to the sockets -/

/-- The `user` member of a `new_message` event: a user document, `null`, or the literal
object with `name: 'Me'` of the socket handler. -/
inductive EventUser where
  | doc (u : User)
  | null
  | me (wa_id : Option String)
  deriving DecidableEq, Repr

/-- What the server emits: `io.emit('new_message', ...)`,
`io.emit('message_status_update', ...)` and `socket.emit('message_sent', ...)`. -/
inductive Event where
  | new_message (message : Message) (user : EventUser)
  | message_status_update (id : String) (status : String)
  | message_sent (success : Bool) (message : Option Message)
  deriving DecidableEq, Repr

/-- The state threaded through a handler: the database and the events emitted so far. -/
structure St where
  db : Db
  events : List Event
  deriving DecidableEq, Repr

/-- The outcome of a handler: the HTTP status it answers, the database and the emitted
events. -/
structure Response where
  status : Nat
  db : Db
  events : List Event
  deriving DecidableEq, Repr

/-- A `for (const x of xs)` loop whose body may throw: the iterations run in order and
the first exception ends the loop. `Except.error` carries the state at the throw. -/
def forOf {α : Type} (body : St → α → Except St St) : List α → St → Except St St
  | [], st => Except.ok st
  | x :: rest, st =>
    match body st x with
    | Except.ok st1 => forOf body rest st1
    | Except.error st1 => Except.error st1

/-- The state a computation ends in, whether it returned or threw. -/
def finalState (r : Except St St) : St :=
  match r with
  | Except.ok st => st
  | Except.error st => st

/-! ## Ingestion: the `/webhook` handler and `processPayload` -/

/-- The block "Create or update user" (the same text in `server.js`, lines 61-71, and in
`processPayloads.js`, lines 37-47): look the contact up and create it when it is unknown.
`none` when `user.save()` threw; otherwise the database and the value of `user`. -/
def findOrCreateUser (db : Db) (contact : Option Contact) : Option (Db × Option User) :=
  match findByWaId db (contact.bind (fun c => c.wa_id)) with
  | some user => some (db, some user)
  | none =>
    match contact with
    | none => some (db, none)
    | some c =>
      match User.save db { wa_id := c.wa_id, name := orElse c.name "Unknown User",
                           profile_name := orElse c.name "Unknown User" } with
      | some (db1, u) => some (db1, some u)
      | none => none

/-- The fields of the message built from a webhook message event (the same in both
ingestion paths). -/
def inboundInit (message : MessageEvent) : MessageInit :=
  { id := message.id, wa_id := message.from_, message_type := message.type,
    content := some (getMessageContent message),
    timestamp := jsDate (message.timestamp.map (fun t => t * 1000)),
    status := "received", is_from_me := false }

/-- The value `user` as it is put into an event. -/
def EventUser.ofOption (u : Option User) : EventUser :=
  match u with
  | some v => EventUser.doc v
  | none => EventUser.null

/-- One iteration of the messages loop of the `/webhook` handler (`server.js`, lines
58-92). `Except.error` carries the state at the point where an exception was thrown. -/
def webhookMessageStep (contact : Option Contact) (st : St) (message : MessageEvent) :
    Except St St :=
  match findOrCreateUser st.db contact with
  | none => Except.error st
  | some (db1, user) =>
    match Message.save db1 (inboundInit message) with
    | (db2, none) => Except.error { st with db := db2 }
    | (db2, some newMessage) =>
      Except.ok { db := db2,
                  events := st.events ++ [Event.new_message newMessage (EventUser.ofOption user)] }

/-- The messages loop of the `/webhook` handler. -/
def webhookMessages (contact : Option Contact) (messages : List MessageEvent) (st : St) :
    Except St St :=
  forOf (webhookMessageStep contact) messages st

/-- The call `Message.findOneAndUpdate(filter, {status}, {new: true})`: the first
document of the collection that satisfies the filter gets the status; no validator runs.
The second component is the updated document, `none` when nothing matched. The source
passes no `sort`: when several documents satisfy the filter, the database decides which
one it meets first, and the order of the list stands for that order. The definition is
exact whenever at most one document satisfies the filter. -/
def findOneAndUpdate (filter : Message → Bool) (status : String) :
    List Message → List Message × Option Message
  | [] => ([], none)
  | m :: ms =>
    if filter m then ({ m with status := status } :: ms, some { m with status := status })
    else ((findOneAndUpdate filter status ms).1.cons m, (findOneAndUpdate filter status ms).2)

/-- The filter of the status loops: `id` or `meta_msg_id` equals the id of the event. -/
def statusFilter (x : String) (m : Message) : Bool :=
  decide (m.id = x) || decide (m.meta_msg_id = some x)

/-- One iteration of the status loop of the `/webhook` handler (`server.js`, lines
97-113). -/
def webhookStatusStep (st : St) (status : StatusEvent) : St :=
  match findOneAndUpdate (statusFilter status.id) status.status st.db.messages with
  | (msgs, some _) =>
    { db := { st.db with messages := msgs },
      events := st.events ++ [Event.message_status_update status.id status.status] }
  | (_, none) => st

/-- The status loop of the `/webhook` handler. -/
def webhookStatuses (statuses : List StatusEvent) (st : St) : St :=
  statuses.foldl webhookStatusStep st

/-- The body of `if (change.field === 'messages')` in the `/webhook` handler. -/
def webhookChange (value : Value) (st : St) : Except St St :=
  let contact := (value.contacts.getD []).head?
  match (match value.messages with
         | some messages => webhookMessages contact messages st
         | none => Except.ok st) with
  | Except.error st1 => Except.error st1
  | Except.ok st1 =>
    match value.statuses with
    | some statuses => Except.ok (webhookStatuses statuses st1)
    | none => Except.ok st1

/-- The part of a webhook handler that selects `payload.entry[0].changes[0]` and runs
`body` on its value; an exception (reading a property of an undefined `change` or
`change.value`) is `Except.error`. -/
def onFirstChange (body : Value → St → Except St St) (payload : Payload) (st : St) :
    Except St St :=
  match payload.entry with
  | some (entry0 :: _) =>
    match entry0.changes with
    | some changes =>
      match changes.head? with
      | none => Except.error st
      | some change =>
        if change.field = some "messages" then
          match change.value with
          | none => Except.error st
          | some value => body value st
        else Except.ok st
    | none => Except.ok st
  | _ => Except.ok st

/-- The handler `app.post('/webhook')`: 200 when the body ran to its end, 500 from the
`catch`. -/
def webhook (db : Db) (payload : Payload) : Response :=
  match onFirstChange webhookChange payload { db := db, events := [] } with
  | Except.ok st => { status := 200, db := st.db, events := st.events }
  | Except.error st => { status := 500, db := st.db, events := st.events }

/-- One iteration of the messages loop of `processPayload` (`processPayloads.js`, lines
34-69): a message whose id is already stored is skipped. -/
def processMessageStep (contact : Option Contact) (st : St) (message : MessageEvent) :
    Except St St :=
  match findOrCreateUser st.db contact with
  | none => Except.error st
  | some (db1, _) =>
    if db1.messages.any (fun m => decide (some m.id = message.id)) then
      Except.ok { st with db := db1 }
    else
      match Message.save db1 (inboundInit message) with
      | (db2, none) => Except.error { st with db := db2 }
      | (db2, some _) => Except.ok { st with db := db2 }

/-- The messages loop of `processPayload`. -/
def processMessages (contact : Option Contact) (messages : List MessageEvent) (st : St) :
    Except St St :=
  forOf (processMessageStep contact) messages st

/-- One iteration of the status loop of `processPayload` (lines 74-86): as in the
handler, without the event. -/
def processStatusStep (st : St) (status : StatusEvent) : St :=
  { st with db := { st.db with
      messages := (findOneAndUpdate (statusFilter status.id) status.status st.db.messages).1 } }

/-- The body of `if (change.field === 'messages')` in `processPayload`. -/
def processChange (value : Value) (st : St) : Except St St :=
  let contact := (value.contacts.getD []).head?
  match (match value.messages with
         | some messages => processMessages contact messages st
         | none => Except.ok st) with
  | Except.error st1 => Except.error st1
  | Except.ok st1 =>
    match value.statuses with
    | some statuses => Except.ok (statuses.foldl processStatusStep st1)
    | none => Except.ok st1

/-- The function `processPayload`: the status is 200 when the body ran to its end and 500
when the `catch` logged an error (the function itself returns nothing). -/
def processPayload (db : Db) (payload : Payload) : Response :=
  match onFirstChange processChange payload { db := db, events := [] } with
  | Except.ok st => { status := 200, db := st.db, events := st.events }
  | Except.error st => { status := 500, db := st.db, events := st.events }

/-! ## Local sends -/

/-- The id template of both send paths: `msg_`, the value of `Date.now()`, `_`, and
`rnd`, the value of `Math.random().toString(36).substr(2, 9)`. -/
def synthId (clock : Nat) (rnd : String) : String :=
  "msg_" ++ toString clock ++ "_" ++ rnd

/-- The body of a `POST /api/messages/send` request. -/
structure SendBody where
  wa_id : Option String
  content : Option String
  message_type : Option String
  deriving DecidableEq, Repr

/-- The fields of the message built by `POST /send` (`message_type = 'text'` is the
default of the destructuring). -/
def sendInit (clock : Nat) (rnd : String) (now : Int) (body : SendBody) : MessageInit :=
  { id := some (synthId clock rnd), wa_id := body.wa_id,
    message_type := some (body.message_type.getD "text"), content := body.content,
    timestamp := some now, status := "sent", is_from_me := true }

/-- The block "Ensure user exists" of `POST /send` (`routes/messages.js`, lines 82-91).
`none` when `user.save()` threw. -/
def ensureUser (db : Db) (wa_id : String) : Option Db :=
  match findByWaId db (some wa_id) with
  | some _ => some db
  | none =>
    match User.save db { wa_id := some wa_id, name := "User " ++ sliceLast4 wa_id,
                         profile_name := "User " ++ sliceLast4 wa_id } with
    | some (db1, _) => some db1
    | none => none

/-- The handler `router.post('/send')`. `clock` and `rnd` are the values the id template
reads, `now` is the value of `new Date()`. -/
def sendRoute (db : Db) (clock : Nat) (rnd : String) (now : Int) (body : SendBody) :
    Response :=
  if !truthy body.wa_id || !truthy body.content then
    { status := 400, db := db, events := [] }
  else
    match ensureUser db (body.wa_id.getD "") with
    | none => { status := 500, db := db, events := [] }
    | some db1 =>
      match Message.save db1 (sendInit clock rnd now body) with
      | (db2, none) => { status := 500, db := db2, events := [] }
      | (db2, some _) => { status := 200, db := db2, events := [] }

/-- The argument of the socket event `send_message`. -/
structure SendData where
  wa_id : Option String
  content : Option String
  deriving DecidableEq, Repr

/-- A callback registered with `setTimeout` by the socket handler: after `delay`
milliseconds the document `doc` gets the status `status` and is saved. -/
structure TimerTask where
  delay : Nat
  doc : Message
  status : String
  deriving DecidableEq, Repr

/-- The outcome of the socket handler: the database, the emitted events, and the timers
it has registered. -/
structure SocketResult where
  db : Db
  events : List Event
  timers : List TimerTask
  deriving DecidableEq, Repr

/-- The fields of the message built by the socket handler. -/
def socketInit (clock : Nat) (rnd : String) (now : Int) (data : SendData) : MessageInit :=
  { id := some (synthId clock rnd), wa_id := data.wa_id, message_type := some "text",
    content := data.content, timestamp := some now, status := "sent", is_from_me := true }

/-- The handler `socket.on('send_message')`, up to the point where it returns; the two
status updates it defers are returned as timers. An undefined `messageData` makes the
destructuring throw. -/
def socketSendMessage (db : Db) (clock : Nat) (rnd : String) (now : Int)
    (messageData : Option SendData) : SocketResult :=
  match messageData with
  | none => { db := db, events := [Event.message_sent false none], timers := [] }
  | some data =>
    match Message.save db (socketInit clock rnd now data) with
    | (db1, none) => { db := db1, events := [Event.message_sent false none], timers := [] }
    | (db1, some newMessage) =>
      { db := db1,
        events := [Event.new_message newMessage (EventUser.me data.wa_id),
                   Event.message_sent true (some newMessage)],
        timers := [{ delay := 1000, doc := newMessage, status := "delivered" },
                   { delay := 3000, doc := newMessage, status := "read" }] }

/-! ## Status updates over HTTP -/

/-- The handler `router.patch('/:messageId/status')`. `castObjectId` is the cast of the
query value for `_id` to an ObjectId, which belongs to the database library: `none` is
a cast error, which the `catch` answers with 500. -/
def patchStatusRoute (castObjectId : String → Option Nat) (db : Db) (messageId : String)
    (status : Option String) : Response :=
  match status with
  | none => { status := 400, db := db, events := [] }
  | some s =>
    if s ∉ ["sent", "delivered", "read"] then { status := 400, db := db, events := [] }
    else
      match castObjectId messageId with
      | none => { status := 500, db := db, events := [] }
      | some oid =>
        match findOneAndUpdate (fun m => decide (m.id = messageId) || decide (m._id = oid)) s
                db.messages with
        | (_, none) => { status := 404, db := db, events := [] }
        | (msgs, some _) => { status := 200, db := { db with messages := msgs }, events := [] }

/-! ## Queries: conversations and threads -/

/-- The stage `$sort: {timestamp: -1}`, and the `.sort({timestamp: -1})` of a query:
newest first, documents of equal timestamp in collection order. -/
def sortByTimestampDesc (docs : List Message) : List Message :=
  docs.insertionSort (fun a b => b.timestamp ≤ a.timestamp)

instance : IsTotal Message (fun a b => b.timestamp ≤ a.timestamp) :=
  ⟨fun a b => le_total b.timestamp a.timestamp⟩

instance : IsTrans Message (fun a b => b.timestamp ≤ a.timestamp) :=
  ⟨fun _ _ _ h1 h2 => le_trans h2 h1⟩

/-- A document produced by the `$group` stage of `getConversations`. -/
structure ConversationEntry where
  _id : String
  lastMessage : Message
  messageCount : Nat
  unreadCount : Nat
  deriving DecidableEq, Repr

/-- The summand of `unreadCount`: the `$cond` on `is_from_me = false` and
`status ≠ 'read'`. -/
def unreadCond (m : Message) : Nat :=
  if m.is_from_me = false ∧ m.status ≠ "read" then 1 else 0

/-- The `$group` stage fed one document: the group of `m.wa_id` is created (with `m` as
its `$first`) or its two sums are advanced. -/
def groupAccumulate (m : Message) : List ConversationEntry → List ConversationEntry
  | [] => [{ _id := m.wa_id, lastMessage := m, messageCount := 1, unreadCount := unreadCond m }]
  | e :: es =>
    if e._id = m.wa_id then
      { e with messageCount := e.messageCount + 1,
               unreadCount := e.unreadCount + unreadCond m } :: es
    else e :: groupAccumulate m es

/-- The `$group` stage over a stream of documents, starting from the groups `acc`. -/
def groupFrom (acc : List ConversationEntry) (docs : List Message) : List ConversationEntry :=
  docs.foldl (fun groups m => groupAccumulate m groups) acc

instance : IsTotal ConversationEntry
    (fun a b => b.lastMessage.timestamp ≤ a.lastMessage.timestamp) :=
  ⟨fun a b => le_total b.lastMessage.timestamp a.lastMessage.timestamp⟩

instance : IsTrans ConversationEntry
    (fun a b => b.lastMessage.timestamp ≤ a.lastMessage.timestamp) :=
  ⟨fun _ _ _ h1 h2 => le_trans h2 h1⟩

/-- The stage `$sort: {'lastMessage.timestamp': -1}`. -/
def sortByLastMessageDesc (groups : List ConversationEntry) : List ConversationEntry :=
  groups.insertionSort (fun a b => b.lastMessage.timestamp ≤ a.lastMessage.timestamp)

/-- The static `Message.getConversations`: sort, group by `wa_id`, sort. -/
def getConversations (db : Db) : List ConversationEntry :=
  sortByLastMessageDesc (groupFrom [] (sortByTimestampDesc db.messages))

/-- An element of the answer of `GET /api/messages/conversations`, and of the client's
`conversations`. -/
structure Conversation where
  wa_id : String
  user : User
  lastMessage : Message
  messageCount : Nat
  unreadCount : Nat
  deriving DecidableEq, Repr

/-- The object the routes use when no user document exists. -/
def placeholderUser (wa_id : String) : User :=
  { wa_id := wa_id, name := "User " ++ sliceLast4 wa_id,
    profile_name := "User " ++ sliceLast4 wa_id, profile_picture := none, is_online := false }

/-- The handler `router.get('/conversations')`: the entries of `getConversations`, in
order, each with its user. -/
def conversationsRoute (db : Db) : List Conversation :=
  (getConversations db).map (fun conv =>
    { wa_id := conv._id,
      user := (findByWaId db (some conv._id)).getD (placeholderUser conv._id),
      lastMessage := conv.lastMessage,
      messageCount := conv.messageCount,
      unreadCount := conv.unreadCount })

/-- The static `Message.getChatMessages(wa_id, limit, skip)`: the messages of `wa_id`,
newest first, without the first `skip`, at most `limit` of them (a limit of 0 is no
limit, a negative limit counts as its absolute value). `none` when the database rejects a
negative `skip`. -/
def getChatMessages (db : Db) (wa_id : String) (limit : Int) (skip : Int) :
    Option (List Message) :=
  if skip < 0 then none
  else
    let found := (sortByTimestampDesc (db.messages.filter (fun m => decide (m.wa_id = wa_id)))).drop
      skip.toNat
    some (if limit = 0 then found else found.take limit.natAbs)

/-- The call `Message.updateMany` of the thread route: every message of `wa_id` that is
not from me and not read gets the status `read`. -/
def markThreadRead (wa_id : String) (msgs : List Message) : List Message :=
  msgs.map (fun m =>
    if m.wa_id = wa_id ∧ m.is_from_me = false ∧ m.status ≠ "read" then
      { m with status := "read" }
    else m)

/-- The answer of `GET /api/messages/chat/:wa_id`. -/
structure ChatResponse where
  status : Nat
  db : Db
  messages : List Message
  user : Option User
  hasMore : Bool
  totalMessages : Nat
  deriving DecidableEq, Repr

/-- The handler `router.get('/chat/:wa_id')`; `page` and `limit` are the values of
`parseInt` on the query parameters. -/
def chatRoute (db : Db) (wa_id : String) (page : Option Int) (limit : Option Int) :
    ChatResponse :=
  let page1 := parseIntOr page 1
  let limit1 := parseIntOr limit 50
  let skip := (page1 - 1) * limit1
  match getChatMessages db wa_id limit1 skip with
  | none => { status := 500, db := db, messages := [], user := none, hasMore := false,
              totalMessages := 0 }
  | some messages =>
    let db1 := { db with messages := markThreadRead wa_id db.messages }
    { status := 200, db := db1, messages := messages.reverse,
      user := some ((findByWaId db (some wa_id)).getD (placeholderUser wa_id)),
      hasMore := decide ((messages.length : Int) = limit1),
      totalMessages := (db1.messages.filter (fun m => decide (m.wa_id = wa_id))).length }

/-! ## The client reducer -/

/-- The state of `chatReducer` (without the socket object). -/
structure ChatState where
  conversations : List Conversation
  currentChat : Option User
  messages : List Message
  loading : Bool
  error : Option String
  socketConnected : Bool
  deriving DecidableEq, Repr

/-- The actions of `chatReducer`. -/
inductive Action where
  | SET_LOADING (payload : Bool)
  | SET_ERROR (payload : Option String)
  | SET_SOCKET_CONNECTED (payload : Bool)
  | SET_CONVERSATIONS (payload : List Conversation)
  | SET_CURRENT_CHAT (user : Option User) (messages : Option (List Message))
  | ADD_MESSAGE (payload : Message)
  | UPDATE_MESSAGE_STATUS (id : String) (status : String)
  | MARK_MESSAGES_READ (wa_id : String)
  deriving DecidableEq, Repr

/-- The function `chatReducer`. -/
def chatReducer (state : ChatState) (action : Action) : ChatState :=
  match action with
  | Action.SET_LOADING payload => { state with loading := payload }
  | Action.SET_ERROR payload => { state with error := payload }
  | Action.SET_SOCKET_CONNECTED payload => { state with socketConnected := payload }
  | Action.SET_CONVERSATIONS payload => { state with conversations := payload }
  | Action.SET_CURRENT_CHAT user messages =>
    { state with currentChat := user, messages := messages.getD [] }
  | Action.ADD_MESSAGE payload =>
    { state with
      messages := state.messages ++ [payload],
      conversations := state.conversations.map (fun conv =>
        if conv.wa_id = payload.wa_id then
          { conv with
            lastMessage := payload,
            unreadCount := if payload.is_from_me then conv.unreadCount
                           else conv.unreadCount + 1 }
        else conv) }
  | Action.UPDATE_MESSAGE_STATUS id status =>
    { state with
      messages := state.messages.map (fun msg =>
        if msg.id = id then { msg with status := status } else msg) }
  | Action.MARK_MESSAGES_READ wa_id =>
    { state with
      conversations := state.conversations.map (fun conv =>
        if conv.wa_id = wa_id then { conv with unreadCount := 0 } else conv) }

/-! ## Predicates used in the statements -/

/-- The ids of the stored messages, in collection order. -/
def Db.ids (db : Db) : List String := db.messages.map (fun m => m.id)

/-- No two stored messages share an `id`. -/
def uniqueIds (db : Db) : Prop := db.ids.Nodup

instance (db : Db) : Decidable (uniqueIds db) := by
  unfold uniqueIds; infer_instance

/-- Between two databases the list of stored ids has only grown at its end, and is
without repetition afterwards if it was before. -/
def IdsGrow (db db1 : Db) : Prop :=
  (∃ t, db1.ids = db.ids ++ t) ∧ (uniqueIds db → uniqueIds db1)

/-- The stored messages whose `id` is `x`. -/
def Db.withId (db : Db) (x : String) : List Message :=
  db.messages.filter (fun m => decide (m.id = x))

/-- The messages of the contact `x`, in collection order. -/
def thread (x : String) (msgs : List Message) : List Message :=
  msgs.filter (fun m => decide (m.wa_id = x))

/-- The unread predicate of the specification: the message belongs to the contact `x`, is
inbound, and its status is not `read`. -/
def isUnread (x : String) (m : Message) : Bool :=
  decide (m.wa_id = x) && (!m.is_from_me && decide (m.status ≠ "read"))

/-- The recomputation of the specification:
`count(messages where contact_id = x, direction = inbound, status ≠ read)`. -/
def countUnread (x : String) (msgs : List Message) : Nat :=
  (msgs.filter (isUnread x)).length

/-- The invariant of the `$group` stage: after the documents `seen`, the groups have
distinct keys, every group holds the first document of its key and the two counts of its
key, and every seen document has its group. -/
def GroupInv (groups : List ConversationEntry) (seen : List Message) : Prop :=
  (groups.map (fun e => e._id)).Nodup ∧
  (∀ e ∈ groups, seen.find? (fun m => decide (m.wa_id = e._id)) = some e.lastMessage ∧
    e.messageCount = (thread e._id seen).length ∧ e.unreadCount = countUnread e._id seen) ∧
  (∀ m ∈ seen, ∃ e ∈ groups, e._id = m.wa_id)

/-- The messages of `db1` are those of `db` followed by new ones, each of which
satisfies `P`. -/
def Appended (P : Message → Prop) (db db1 : Db) : Prop :=
  ∃ added, db1.messages = db.messages ++ added ∧ ∀ d ∈ added, P d

/-- The document `d` is the inbound message built from one of the events `es`: not from
me, status `received`, with the id, sender and content of the event. -/
def InboundOf (es : List MessageEvent) (d : Message) : Prop :=
  d.is_from_me = false ∧ d.status = "received" ∧
    ∃ e ∈ es, some d.id = e.id ∧ some d.wa_id = e.from_ ∧ d.content = getMessageContent e

/-- The document `d` is an outbound message of a local send: from me, status `sent`, with
the synthesized id. -/
def OutboundOf (clock : Nat) (rnd : String) (wa_id : Option String) (d : Message) : Prop :=
  d.is_from_me = true ∧ d.status = "sent" ∧ d.id = synthId clock rnd ∧ some d.wa_id = wa_id

/-- The legal transitions of the specification's status state machine: sent to
delivered, delivered to read, sent to read, received to read. -/
def legalTransition (old new : String) : Prop :=
  (old, new) ∈ [("sent", "delivered"), ("delivered", "read"), ("sent", "read"),
                ("received", "read")]

instance (old new : String) : Decidable (legalTransition old new) := by
  unfold legalTransition; infer_instance

/-- A webhook payload that carries exactly one message event, with the given `contacts`
member and no statuses. -/
def messagePayload (e : MessageEvent) (contacts : Option (List Contact)) : Payload :=
  { entry := some [{ changes := some [
      { field := some "messages",
        value := some { messages := some [e], contacts := contacts, statuses := none } }] }] }

/-- A webhook payload that carries only status events. -/
def statusPayload (statuses : List StatusEvent) : Payload :=
  { entry := some [{ changes := some [
      { field := some "messages",
        value := some { messages := none, contacts := none, statuses := some statuses } }] }] }

/-! ## Sample data -/

/-- A text message event with the given id, sender and timestamp (in seconds). -/
def textEvent (id : String) (sender : String) (ts : Int) (body : String) : MessageEvent :=
  { id := some id, from_ := some sender, type := some "text", timestamp := some ts,
    text_body := some body, image_caption := none, document_filename := none,
    video_caption := none }

/-- A stored message with the given id, contact, timestamp, status and direction. -/
def sampleMessage (oid : Nat) (id : String) (wa_id : String) (ts : Int) (status : String)
    (is_from_me : Bool) : Message :=
  { _id := oid, id := id, wa_id := wa_id, message_type := "text", content := "hi",
    timestamp := ts, status := status, is_from_me := is_from_me, meta_msg_id := none }

/-- The empty database. -/
def emptyDb : Db := { messages := [], users := [], oidSeq := 0 }

/-- A database with three messages of two contacts: `c1` has an unread inbound message, a
read inbound message and an outbound message; `c2` has one unread inbound message. -/
def twoContactsDb : Db :=
  { messages := [sampleMessage 0 "m1" "c1" 5000 "received" false,
                 sampleMessage 1 "m2" "c2" 7000 "received" false,
                 sampleMessage 2 "m3" "c1" 9000 "sent" true,
                 sampleMessage 3 "m4" "c1" 2000 "read" false],
    users := [], oidSeq := 4 }

/-- A client state whose conversation list has one entry, of the contact `c1`, with the
last message `A` of timestamp 10000. -/
def oneConversationState : ChatState :=
  { conversations := [{ wa_id := "c1",
                        user := { wa_id := "c1", name := "Al", profile_name := "Al",
                                  profile_picture := none, is_online := false },
                        lastMessage := sampleMessage 0 "A" "c1" 10000 "received" false,
                        messageCount := 1, unreadCount := 1 }],
    currentChat := none, messages := [], loading := false, error := none,
    socketConnected := true }

/-- A cast of query values to ObjectIds under which the 24 hexadecimal digits
`507f1f77bcf86cd799439011` denote the ObjectId 0 and nothing else is an ObjectId. -/
def sampleCast (s : String) : Option Nat :=
  if s = "507f1f77bcf86cd799439011" then some 0 else none

/-- A database that holds the outbound message `m1`, already read. -/
def readMessageDb : Db :=
  { messages := [sampleMessage 0 "m1" "c1" 10000 "read" true], users := [], oidSeq := 1 }

/-- A database that holds the inbound message `m1` of the contact `c1` and no user. -/
def oneMessageDb : Db :=
  { messages := [sampleMessage 0 "m1" "c1" 10000 "received" false], users := [], oidSeq := 1 }

/-! ## Socket rooms -/

/-- A connected socket, as far as rooms go: its id and the rooms it is a member of. -/
structure Socket where
  id : String
  rooms : List String
  deriving DecidableEq, Repr

/-- A socket at connection: Socket.IO puts it into the room named by its own id. -/
def Socket.connect (id : String) : Socket := { id := id, rooms := [id] }

/-- The call `socket.join(room)` of Socket.IO: the room is added to the set of rooms of
the socket. -/
def Socket.join (socket : Socket) (room : String) : Socket :=
  if room ∈ socket.rooms then socket else { socket with rooms := socket.rooms ++ [room] }

/-- The handler `socket.on('join_chat')` (`server.js`, lines 151-154). -/
def join_chat (socket : Socket) (wa_id : String) : Socket :=
  socket.join wa_id

/-! ## The client: listeners and fetches -/

/-- The constant `initialState` of `ChatContext.js`. -/
def initialState : ChatState :=
  { conversations := [], currentChat := none, messages := [], loading := false,
    error := none, socketConnected := false }

/-- The socket listeners of the client (`ChatContext.js`, lines 111-119): `new_message`
dispatches `ADD_MESSAGE` with the message of the event, `message_status_update`
dispatches `UPDATE_MESSAGE_STATUS` with the event; the client listens to nothing else. -/
def onServerEvent (state : ChatState) (e : Event) : ChatState :=
  match e with
  | Event.new_message message _ => chatReducer state (Action.ADD_MESSAGE message)
  | Event.message_status_update id status =>
    chatReducer state (Action.UPDATE_MESSAGE_STATUS id status)
  | Event.message_sent _ _ => state

/-- The client receives the events of one server operation, in order. -/
def deliver (state : ChatState) (events : List Event) : ChatState :=
  events.foldl onServerEvent state

/-- The function `fetchConversations` when the request succeeds: the four dispatches, with
the answer of `GET /api/messages/conversations`. -/
def fetchConversations (db : Db) (state : ChatState) : ChatState :=
  chatReducer
    (chatReducer
      (chatReducer (chatReducer state (Action.SET_LOADING true))
        (Action.SET_CONVERSATIONS (conversationsRoute db)))
      (Action.SET_ERROR none))
    (Action.SET_LOADING false)

/-- The function `fetchMessages` when the request succeeds, as far as the reducer goes:
the state after its dispatches, with the answer of `GET /api/messages/chat/:wa_id`. -/
def fetchMessages (r : ChatResponse) (wa_id : String) (state : ChatState) : ChatState :=
  chatReducer
    (chatReducer
      (chatReducer
        (chatReducer (chatReducer state (Action.SET_LOADING true))
          (Action.SET_CURRENT_CHAT r.user (some r.messages)))
        (Action.MARK_MESSAGES_READ wa_id))
      (Action.SET_ERROR none))
    (Action.SET_LOADING false)

/-! ## More predicates and sample data -/

/-- No stored message has `x` as its `id` or as its `meta_msg_id`. -/
def Unmatched (x : String) (msgs : List Message) : Prop :=
  ∀ m ∈ msgs, m.id ≠ x ∧ m.meta_msg_id ≠ some x

/-- A stored message with a correlation id. -/
def correlatedMessage (oid : Nat) (id : String) (meta_msg_id : String) (wa_id : String)
    (ts : Int) (status : String) (is_from_me : Bool) : Message :=
  { _id := oid, id := id, wa_id := wa_id, message_type := "text", content := "hi",
    timestamp := ts, status := status, is_from_me := is_from_me,
    meta_msg_id := some meta_msg_id }

/-- A database that holds the outbound message `m1`, sent, with the correlation id
`wamid.X`. -/
def correlatedDb : Db :=
  { messages := [correlatedMessage 0 "m1" "wamid.X" "c1" 10000 "sent" true],
    users := [], oidSeq := 1 }

/-- A message event that has no `type`. -/
def untypedEvent : MessageEvent :=
  { id := some "m1", from_ := some "c1", type := none, timestamp := some 10,
    text_body := some "hi", image_caption := none, document_filename := none,
    video_caption := none }

/-- A text message event that has no `id`. -/
def anonymousEvent : MessageEvent :=
  { id := none, from_ := some "c1", type := some "text", timestamp := some 10,
    text_body := some "hi", image_caption := none, document_filename := none,
    video_caption := none }

/-- Every entry of a conversation list has the unread count recomputed from the stored
messages `msgs`. -/
def UnreadConsistent (conversations : List Conversation) (msgs : List Message) : Prop :=
  ∀ c ∈ conversations, c.unreadCount = countUnread c.wa_id msgs

/-! ## Deferred status writes and deletion -/

/-- The outcome of a callback registered with `setTimeout`: it ran to its end, with the
database and the events it emitted, or the promise of the `async` callback was rejected,
which nothing handles. -/
inductive TimerOutcome where
  | completed (db : Db) (events : List Event)
  | rejected (db : Db)
  deriving DecidableEq, Repr

/-- One of the two `setTimeout` callbacks of the socket handler (`server.js`, lines
180-196): the status of the captured document is set and the document is saved, which
updates the stored document of the same `_id` and fails when there is none; then the
status event is emitted with the id of the document. The callback has no `try`. -/
def fireTimer (db : Db) (task : TimerTask) : TimerOutcome :=
  match findOneAndUpdate (fun m => decide (m._id = task.doc._id)) task.status db.messages with
  | (msgs, some _) =>
    TimerOutcome.completed { db with messages := msgs }
      [Event.message_status_update task.doc.id task.status]
  | (_, none) => TimerOutcome.rejected db

/-- The call `Message.findOneAndDelete(filter)`: the first document that satisfies the
filter is removed. The second component is the removed document. -/
def findOneAndDelete (filter : Message → Bool) : List Message → List Message × Option Message
  | [] => ([], none)
  | m :: ms =>
    if filter m then (ms, some m)
    else ((findOneAndDelete filter ms).1.cons m, (findOneAndDelete filter ms).2)

/-- The handler `router.delete('/:messageId')`; `castObjectId` as in
`patchStatusRoute`. -/
def deleteRoute (castObjectId : String → Option Nat) (db : Db) (messageId : String) :
    Response :=
  match castObjectId messageId with
  | none => { status := 500, db := db, events := [] }
  | some oid =>
    match findOneAndDelete (fun m => decide (m.id = messageId) || decide (m._id = oid))
            db.messages with
    | (_, none) => { status := 404, db := db, events := [] }
    | (msgs, some _) => { status := 200, db := { db with messages := msgs }, events := [] }

/-! ## Predicates and sample data for the remaining statements -/

/-- Every emitted event is backed by the collection: the message of a `new_message` event
(and of a successful `message_sent`) is a stored document, up to a later change of its
status, and the id of a `message_status_update` event is the `id` or the `meta_msg_id` of a
stored document. -/
def Backed (db : Db) (events : List Event) : Prop :=
  ∀ e ∈ events,
    match e with
    | Event.new_message d _ => ∃ m ∈ db.messages, m = { d with status := m.status }
    | Event.message_status_update x _ => ∃ m ∈ db.messages, statusFilter x m = true
    | Event.message_sent _ (some d) => ∃ m ∈ db.messages, m = { d with status := m.status }
    | Event.message_sent _ none => True

/-- A webhook payload with the given message events, contacts and status events. -/
def messagesPayload (messages : List MessageEvent) (contacts : Option (List Contact))
    (statuses : Option (List StatusEvent)) : Payload :=
  { entry := some [{ changes := some [
      { field := some "messages",
        value := some { messages := some messages, contacts := contacts,
                        statuses := statuses } }] }] }

/-- The six kinds of the schema other than `text`. -/
def mediaKinds : List String := ["image", "audio", "video", "document", "sticker", "location"]

/-- A text message event without a body. -/
def emptyTextEvent : MessageEvent :=
  { id := some "m1", from_ := some "c1", type := some "text", timestamp := some 10,
    text_body := none, image_caption := none, document_filename := none,
    video_caption := none }

/-! ## Lemmas and theorems -/

theorem save_none_eq {db db1 : Db} {i : MessageInit} (h : Message.save db i = (db1, none)) :
    db1.messages = db.messages ∧ db1.users = db.users := by
  unfold Message.save at h
  split at h
  · simp only [Prod.mk.injEq, and_true] at h
    subst h; exact ⟨rfl, rfl⟩
  · split at h
    · simp only [Prod.mk.injEq, and_true] at h
      subst h; exact ⟨rfl, rfl⟩
    · simp at h

theorem save_some_eq {db db1 : Db} {i : MessageInit} {doc : Message}
    (h : Message.save db i = (db1, some doc)) :
    db1.messages = db.messages ++ [doc] ∧ db1.users = db.users ∧
      (∀ m ∈ db.messages, m.id ≠ doc.id) ∧ Message.validate db.oidSeq i = some doc := by
  unfold Message.save at h
  split at h
  · simp at h
  · rename_i d hv
    split at h
    · simp at h
    · rename_i hany
      simp only [Prod.mk.injEq, Option.some.injEq] at h
      obtain ⟨h1, h2⟩ := h
      subst h2; subst h1
      refine ⟨rfl, rfl, ?_, hv⟩
      intro m hm hid
      apply hany
      simp only [List.any_eq_true, decide_eq_true_eq]
      exact ⟨m, hm, hid⟩

theorem required_eq_some {a : Option String} {v : String} (h : required a = some v) :
    a = some v ∧ v ≠ "" := by
  unfold required at h
  split at h
  · split at h
    · simp at h
    · rename_i w hw
      simp only [Option.some.injEq] at h
      subst h; exact ⟨rfl, hw⟩
  · simp at h

theorem validate_fields {oid : Nat} {i : MessageInit} {doc : Message}
    (h : Message.validate oid i = some doc) :
    doc._id = oid ∧ some doc.id = i.id ∧ some doc.wa_id = i.wa_id ∧ some doc.content = i.content ∧
      doc.status = i.status ∧ doc.is_from_me = i.is_from_me ∧ some doc.timestamp = i.timestamp ∧
      doc.message_type = i.message_type.getD "text" ∧ doc.meta_msg_id = none ∧
      doc.id ≠ "" ∧ doc.wa_id ≠ "" ∧ doc.content ≠ "" ∧ doc.message_type ∈ messageTypeEnum ∧
      doc.status ∈ statusEnum := by
  unfold Message.validate at h
  split at h
  · rename_i id wa_id content ts h1 h2 h3 h4
    split at h
    · rename_i hen
      simp only [Option.some.injEq] at h
      subst h
      obtain ⟨e1, n1⟩ := required_eq_some h1
      obtain ⟨e2, n2⟩ := required_eq_some h2
      obtain ⟨e3, n3⟩ := required_eq_some h3
      exact ⟨rfl, e1.symm, e2.symm, e3.symm, rfl, rfl, h4.symm, rfl, rfl, n1, n2, n3, hen.1, hen.2⟩
    · simp at h
  · simp at h

theorem user_save_eq {db db1 : Db} {i : UserInit} {u : User} (h : User.save db i = some (db1, u)) :
    db1.messages = db.messages ∧ db1.oidSeq = db.oidSeq ∧ db1.users = db.users ++ [u] ∧
      some u.wa_id = i.wa_id ∧ u.name = jsTrim i.name ∧ u.profile_name = jsTrim i.profile_name ∧
      (∀ v ∈ db.users, v.wa_id ≠ u.wa_id) := by
  unfold User.save at h
  split at h
  · rename_i wa_id name pname h1 h2 h3
    split at h
    · simp at h
    · rename_i hany
      simp only [Option.some.injEq, Prod.mk.injEq] at h
      obtain ⟨hd, hu⟩ := h
      subst hu; subst hd
      obtain ⟨e1, _⟩ := required_eq_some h1
      obtain ⟨e2, _⟩ := required_eq_some h2
      obtain ⟨e3, _⟩ := required_eq_some h3
      simp only [Option.some.injEq] at e2 e3
      refine ⟨rfl, rfl, rfl, e1.symm, e2.symm, e3.symm, ?_⟩
      intro v hv hid
      apply hany
      simp only [List.any_eq_true, decide_eq_true_eq]
      exact ⟨v, hv, hid⟩
  · simp at h

theorem findOrCreateUser_eq {db db1 : Db} {contact : Option Contact} {user : Option User}
    (h : findOrCreateUser db contact = some (db1, user)) :
    db1.messages = db.messages ∧ db1.oidSeq = db.oidSeq ∧
      ((db1.users = db.users ∧ user = findByWaId db (contact.bind (fun c => c.wa_id)) ∧
          (contact = none ∨ user ≠ none)) ∨
        ∃ c u, contact = some c ∧ findByWaId db c.wa_id = none ∧ user = some u ∧
          db1.users = db.users ++ [u] ∧ some u.wa_id = c.wa_id ∧
          u.name = jsTrim (orElse c.name "Unknown User") ∧
          u.profile_name = jsTrim (orElse c.name "Unknown User")) := by
  unfold findOrCreateUser at h
  split at h
  · rename_i u hf
    simp only [Option.some.injEq, Prod.mk.injEq] at h
    obtain ⟨hd, hu⟩ := h
    subst hd; subst hu
    exact ⟨rfl, rfl, Or.inl ⟨rfl, hf.symm, Or.inr (by simp)⟩⟩
  · rename_i hf
    split at h
    · simp only [Option.some.injEq, Prod.mk.injEq] at h
      obtain ⟨hd, hu⟩ := h
      subst hd; subst hu
      exact ⟨rfl, rfl, Or.inl ⟨rfl, hf.symm, Or.inl rfl⟩⟩
    · rename_i c
      split at h
      · rename_i db2 u hs
        simp only [Option.some.injEq, Prod.mk.injEq] at h
        obtain ⟨hd, hu⟩ := h
        subst hd; subst hu
        obtain ⟨a, b, c1, d, e, f, _⟩ := user_save_eq hs
        exact ⟨a, b, Or.inr ⟨c, u, rfl, hf, rfl, c1, d, e, f⟩⟩
      · simp at h

theorem forOf_rel {α : Type} (R : St → St → Prop) (body : St → α → Except St St)
    (hrefl : ∀ s, R s s) (htrans : ∀ a b c, R a b → R b c → R a c) :
    ∀ (xs : List α) (st : St), (∀ s x, x ∈ xs → R s (finalState (body s x))) →
      R st (finalState (forOf body xs st)) := by
  intro xs
  induction xs with
  | nil => intro st _; exact hrefl st
  | cons x rest ih =>
    intro st hbody
    have hx := hbody st x (List.mem_cons_self x rest)
    unfold forOf
    cases hb : body st x with
    | ok st1 =>
      rw [hb] at hx
      exact htrans _ _ _ hx (ih st1 (fun s y hy => hbody s y (List.mem_cons_of_mem x hy)))
    | error st1 =>
      rw [hb] at hx
      exact hx

theorem foldl_rel {α : Type} (R : St → St → Prop) (step : St → α → St)
    (hrefl : ∀ s, R s s) (htrans : ∀ a b c, R a b → R b c → R a c) :
    ∀ (xs : List α) (st : St), (∀ s x, x ∈ xs → R s (step s x)) → R st (xs.foldl step st) := by
  intro xs
  induction xs with
  | nil => intro st _; exact hrefl st
  | cons x rest ih =>
    intro st hstep
    rw [List.foldl_cons]
    exact htrans _ _ _ (hstep st x (List.mem_cons_self x rest))
      (ih (step st x) (fun s y hy => hstep s y (List.mem_cons_of_mem x hy)))

theorem webhookMessageStep_ok {contact : Option Contact} {st st1 : St} {message : MessageEvent}
    (h : webhookMessageStep contact st message = Except.ok st1) :
    ∃ doc u oid, st1.db.messages = st.db.messages ++ [doc] ∧
      st1.events = st.events ++ [Event.new_message doc u] ∧
      (∀ x ∈ st.db.messages, x.id ≠ doc.id) ∧
      Message.validate oid (inboundInit message) = some doc := by
  unfold webhookMessageStep at h
  split at h
  · simp at h
  · rename_i db1 user hu
    obtain ⟨hm, _, _⟩ := findOrCreateUser_eq hu
    split at h
    · simp at h
    · rename_i db2 doc hs
      obtain ⟨a, _, c, d⟩ := save_some_eq hs
      simp only [Except.ok.injEq] at h
      subst h
      refine ⟨doc, EventUser.ofOption user, db1.oidSeq, ?_, rfl, ?_, d⟩
      · simp only []; rw [a, hm]
      · rw [← hm]; exact c

theorem webhookMessageStep_error {contact : Option Contact} {st st1 : St}
    {message : MessageEvent} (h : webhookMessageStep contact st message = Except.error st1) :
    st1.db.messages = st.db.messages ∧ st1.events = st.events := by
  unfold webhookMessageStep at h
  split at h
  · simp only [Except.error.injEq] at h
    subst h; exact ⟨rfl, rfl⟩
  · rename_i db1 user hu
    obtain ⟨hm, _, _⟩ := findOrCreateUser_eq hu
    split at h
    · rename_i db2 hs
      simp only [Except.error.injEq] at h
      subst h
      exact ⟨(save_none_eq hs).1.trans hm, rfl⟩
    · simp at h

theorem processMessageStep_ok {contact : Option Contact} {st st1 : St} {message : MessageEvent}
    (h : processMessageStep contact st message = Except.ok st1) :
    st1.events = st.events ∧
      ((st1.db.messages = st.db.messages ∧ ∃ x ∈ st.db.messages, some x.id = message.id) ∨
        ∃ doc oid, st1.db.messages = st.db.messages ++ [doc] ∧
          (∀ x ∈ st.db.messages, x.id ≠ doc.id) ∧
          Message.validate oid (inboundInit message) = some doc) := by
  unfold processMessageStep at h
  split at h
  · simp at h
  · rename_i db1 user hu
    obtain ⟨hm, _, _⟩ := findOrCreateUser_eq hu
    split at h
    · rename_i hany
      simp only [Except.ok.injEq] at h
      subst h
      simp only [List.any_eq_true, decide_eq_true_eq] at hany
      rw [hm] at hany
      exact ⟨rfl, Or.inl ⟨hm, hany⟩⟩
    · split at h
      · simp at h
      · rename_i db2 doc hs
        obtain ⟨a, _, c, d⟩ := save_some_eq hs
        simp only [Except.ok.injEq] at h
        subst h
        refine ⟨rfl, Or.inr ⟨doc, db1.oidSeq, ?_, ?_, d⟩⟩
        · simp only []; rw [a, hm]
        · rw [← hm]; exact c

theorem processMessageStep_error {contact : Option Contact} {st st1 : St}
    {message : MessageEvent} (h : processMessageStep contact st message = Except.error st1) :
    st1.db.messages = st.db.messages ∧ st1.events = st.events := by
  unfold processMessageStep at h
  split at h
  · simp only [Except.error.injEq] at h
    subst h; exact ⟨rfl, rfl⟩
  · rename_i db1 user hu
    obtain ⟨hm, _, _⟩ := findOrCreateUser_eq hu
    split at h
    · simp at h
    · split at h
      · rename_i db2 hs
        simp only [Except.error.injEq] at h
        subst h
        exact ⟨(save_none_eq hs).1.trans hm, rfl⟩
      · simp at h

theorem IdsGrow.refl (db : Db) : IdsGrow db db := ⟨⟨[], by simp⟩, fun h => h⟩

theorem IdsGrow.trans {a b c : Db} (h1 : IdsGrow a b) (h2 : IdsGrow b c) : IdsGrow a c := by
  obtain ⟨⟨t1, e1⟩, u1⟩ := h1
  obtain ⟨⟨t2, e2⟩, u2⟩ := h2
  exact ⟨⟨t1 ++ t2, by rw [e2, e1, List.append_assoc]⟩, fun h => u2 (u1 h)⟩

theorem idsGrow_of_ids_eq {db db1 : Db} (h : db1.ids = db.ids) : IdsGrow db db1 :=
  ⟨⟨[], by simp [h]⟩, fun hu => by unfold uniqueIds at *; rw [h]; exact hu⟩

theorem idsGrow_of_messages_eq {db db1 : Db} (h : db1.messages = db.messages) :
    IdsGrow db db1 :=
  idsGrow_of_ids_eq (by unfold Db.ids; rw [h])

theorem idsGrow_of_append {db db1 : Db} {doc : Message}
    (h : db1.messages = db.messages ++ [doc]) (hfresh : ∀ x ∈ db.messages, x.id ≠ doc.id) :
    IdsGrow db db1 := by
  have hids : db1.ids = db.ids ++ [doc.id] := by
    unfold Db.ids; rw [h]; simp
  refine ⟨⟨[doc.id], hids⟩, fun hu => ?_⟩
  unfold uniqueIds at *
  rw [hids]
  refine List.Nodup.append hu (List.nodup_singleton _) ?_
  intro a ha hb
  rw [List.mem_singleton] at hb
  subst hb
  unfold Db.ids at ha
  rw [List.mem_map] at ha
  obtain ⟨x, hx, hxa⟩ := ha
  exact hfresh x hx hxa

theorem findOneAndUpdate_ids (filter : Message → Bool) (status : String) (msgs : List Message) :
    (findOneAndUpdate filter status msgs).1.map (fun m => m.id) = msgs.map (fun m => m.id) := by
  induction msgs with
  | nil => rfl
  | cons m ms ih =>
    unfold findOneAndUpdate
    split
    · rfl
    · simp only [List.map_cons, ih]

theorem save_idsGrow (db : Db) (i : MessageInit) : IdsGrow db (Message.save db i).1 := by
  cases h : Message.save db i with
  | mk db1 r =>
    cases r with
    | none => exact idsGrow_of_messages_eq (save_none_eq h).1
    | some doc =>
      obtain ⟨a, _, c, _⟩ := save_some_eq h
      exact idsGrow_of_append a c

theorem webhookMessageStep_idsGrow (contact : Option Contact) (st : St) (message : MessageEvent) :
    IdsGrow st.db (finalState (webhookMessageStep contact st message)).db := by
  cases h : webhookMessageStep contact st message with
  | ok st1 =>
    obtain ⟨doc, _, _, a, _, c, _⟩ := webhookMessageStep_ok h
    exact idsGrow_of_append a c
  | error st1 => exact idsGrow_of_messages_eq (webhookMessageStep_error h).1

theorem processMessageStep_idsGrow (contact : Option Contact) (st : St) (message : MessageEvent) :
    IdsGrow st.db (finalState (processMessageStep contact st message)).db := by
  cases h : processMessageStep contact st message with
  | ok st1 =>
    obtain ⟨_, h2⟩ := processMessageStep_ok h
    rcases h2 with ⟨a, _⟩ | ⟨doc, _, a, c, _⟩
    · exact idsGrow_of_messages_eq a
    · exact idsGrow_of_append a c
  | error st1 => exact idsGrow_of_messages_eq (processMessageStep_error h).1

theorem webhookStatusStep_ids (st : St) (status : StatusEvent) :
    (webhookStatusStep st status).db.ids = st.db.ids := by
  unfold webhookStatusStep
  split
  · rename_i msgs _ h
    have := findOneAndUpdate_ids (statusFilter status.id) status.status st.db.messages
    rw [h] at this
    exact this
  · rfl

theorem processStatusStep_ids (st : St) (status : StatusEvent) :
    (processStatusStep st status).db.ids = st.db.ids :=
  findOneAndUpdate_ids (statusFilter status.id) status.status st.db.messages

theorem webhookChange_rel (R : St → St → Prop) (hrefl : ∀ s, R s s)
    (htrans : ∀ a b c, R a b → R b c → R a c)
    (hmsg : ∀ c s m, R s (finalState (webhookMessageStep c s m)))
    (hstatus : ∀ s x, R s (webhookStatusStep s x)) (value : Value) (st : St) :
    R st (finalState (webhookChange value st)) := by
  have hloop : ∀ (ms : List MessageEvent) (s : St),
      R s (finalState (webhookMessages (value.contacts.getD []).head? ms s)) :=
    fun ms s => forOf_rel R _ hrefl htrans ms s (fun s x _ => hmsg _ s x)
  have hst : ∀ (ss : List StatusEvent) (s : St), R s (webhookStatuses ss s) :=
    fun ss s => foldl_rel R _ hrefl htrans ss s (fun s x _ => hstatus s x)
  cases hm : value.messages with
  | none =>
    cases hs : value.statuses with
    | none => simp only [webhookChange, hm, hs]; exact hrefl _
    | some ss => simp only [webhookChange, hm, hs]; exact hst ss st
  | some ms =>
    have h1 := hloop ms st
    cases hr : webhookMessages (value.contacts.getD []).head? ms st with
    | error st1 =>
      rw [hr] at h1
      simp only [webhookChange, hm, hr]; exact h1
    | ok st1 =>
      rw [hr] at h1
      cases hs : value.statuses with
      | none => simp only [webhookChange, hm, hr, hs]; exact h1
      | some ss => simp only [webhookChange, hm, hr, hs]; exact htrans _ _ _ h1 (hst ss st1)

theorem processChange_rel (R : St → St → Prop) (hrefl : ∀ s, R s s)
    (htrans : ∀ a b c, R a b → R b c → R a c)
    (hmsg : ∀ c s m, R s (finalState (processMessageStep c s m)))
    (hstatus : ∀ s x, R s (processStatusStep s x)) (value : Value) (st : St) :
    R st (finalState (processChange value st)) := by
  have hloop : ∀ (ms : List MessageEvent) (s : St),
      R s (finalState (processMessages (value.contacts.getD []).head? ms s)) :=
    fun ms s => forOf_rel R _ hrefl htrans ms s (fun s x _ => hmsg _ s x)
  have hst : ∀ (ss : List StatusEvent) (s : St), R s (ss.foldl processStatusStep s) :=
    fun ss s => foldl_rel R _ hrefl htrans ss s (fun s x _ => hstatus s x)
  cases hm : value.messages with
  | none =>
    cases hs : value.statuses with
    | none => simp only [processChange, hm, hs]; exact hrefl _
    | some ss => simp only [processChange, hm, hs]; exact hst ss st
  | some ms =>
    have h1 := hloop ms st
    cases hr : processMessages (value.contacts.getD []).head? ms st with
    | error st1 =>
      rw [hr] at h1
      simp only [processChange, hm, hr]; exact h1
    | ok st1 =>
      rw [hr] at h1
      cases hs : value.statuses with
      | none => simp only [processChange, hm, hr, hs]; exact h1
      | some ss => simp only [processChange, hm, hr, hs]; exact htrans _ _ _ h1 (hst ss st1)

theorem onFirstChange_rel (R : St → St → Prop) (hrefl : ∀ s, R s s)
    (body : Value → St → Except St St) (hbody : ∀ v s, R s (finalState (body v s)))
    (payload : Payload) (st : St) : R st (finalState (onFirstChange body payload st)) := by
  unfold onFirstChange
  split
  · split
    · split
      · exact hrefl st
      · split
        · split
          · exact hrefl st
          · exact hbody _ _
        · exact hrefl st
    · exact hrefl st
  · exact hrefl st

theorem webhook_eq (db : Db) (payload : Payload) :
    (webhook db payload).db
        = (finalState (onFirstChange webhookChange payload { db := db, events := [] })).db ∧
      (webhook db payload).events
        = (finalState (onFirstChange webhookChange payload { db := db, events := [] })).events := by
  unfold webhook
  split <;> rename_i h <;> rw [h] <;> exact ⟨rfl, rfl⟩

theorem processPayload_eq (db : Db) (payload : Payload) :
    (processPayload db payload).db
        = (finalState (onFirstChange processChange payload { db := db, events := [] })).db ∧
      (processPayload db payload).events
        = (finalState (onFirstChange processChange payload { db := db, events := [] })).events := by
  unfold processPayload
  split <;> rename_i h <;> rw [h] <;> exact ⟨rfl, rfl⟩

theorem webhook_idsGrow (db : Db) (payload : Payload) : IdsGrow db (webhook db payload).db := by
  rw [(webhook_eq db payload).1]
  exact onFirstChange_rel (fun a b => IdsGrow a.db b.db) (fun s => IdsGrow.refl s.db) _
    (webhookChange_rel (fun a b => IdsGrow a.db b.db) (fun s => IdsGrow.refl s.db) (fun _ _ _ h1 h2 => IdsGrow.trans h1 h2)
      webhookMessageStep_idsGrow (fun s x => idsGrow_of_ids_eq (webhookStatusStep_ids s x)))
    payload _

theorem processPayload_idsGrow (db : Db) (payload : Payload) :
    IdsGrow db (processPayload db payload).db := by
  rw [(processPayload_eq db payload).1]
  exact onFirstChange_rel (fun a b => IdsGrow a.db b.db) (fun s => IdsGrow.refl s.db) _
    (processChange_rel (fun a b => IdsGrow a.db b.db) (fun s => IdsGrow.refl s.db) (fun _ _ _ h1 h2 => IdsGrow.trans h1 h2)
      processMessageStep_idsGrow (fun s x => idsGrow_of_ids_eq (processStatusStep_ids s x)))
    payload _

theorem ensureUser_eq {db db1 : Db} {wa_id : String} (h : ensureUser db wa_id = some db1) :
    db1.messages = db.messages ∧ db1.oidSeq = db.oidSeq ∧
      ∃ u ∈ db1.users, u.wa_id = wa_id := by
  unfold ensureUser at h
  split at h
  · rename_i u hf
    simp only [Option.some.injEq] at h
    subst h
    refine ⟨rfl, rfl, u, List.mem_of_find?_eq_some hf, ?_⟩
    have := List.find?_some hf
    simpa using this
  · split at h
    · rename_i db2 u hs
      simp only [Option.some.injEq] at h
      subst h
      obtain ⟨a, b, c, d, _⟩ := user_save_eq hs
      refine ⟨a, b, u, ?_, ?_⟩
      · rw [c]; simp
      · simpa using d
    · simp at h

theorem sendRoute_idsGrow (db : Db) (clock : Nat) (rnd : String) (now : Int) (body : SendBody) :
    IdsGrow db (sendRoute db clock rnd now body).db := by
  unfold sendRoute
  split
  · exact IdsGrow.refl db
  · split
    · exact IdsGrow.refl db
    · rename_i db1 hdb
      have h1 : IdsGrow db db1 := idsGrow_of_messages_eq (ensureUser_eq hdb).1
      have h2 := save_idsGrow db1 (sendInit clock rnd now body)
      split <;> rename_i hs <;> rw [hs] at h2 <;> exact IdsGrow.trans h1 h2

theorem socketSendMessage_idsGrow (db : Db) (clock : Nat) (rnd : String) (now : Int)
    (messageData : Option SendData) :
    IdsGrow db (socketSendMessage db clock rnd now messageData).db := by
  unfold socketSendMessage
  split
  · exact IdsGrow.refl db
  · rename_i data
    have h2 := save_idsGrow db (socketInit clock rnd now data)
    split <;> rename_i hs <;> rw [hs] at h2 <;> exact h2

theorem withId_length (db : Db) (x : String) : (db.withId x).length = db.ids.count x := by
  unfold Db.withId Db.ids
  induction db.messages with
  | nil => rfl
  | cons m ms ih =>
    by_cases h : m.id = x
    · simp [List.filter_cons, h, ih]
    · simp [List.filter_cons, h, ih, List.count_cons]

theorem withId_length_eq_one {db : Db} {x : String} (hu : uniqueIds db) (hx : x ∈ db.ids) :
    (db.withId x).length = 1 := by
  rw [withId_length]
  exact List.count_eq_one_of_mem hu hx

theorem webhook_single (db : Db) (e : MessageEvent) (contacts : Option (List Contact)) :
    webhook db (messagePayload e contacts)
      = match webhookMessageStep (contacts.getD []).head? { db := db, events := [] } e with
        | Except.ok st1 => { status := 200, db := st1.db, events := st1.events }
        | Except.error st1 => { status := 500, db := st1.db, events := st1.events } := by
  simp only [webhook, messagePayload, onFirstChange, List.head?_cons, if_true, webhookChange,
    webhookMessages, forOf]
  cases webhookMessageStep (contacts.getD []).head? { db := db, events := [] } e <;> rfl

theorem processPayload_single (db : Db) (e : MessageEvent) (contacts : Option (List Contact)) :
    processPayload db (messagePayload e contacts)
      = match processMessageStep (contacts.getD []).head? { db := db, events := [] } e with
        | Except.ok st1 => { status := 200, db := st1.db, events := st1.events }
        | Except.error st1 => { status := 500, db := st1.db, events := st1.events } := by
  simp only [processPayload, messagePayload, onFirstChange, List.head?_cons, if_true,
    processChange, processMessages, forOf]
  cases processMessageStep (contacts.getD []).head? { db := db, events := [] } e <;> rfl

theorem webhook_single_stored {db : Db} {e : MessageEvent} {contacts : Option (List Contact)}
    (h : (webhook db (messagePayload e contacts)).status = 200) :
    ∃ x, e.id = some x ∧ x ∈ (webhook db (messagePayload e contacts)).db.ids := by
  rw [webhook_single] at h ⊢
  cases hs : webhookMessageStep (contacts.getD []).head? { db := db, events := [] } e with
  | error st1 => rw [hs] at h; simp at h
  | ok st1 =>
    obtain ⟨doc, _, _, a, _, _, d⟩ := webhookMessageStep_ok hs
    have hid := (validate_fields d).2.1
    refine ⟨doc.id, hid.symm, ?_⟩
    simp only [Db.ids, a]
    simp

theorem processPayload_single_stored {db : Db} {e : MessageEvent}
    {contacts : Option (List Contact)}
    (h : (processPayload db (messagePayload e contacts)).status = 200) :
    ∃ x, e.id = some x ∧ x ∈ (processPayload db (messagePayload e contacts)).db.ids := by
  rw [processPayload_single] at h ⊢
  cases hs : processMessageStep (contacts.getD []).head? { db := db, events := [] } e with
  | error st1 => rw [hs] at h; simp at h
  | ok st1 =>
    obtain ⟨_, h2⟩ := processMessageStep_ok hs
    rcases h2 with ⟨a, x, hx, hxe⟩ | ⟨doc, _, a, _, d⟩
    · refine ⟨x.id, hxe.symm, ?_⟩
      simp only [Db.ids, a]
      exact List.mem_map_of_mem _ hx
    · have hid := (validate_fields d).2.1
      refine ⟨doc.id, hid.symm, ?_⟩
      simp only [Db.ids, a]
      simp

theorem mem_ids_of_idsGrow {db db1 : Db} {x : String} (h : IdsGrow db db1) (hx : x ∈ db.ids) :
    x ∈ db1.ids := by
  obtain ⟨⟨t, e⟩, _⟩ := h
  rw [e]; exact List.mem_append_left t hx

/-- C1. Message ids are unique in the store: from a store in which no two messages share an
`id`, the `/webhook` handler, `processPayload`, `POST /api/messages/send` and the socket
`send_message` handler each end in such a store; and when the ingestion of a webhook
message event has succeeded, ingesting the same event again leaves exactly one message
with that id (more generally, any id stored after an ingestion is the id of exactly one
message after the payload is ingested again). -/
theorem C1_message_ids_unique (db : Db) (h : uniqueIds db) :
    (∀ payload, uniqueIds (webhook db payload).db) ∧
    (∀ payload, uniqueIds (processPayload db payload).db) ∧
    (∀ clock rnd now body, uniqueIds (sendRoute db clock rnd now body).db) ∧
    (∀ clock rnd now messageData,
      uniqueIds (socketSendMessage db clock rnd now messageData).db) ∧
    (∀ e contacts, (webhook db (messagePayload e contacts)).status = 200 →
      ∃ x, e.id = some x ∧
        ((webhook (webhook db (messagePayload e contacts)).db
          (messagePayload e contacts)).db.withId x).length = 1) ∧
    (∀ e contacts, (processPayload db (messagePayload e contacts)).status = 200 →
      ∃ x, e.id = some x ∧
        ((processPayload (processPayload db (messagePayload e contacts)).db
          (messagePayload e contacts)).db.withId x).length = 1) ∧
    (∀ payload x, x ∈ (webhook db payload).db.ids →
      ((webhook (webhook db payload).db payload).db.withId x).length = 1) ∧
    (∀ payload x, x ∈ (processPayload db payload).db.ids →
      ((processPayload (processPayload db payload).db payload).db.withId x).length = 1) := by
  have hw : ∀ payload x, x ∈ (webhook db payload).db.ids →
      ((webhook (webhook db payload).db payload).db.withId x).length = 1 := by
    intro payload x hx
    have g1 := webhook_idsGrow db payload
    have g2 := webhook_idsGrow (webhook db payload).db payload
    exact withId_length_eq_one (g2.2 (g1.2 h)) (mem_ids_of_idsGrow g2 hx)
  have hp : ∀ payload x, x ∈ (processPayload db payload).db.ids →
      ((processPayload (processPayload db payload).db payload).db.withId x).length = 1 := by
    intro payload x hx
    have g1 := processPayload_idsGrow db payload
    have g2 := processPayload_idsGrow (processPayload db payload).db payload
    exact withId_length_eq_one (g2.2 (g1.2 h)) (mem_ids_of_idsGrow g2 hx)
  refine ⟨fun p => (webhook_idsGrow db p).2 h, fun p => (processPayload_idsGrow db p).2 h,
    fun c r n b => (sendRoute_idsGrow db c r n b).2 h,
    fun c r n d => (socketSendMessage_idsGrow db c r n d).2 h, ?_, ?_, hw, hp⟩
  · intro e contacts h200
    obtain ⟨x, hx, hmem⟩ := webhook_single_stored h200
    exact ⟨x, hx, hw _ x hmem⟩
  · intro e contacts h200
    obtain ⟨x, hx, hmem⟩ := processPayload_single_stored h200
    exact ⟨x, hx, hp _ x hmem⟩

/-- Witness of C1: from the empty store, the event `m1` is ingested twice through the
`/webhook` handler and exactly one stored message has the id `m1`. -/
theorem C1_message_ids_unique_witness :
    uniqueIds emptyDb ∧
      ∃ x, (textEvent "m1" "c1" 10 "hi").id = some x ∧
        ((webhook (webhook emptyDb (messagePayload (textEvent "m1" "c1" 10 "hi") none)).db
          (messagePayload (textEvent "m1" "c1" 10 "hi") none)).db.withId x).length = 1 :=
  ⟨by decide, (C1_message_ids_unique emptyDb (by decide)).2.2.2.2.1
    (textEvent "m1" "c1" 10 "hi") none (by decide)⟩

theorem webhookMessageStep_users (contact : Option Contact) (st : St) (message : MessageEvent) :
    (finalState (webhookMessageStep contact st message)).db.users = st.db.users ∨
      ∃ c u, contact = some c ∧ findByWaId st.db c.wa_id = none ∧
        (finalState (webhookMessageStep contact st message)).db.users = st.db.users ++ [u] ∧
        some u.wa_id = c.wa_id := by
  unfold webhookMessageStep
  split
  · left; rfl
  · rename_i db1 user hu
    obtain ⟨_, _, hcase⟩ := findOrCreateUser_eq hu
    have hfin : ∀ db2 r, Message.save db1 (inboundInit message) = (db2, r) →
        db2.users = db1.users := by
      intro db2 r hs
      cases r with
      | none => exact (save_none_eq hs).2
      | some doc => exact (save_some_eq hs).2.1
    have key : ∀ db2 : Db, db2.users = db1.users →
        (db2.users = st.db.users ∨ ∃ c u, contact = some c ∧ findByWaId st.db c.wa_id = none ∧
          db2.users = st.db.users ++ [u] ∧ some u.wa_id = c.wa_id) := by
      intro db2 h2
      rcases hcase with ⟨a, _, _⟩ | ⟨c, u, hc, hf, _, hus, hw, _⟩
      · left; rw [h2, a]
      · right; exact ⟨c, u, hc, hf, by rw [h2, hus], hw⟩
    split <;> rename_i hs <;> exact key _ (hfin _ _ hs)

theorem processMessageStep_users (contact : Option Contact) (st : St) (message : MessageEvent) :
    (finalState (processMessageStep contact st message)).db.users = st.db.users ∨
      ∃ c u, contact = some c ∧ findByWaId st.db c.wa_id = none ∧
        (finalState (processMessageStep contact st message)).db.users = st.db.users ++ [u] ∧
        some u.wa_id = c.wa_id := by
  unfold processMessageStep
  split
  · left; rfl
  · rename_i db1 user hu
    obtain ⟨_, _, hcase⟩ := findOrCreateUser_eq hu
    have hfin : ∀ db2 r, Message.save db1 (inboundInit message) = (db2, r) →
        db2.users = db1.users := by
      intro db2 r hs
      cases r with
      | none => exact (save_none_eq hs).2
      | some doc => exact (save_some_eq hs).2.1
    have key : ∀ db2 : Db, db2.users = db1.users →
        (db2.users = st.db.users ∨ ∃ c u, contact = some c ∧ findByWaId st.db c.wa_id = none ∧
          db2.users = st.db.users ++ [u] ∧ some u.wa_id = c.wa_id) := by
      intro db2 h2
      rcases hcase with ⟨a, _, _⟩ | ⟨c, u, hc, hf, _, hus, hw, _⟩
      · left; rw [h2, a]
      · right; exact ⟨c, u, hc, hf, by rw [h2, hus], hw⟩
    split
    · exact key _ rfl
    · split <;> rename_i hs <;> exact key _ (hfin _ _ hs)

/-- C2, as the claim states it, fails: the store holds `m1` and no user; the event `m1`
arrives again with a contact, and both ingestion paths write to the user collection. -/
theorem C2_counterexample :
    (∃ m ∈ oneMessageDb.messages, some m.id = (textEvent "m1" "c1" 10 "hi").id) ∧
    (webhook oneMessageDb (messagePayload (textEvent "m1" "c1" 10 "hi")
        (some [{ wa_id := some "c1", name := some "Al" }]))).db.users ≠ oneMessageDb.users ∧
    (processPayload oneMessageDb (messagePayload (textEvent "m1" "c1" 10 "hi")
        (some [{ wa_id := some "c1", name := some "Al" }]))).db.users ≠ oneMessageDb.users := by
  decide

/-- C2, amended. For every store and every webhook message event whose id is already
stored, ingesting the event again, through the `/webhook` handler and through
`processPayload`, leaves the message collection unchanged and emits no event; the user
collection is unchanged too, except that a contact of the payload whose `wa_id` is not yet
in the user collection is created. -/
theorem C2_reingestion_writes_no_message (db : Db) (e : MessageEvent)
    (contacts : Option (List Contact)) (h : ∃ m ∈ db.messages, some m.id = e.id) :
    (webhook db (messagePayload e contacts)).db.messages = db.messages ∧
    (webhook db (messagePayload e contacts)).events = [] ∧
    (processPayload db (messagePayload e contacts)).db.messages = db.messages ∧
    (processPayload db (messagePayload e contacts)).events = [] ∧
    ((webhook db (messagePayload e contacts)).db.users = db.users ∨
      ∃ c u, (contacts.getD []).head? = some c ∧ findByWaId db c.wa_id = none ∧
        (webhook db (messagePayload e contacts)).db.users = db.users ++ [u] ∧
        some u.wa_id = c.wa_id) ∧
    ((processPayload db (messagePayload e contacts)).db.users = db.users ∨
      ∃ c u, (contacts.getD []).head? = some c ∧ findByWaId db c.wa_id = none ∧
        (processPayload db (messagePayload e contacts)).db.users = db.users ++ [u] ∧
        some u.wa_id = c.wa_id) := by
  obtain ⟨m, hm, hme⟩ := h
  have hu1 := webhookMessageStep_users (contacts.getD []).head? { db := db, events := [] } e
  have hu2 := processMessageStep_users (contacts.getD []).head? { db := db, events := [] } e
  rw [webhook_single, processPayload_single]
  cases hs : webhookMessageStep (contacts.getD []).head? { db := db, events := [] } e with
  | ok st1 =>
    exfalso
    obtain ⟨doc, _, _, _, _, c, d⟩ := webhookMessageStep_ok hs
    have hid := (validate_fields d).2.1
    apply c m hm
    have : some m.id = some doc.id := hme.trans hid.symm
    simpa using this
  | error st1 =>
    rw [hs] at hu1
    obtain ⟨a1, b1⟩ := webhookMessageStep_error hs
    cases hp : processMessageStep (contacts.getD []).head? { db := db, events := [] } e with
    | error st2 =>
      rw [hp] at hu2
      obtain ⟨a2, b2⟩ := processMessageStep_error hp
      exact ⟨a1, b1, a2, b2, hu1, hu2⟩
    | ok st2 =>
      rw [hp] at hu2
      obtain ⟨b2, h2⟩ := processMessageStep_ok hp
      rcases h2 with ⟨a2, _⟩ | ⟨doc, _, _, c, d⟩
      · exact ⟨a1, b1, a2, b2, hu1, hu2⟩
      · exfalso
        have hid := (validate_fields d).2.1
        apply c m hm
        have : some m.id = some doc.id := hme.trans hid.symm
        simpa using this

/-- Witness of the amended C2: the event `m1` arrives again at a store that holds it. -/
theorem C2_reingestion_writes_no_message_witness :
    (∃ m ∈ oneMessageDb.messages, some m.id = (textEvent "m1" "c1" 10 "hi").id) ∧
    (webhook oneMessageDb (messagePayload (textEvent "m1" "c1" 10 "hi") none)).db.messages
      = oneMessageDb.messages ∧
    (webhook oneMessageDb (messagePayload (textEvent "m1" "c1" 10 "hi") none)).events = [] :=
  ⟨by decide,
   (C2_reingestion_writes_no_message oneMessageDb (textEvent "m1" "c1" 10 "hi") none
      (by decide)).1,
   (C2_reingestion_writes_no_message oneMessageDb (textEvent "m1" "c1" 10 "hi") none
      (by decide)).2.1⟩

theorem findOneAndUpdate_forall₂ (filter : Message → Bool) (status : String)
    (msgs : List Message) :
    List.Forall₂ (fun m m1 => m1 = { m with status := m1.status } ∧
        (m1.status = m.status ∨ m1.status = status))
      msgs (findOneAndUpdate filter status msgs).1 := by
  induction msgs with
  | nil => exact List.Forall₂.nil
  | cons m ms ih =>
    unfold findOneAndUpdate
    split
    · refine List.Forall₂.cons ⟨rfl, Or.inr rfl⟩ ?_
      exact List.forall₂_same.mpr (fun x _ => ⟨rfl, Or.inl rfl⟩)
    · exact List.Forall₂.cons ⟨rfl, Or.inl rfl⟩ ih

theorem findOneAndUpdate_hit (filter : Message → Bool) (status : String)
    (pre : List Message) (m : Message) (post : List Message)
    (hpre : ∀ x ∈ pre, filter x = false) (hm : filter m = true) :
    findOneAndUpdate filter status (pre ++ m :: post)
      = (pre ++ { m with status := status } :: post, some { m with status := status }) := by
  induction pre with
  | nil =>
    simp only [List.nil_append]
    unfold findOneAndUpdate
    simp [hm]
  | cons x xs ih =>
    have hx : filter x = false := hpre x (List.mem_cons_self x xs)
    have ih1 := ih (fun y hy => hpre y (List.mem_cons_of_mem x hy))
    simp only [List.cons_append]
    unfold findOneAndUpdate
    simp [hx, ih1]

theorem findOneAndUpdate_miss (filter : Message → Bool) (status : String)
    (msgs : List Message) (h : ∀ x ∈ msgs, filter x = false) :
    findOneAndUpdate filter status msgs = (msgs, none) := by
  induction msgs with
  | nil => rfl
  | cons x xs ih =>
    have hx : filter x = false := h x (List.mem_cons_self x xs)
    have ih1 := ih (fun y hy => h y (List.mem_cons_of_mem x hy))
    unfold findOneAndUpdate
    simp [hx, ih1]

theorem findOneAndUpdate_none (filter : Message → Bool) (status : String)
    (msgs : List Message) (h : (findOneAndUpdate filter status msgs).2 = none) :
    (findOneAndUpdate filter status msgs).1 = msgs := by
  induction msgs with
  | nil => rfl
  | cons x xs ih =>
    unfold findOneAndUpdate at h ⊢
    split
    · rename_i hx
      simp [hx] at h
    · rename_i hx
      simp only [hx] at h
      simp only [List.cons.injEq, true_and]
      exact ih (by simpa using h)

theorem webhook_status_single (db : Db) (ev : StatusEvent) :
    (webhook db (statusPayload [ev])).db.messages
      = (findOneAndUpdate (statusFilter ev.id) ev.status db.messages).1 ∧
    (webhook db (statusPayload [ev])).events
      = (if (findOneAndUpdate (statusFilter ev.id) ev.status db.messages).2.isSome then
          [Event.message_status_update ev.id ev.status] else []) ∧
    (webhook db (statusPayload [ev])).status = 200 := by
  simp only [webhook, statusPayload, onFirstChange, List.head?_cons, if_true, webhookChange,
    webhookStatuses, List.foldl_cons, List.foldl_nil, webhookStatusStep]
  cases h : findOneAndUpdate (statusFilter ev.id) ev.status db.messages with
  | mk msgs r =>
    cases r with
    | none =>
      have := findOneAndUpdate_none (statusFilter ev.id) ev.status db.messages (by rw [h])
      rw [h] at this
      simp only at this
      simp [this]
    | some doc => simp

theorem patchStatusRoute_messages (castObjectId : String → Option Nat) (db : Db)
    (messageId : String) (status : Option String) :
    (patchStatusRoute castObjectId db messageId status).db.messages = db.messages ∨
      ∃ s oid, status = some s ∧ s ∈ ["sent", "delivered", "read"] ∧
        castObjectId messageId = some oid ∧
        (patchStatusRoute castObjectId db messageId status).db.messages
          = (findOneAndUpdate (fun m => decide (m.id = messageId) || decide (m._id = oid)) s
              db.messages).1 := by
  unfold patchStatusRoute
  split
  · left; rfl
  · rename_i s
    split
    · left; rfl
    · rename_i hs
      split
      · left; rfl
      · rename_i oid hc
        split
        · left; rfl
        · rename_i msgs doc hf
          right
          refine ⟨s, oid, rfl, Decidable.not_not.mp hs, hc, ?_⟩
          rw [hf]

theorem patchStatusRoute_accepted (castObjectId : String → Option Nat) (db : Db)
    (messageId : String) {s : String} {oid : Nat} (hin : s ∈ ["sent", "delivered", "read"])
    (hc : castObjectId messageId = some oid) :
    (patchStatusRoute castObjectId db messageId (some s)).db.messages
      = (findOneAndUpdate (fun m => decide (m.id = messageId) || decide (m._id = oid)) s
          db.messages).1 := by
  unfold patchStatusRoute
  simp only [hc]
  rw [if_neg (not_not.mpr hin)]
  cases hf : findOneAndUpdate (fun m => decide (m.id = messageId) || decide (m._id = oid)) s
      db.messages with
  | mk msgs r =>
    cases r with
    | none =>
      have := findOneAndUpdate_none _ s db.messages (by rw [hf])
      rw [hf] at this
      simp only at this
      simp [this]
    | some doc => rfl

/-- C3, as the claim states it, fails: the stored message `m1` has the status `read`; a
webhook status event for `m1`, and a `PATCH` request that addresses the message by its
ObjectId, asking for `sent` both store `sent`, which is neither the old status nor a
legal transition from it. -/
theorem C3_counterexample :
    readMessageDb.messages = [sampleMessage 0 "m1" "c1" 10000 "read" true] ∧
    (webhook readMessageDb (statusPayload [{ id := "m1", status := "sent" }])).db.messages
      = [sampleMessage 0 "m1" "c1" 10000 "sent" true] ∧
    (patchStatusRoute sampleCast readMessageDb "507f1f77bcf86cd799439011"
        (some "sent")).db.messages
      = [sampleMessage 0 "m1" "c1" 10000 "sent" true] ∧
    "sent" ≠ "read" ∧ ¬ legalTransition "read" "sent" := by
  decide

/-- C3, amended. For every store and every status update applied through a webhook
status event or through `PATCH /:messageId/status`, every stored message keeps all its
fields but `status`, and its status afterwards is either unchanged or the requested
status (for `PATCH`, one of sent, delivered, read). The handlers do not compare the
requested status with the current one: the first message that matches the request gets
the requested status whatever its current status is. -/
theorem C3_status_update_applies_request (db : Db) (ev : StatusEvent)
    (castObjectId : String → Option Nat) (messageId : String) (status : Option String) :
    List.Forall₂ (fun m m1 => m1 = { m with status := m1.status } ∧
        (m1.status = m.status ∨ m1.status = ev.status))
      db.messages (webhook db (statusPayload [ev])).db.messages ∧
    (∀ pre m post, db.messages = pre ++ m :: post →
      (∀ x ∈ pre, x.id ≠ ev.id ∧ x.meta_msg_id ≠ some ev.id) →
      (m.id = ev.id ∨ m.meta_msg_id = some ev.id) →
      (webhook db (statusPayload [ev])).db.messages
        = pre ++ { m with status := ev.status } :: post) ∧
    List.Forall₂ (fun m m1 => m1 = { m with status := m1.status } ∧
        (m1.status = m.status ∨
          (status = some m1.status ∧ m1.status ∈ ["sent", "delivered", "read"])))
      db.messages (patchStatusRoute castObjectId db messageId status).db.messages ∧
    (∀ s oid pre m post, status = some s → s ∈ ["sent", "delivered", "read"] →
      castObjectId messageId = some oid → db.messages = pre ++ m :: post →
      (∀ x ∈ pre, x.id ≠ messageId ∧ x._id ≠ oid) →
      (m.id = messageId ∨ m._id = oid) →
      (patchStatusRoute castObjectId db messageId status).db.messages
        = pre ++ { m with status := s } :: post) := by
  refine ⟨?_, ?_, ?_, ?_⟩
  · rw [(webhook_status_single db ev).1]
    exact findOneAndUpdate_forall₂ _ _ _
  · intro pre m post hdb hpre hm
    rw [(webhook_status_single db ev).1, hdb, findOneAndUpdate_hit]
    · intro x hx
      have := hpre x hx
      simp [statusFilter, this.1, this.2]
    · simpa [statusFilter] using hm
  · rcases patchStatusRoute_messages castObjectId db messageId status with h | ⟨s, oid, hs, hin, _, h⟩
    · rw [h]
      exact List.forall₂_same.mpr (fun x _ => ⟨rfl, Or.inl rfl⟩)
    · rw [h]
      refine List.Forall₂.imp ?_ (findOneAndUpdate_forall₂ _ s db.messages)
      intro a b hab
      refine ⟨hab.1, ?_⟩
      rcases hab.2 with h1 | h1
      · exact Or.inl h1
      · exact Or.inr ⟨by rw [hs, h1], by rw [h1]; exact hin⟩
  · intro s oid pre m post hs hin hc hdb hpre hm
    subst hs
    rw [patchStatusRoute_accepted castObjectId db messageId hin hc, hdb, findOneAndUpdate_hit]
    · intro x hx
      have := hpre x hx
      simp [this.1, this.2]
    · simpa using hm

/-- Witness of the amended C3: the webhook status event `sent` for the read message `m1`
is applied. -/
theorem C3_status_update_applies_request_witness :
    readMessageDb.messages = [] ++ sampleMessage 0 "m1" "c1" 10000 "read" true :: [] ∧
    (webhook readMessageDb (statusPayload [{ id := "m1", status := "sent" }])).db.messages
      = [] ++ { sampleMessage 0 "m1" "c1" 10000 "read" true with status := "sent" } :: [] :=
  ⟨by decide,
   (C3_status_update_applies_request readMessageDb { id := "m1", status := "sent" }
      (fun _ => none) "m1" none).2.1 [] (sampleMessage 0 "m1" "c1" 10000 "read" true) []
      (by decide) (fun x hx => absurd hx (List.not_mem_nil x)) (Or.inl (by decide))⟩

theorem groupAccumulate_keys (m : Message) (groups : List ConversationEntry) :
    (groupAccumulate m groups).map (fun e => e._id)
      = if m.wa_id ∈ groups.map (fun e => e._id) then groups.map (fun e => e._id)
        else groups.map (fun e => e._id) ++ [m.wa_id] := by
  induction groups with
  | nil => simp [groupAccumulate]
  | cons e es ih =>
    unfold groupAccumulate
    by_cases h : e._id = m.wa_id
    · simp [h]
    · have h1 : ¬ m.wa_id = e._id := fun h2 => h h2.symm
      simp only [h, if_false, List.map_cons, ih, List.mem_cons, h1, false_or]
      split <;> simp

theorem groupAccumulate_mem (m : Message) (groups : List ConversationEntry)
    (hnd : (groups.map (fun e => e._id)).Nodup)
    (e1 : ConversationEntry) (h : e1 ∈ groupAccumulate m groups) :
    (e1 ∈ groups ∧ e1._id ≠ m.wa_id) ∨
    (∃ e ∈ groups, e._id = m.wa_id ∧
      e1 = { e with messageCount := e.messageCount + 1,
                    unreadCount := e.unreadCount + unreadCond m }) ∨
    (m.wa_id ∉ groups.map (fun e => e._id) ∧
      e1 = { _id := m.wa_id, lastMessage := m, messageCount := 1,
             unreadCount := unreadCond m }) := by
  induction groups with
  | nil =>
    simp only [groupAccumulate, List.mem_singleton] at h
    right; right
    exact ⟨by simp, h⟩
  | cons e es ih =>
    unfold groupAccumulate at h
    by_cases hk : e._id = m.wa_id
    · rw [if_pos hk, List.mem_cons] at h
      rcases h with h | h
      · right; left
        exact ⟨e, List.mem_cons_self e es, hk, h⟩
      · left
        refine ⟨List.mem_cons_of_mem e h, ?_⟩
        intro h2
        rw [List.map_cons, List.nodup_cons] at hnd
        apply hnd.1
        rw [hk, ← h2]
        exact List.mem_map_of_mem (fun e => e._id) h
    · rw [if_neg hk, List.mem_cons] at h
      rw [List.map_cons, List.nodup_cons] at hnd
      rcases h with h | h
      · left
        exact ⟨by rw [h]; exact List.mem_cons_self e es, by rw [h]; exact hk⟩
      · rcases ih hnd.2 h with ⟨a, b⟩ | ⟨e0, a, b, c⟩ | ⟨a, b⟩
        · left; exact ⟨List.mem_cons_of_mem e a, b⟩
        · right; left; exact ⟨e0, List.mem_cons_of_mem e a, b, c⟩
        · right; right
          refine ⟨?_, b⟩
          simp only [List.map_cons, List.mem_cons, not_or]
          exact ⟨fun h2 => hk h2.symm, a⟩

theorem thread_snoc (x : String) (seen : List Message) (m : Message) :
    (thread x (seen ++ [m])).length
      = (thread x seen).length + (if m.wa_id = x then 1 else 0) := by
  unfold thread
  rw [List.filter_append, List.length_append]
  by_cases h : m.wa_id = x <;> simp [List.filter_cons, h]

theorem countUnread_snoc (x : String) (seen : List Message) (m : Message) :
    countUnread x (seen ++ [m])
      = countUnread x seen + (if m.wa_id = x then unreadCond m else 0) := by
  unfold countUnread
  rw [List.filter_append, List.length_append]
  by_cases h : m.wa_id = x
  · by_cases h1 : m.is_from_me = false ∧ m.status ≠ "read"
    · simp [List.filter_cons, isUnread, unreadCond, h, h1]
    · have h2 : isUnread x m = false := by
        simp only [isUnread, h, decide_True, Bool.true_and]
        rw [not_and_or] at h1
        rcases h1 with h1 | h1
        · simp at h1; simp [h1]
        · simp at h1; simp [h1]
      simp [List.filter_cons, h2, unreadCond, h, h1]
  · simp [List.filter_cons, isUnread, h]

theorem find?_snoc_of_some {seen : List Message} {p : Message → Bool} {a : Message}
    (m : Message) (h : seen.find? p = some a) : (seen ++ [m]).find? p = some a := by
  rw [List.find?_append, h]; rfl

theorem groupInv_nil : GroupInv [] [] :=
  ⟨List.nodup_nil, fun _ h => absurd h (List.not_mem_nil _), fun _ h => absurd h (List.not_mem_nil _)⟩

theorem groupInv_step {groups : List ConversationEntry} {seen : List Message} (m : Message)
    (h : GroupInv groups seen) : GroupInv (groupAccumulate m groups) (seen ++ [m]) := by
  obtain ⟨hnd, hent, hcov⟩ := h
  refine ⟨?_, ?_, ?_⟩
  · rw [groupAccumulate_keys]
    split
    · exact hnd
    · rename_i hnot
      refine List.Nodup.append hnd (List.nodup_singleton _) ?_
      intro a ha hb
      rw [List.mem_singleton] at hb
      exact hnot (hb ▸ ha)
  · intro e1 he1
    rcases groupAccumulate_mem m groups hnd e1 he1 with ⟨a, b⟩ | ⟨e, a, b, c⟩ | ⟨a, b⟩
    · obtain ⟨f1, f2, f3⟩ := hent e1 a
      have hb : ¬ m.wa_id = e1._id := fun h2 => b h2.symm
      refine ⟨find?_snoc_of_some m f1, ?_, ?_⟩
      · rw [thread_snoc, if_neg hb, f2]; rfl
      · rw [countUnread_snoc, if_neg hb, f3]; rfl
    · obtain ⟨f1, f2, f3⟩ := hent e a
      subst c
      refine ⟨find?_snoc_of_some m f1, ?_, ?_⟩
      · show e.messageCount + 1 = (thread e._id (seen ++ [m])).length
        rw [thread_snoc, if_pos b.symm, f2]
      · show e.unreadCount + unreadCond m = countUnread e._id (seen ++ [m])
        rw [countUnread_snoc, if_pos b.symm, f3]
    · subst b
      have hnone : ∀ x ∈ seen, x.wa_id ≠ m.wa_id := by
        intro x hx hxm
        obtain ⟨e, he, hek⟩ := hcov x hx
        apply a
        rw [← hxm, ← hek]
        exact List.mem_map_of_mem (fun e => e._id) he
      refine ⟨?_, ?_, ?_⟩
      · show (seen ++ [m]).find? (fun x => decide (x.wa_id = m.wa_id)) = some m
        rw [List.find?_append]
        have : seen.find? (fun x => decide (x.wa_id = m.wa_id)) = none := by
          rw [List.find?_eq_none]
          intro x hx
          simpa using hnone x hx
        rw [this]
        simp
      · show 1 = (thread m.wa_id (seen ++ [m])).length
        rw [thread_snoc, if_pos rfl]
        have : thread m.wa_id seen = [] := by
          unfold thread
          rw [List.filter_eq_nil_iff]
          intro x hx
          simpa using hnone x hx
        rw [this]; rfl
      · show unreadCond m = countUnread m.wa_id (seen ++ [m])
        rw [countUnread_snoc, if_pos rfl]
        have : countUnread m.wa_id seen = 0 := by
          unfold countUnread
          rw [List.length_eq_zero, List.filter_eq_nil_iff]
          intro x hx
          simp [isUnread, hnone x hx]
        rw [this]; simp
  · intro x hx
    have hk : x.wa_id ∈ (groupAccumulate m groups).map (fun e => e._id) := by
      rw [groupAccumulate_keys]
      rw [List.mem_append, List.mem_singleton] at hx
      rcases hx with hx | hx
      · obtain ⟨e, he, hek⟩ := hcov x hx
        have : x.wa_id ∈ groups.map (fun e => e._id) := by
          rw [← hek]; exact List.mem_map_of_mem (fun e => e._id) he
        split
        · exact this
        · exact List.mem_append_left _ this
      · subst hx
        split
        · rename_i hin; exact hin
        · simp
    rw [List.mem_map] at hk
    exact hk

theorem groupFrom_inv (docs : List Message) :
    ∀ (groups : List ConversationEntry) (seen : List Message), GroupInv groups seen →
      GroupInv (groupFrom groups docs) (seen ++ docs) := by
  induction docs with
  | nil => intro groups seen h; simpa [groupFrom] using h
  | cons m ms ih =>
    intro groups seen h
    have := ih (groupAccumulate m groups) (seen ++ [m]) (groupInv_step m h)
    simpa [groupFrom] using this

theorem sortByTimestampDesc_perm (docs : List Message) :
    (sortByTimestampDesc docs).Perm docs :=
  List.perm_insertionSort _ docs

theorem sortByTimestampDesc_sorted (docs : List Message) :
    List.Sorted (fun a b => b.timestamp ≤ a.timestamp) (sortByTimestampDesc docs) :=
  List.sorted_insertionSort _ docs

theorem sortByLastMessageDesc_perm (groups : List ConversationEntry) :
    (sortByLastMessageDesc groups).Perm groups :=
  List.perm_insertionSort _ groups

theorem find?_first_of_sorted {l : List Message} {p : Message → Bool} {a : Message}
    (hs : List.Sorted (fun a b => b.timestamp ≤ a.timestamp) l) (hf : l.find? p = some a) :
    ∀ b ∈ l, p b = true → b.timestamp ≤ a.timestamp := by
  induction l with
  | nil => simp at hf
  | cons x xs ih =>
    intro b hb hpb
    rw [List.sorted_cons] at hs
    by_cases hx : p x = true
    · rw [List.find?_cons_of_pos _ hx] at hf
      simp only [Option.some.injEq] at hf
      subst hf
      rcases List.mem_cons.mp hb with h | h
      · rw [h]
      · exact hs.1 b h
    · rw [List.find?_cons_of_neg _ hx] at hf
      rcases List.mem_cons.mp hb with h | h
      · rw [h] at hpb; exact absurd hpb hx
      · exact ih hs.2 hf b h hpb

theorem thread_length_perm {l1 l2 : List Message} (h : l1.Perm l2) (x : String) :
    (thread x l1).length = (thread x l2).length :=
  (h.filter _).length_eq

theorem countUnread_perm {l1 l2 : List Message} (h : l1.Perm l2) (x : String) :
    countUnread x l1 = countUnread x l2 :=
  (h.filter _).length_eq

theorem groups_inv (db : Db) :
    GroupInv (groupFrom [] (sortByTimestampDesc db.messages)) (sortByTimestampDesc db.messages) := by
  have := groupFrom_inv (sortByTimestampDesc db.messages) [] [] groupInv_nil
  simpa using this

theorem mem_getConversations {db : Db} {e : ConversationEntry} :
    e ∈ getConversations db ↔ e ∈ groupFrom [] (sortByTimestampDesc db.messages) :=
  (sortByLastMessageDesc_perm _).mem_iff

theorem getConversations_entry {db : Db} {e : ConversationEntry} (he : e ∈ getConversations db) :
    e.lastMessage ∈ db.messages ∧ e.lastMessage.wa_id = e._id ∧
      (∀ m ∈ db.messages, m.wa_id = e._id → m.timestamp ≤ e.lastMessage.timestamp) ∧
      e.messageCount = (thread e._id db.messages).length ∧
      e.unreadCount = countUnread e._id db.messages := by
  rw [mem_getConversations] at he
  obtain ⟨_, hent, _⟩ := groups_inv db
  obtain ⟨f1, f2, f3⟩ := hent e he
  have hp := sortByTimestampDesc_perm db.messages
  refine ⟨?_, ?_, ?_, ?_, ?_⟩
  · exact hp.mem_iff.mp (List.mem_of_find?_eq_some f1)
  · have := List.find?_some f1
    simpa using this
  · intro m hm hmx
    exact find?_first_of_sorted (sortByTimestampDesc_sorted db.messages) f1 m
      (hp.mem_iff.mpr hm) (by simpa using hmx)
  · rw [f2]; exact thread_length_perm hp _
  · rw [f3]; exact countUnread_perm hp _

theorem getConversations_keys_nodup (db : Db) :
    ((getConversations db).map (fun e => e._id)).Nodup := by
  have hp := (sortByLastMessageDesc_perm (groupFrom [] (sortByTimestampDesc db.messages))).map
    (fun e => e._id)
  exact hp.nodup_iff.mpr (groups_inv db).1

theorem getConversations_cover {db : Db} {m : Message} (hm : m ∈ db.messages) :
    ∃ e ∈ getConversations db, e._id = m.wa_id := by
  obtain ⟨_, _, hcov⟩ := groups_inv db
  obtain ⟨e, he, hk⟩ := hcov m ((sortByTimestampDesc_perm db.messages).mem_iff.mpr hm)
  exact ⟨e, mem_getConversations.mpr he, hk⟩

theorem getConversations_sorted (db : Db) :
    List.Sorted (fun a b => b.lastMessage.timestamp ≤ a.lastMessage.timestamp)
      (getConversations db) :=
  List.sorted_insertionSort _ _

theorem countUnread_eq (x : String) (msgs : List Message) :
    countUnread x msgs
      = (msgs.filter (fun m =>
          decide (m.wa_id = x ∧ m.is_from_me = false ∧ m.status ≠ "read"))).length := by
  unfold countUnread
  congr 1
  apply List.filter_congr
  intro m _
  simp only [isUnread]
  by_cases h1 : m.wa_id = x <;> by_cases h2 : m.is_from_me = false <;>
    by_cases h3 : m.status = "read" <;> simp [h1, h2, h3]

/-- C4. For every store and every contact `x` that has at least one message,
`Message.getConversations` has an entry for `x`, and the `unreadCount` of every entry it
reports for `x` equals the number of stored messages with `wa_id = x`, `is_from_me = false`
and `status ≠ 'read'`. -/
theorem C4_unread_count_recomputable (db : Db) (x : String)
    (h : ∃ m ∈ db.messages, m.wa_id = x) :
    (∃ e ∈ getConversations db, e._id = x) ∧
    ∀ e ∈ getConversations db, e._id = x →
      e.unreadCount = (db.messages.filter (fun m =>
        decide (m.wa_id = x ∧ m.is_from_me = false ∧ m.status ≠ "read"))).length := by
  obtain ⟨m, hm, hmx⟩ := h
  refine ⟨?_, ?_⟩
  · obtain ⟨e, he, hk⟩ := getConversations_cover hm
    exact ⟨e, he, hk.trans hmx⟩
  · intro e he hk
    rw [(getConversations_entry he).2.2.2.2, hk, countUnread_eq]

/-- Witness of C4: in the sample store the contact `c1` has one unread inbound message. -/
theorem C4_unread_count_recomputable_witness :
    (∃ m ∈ twoContactsDb.messages, m.wa_id = "c1") ∧
    ((∃ e ∈ getConversations twoContactsDb, e._id = "c1") ∧
      ∀ e ∈ getConversations twoContactsDb, e._id = "c1" →
        e.unreadCount = (twoContactsDb.messages.filter (fun m =>
          decide (m.wa_id = "c1" ∧ m.is_from_me = false ∧ m.status ≠ "read"))).length) :=
  ⟨by decide, C4_unread_count_recomputable twoContactsDb "c1" (by decide)⟩

theorem markThreadRead_read (x : String) (msgs : List Message) :
    ∀ m ∈ markThreadRead x msgs, m.wa_id = x → m.is_from_me = false → m.status = "read" := by
  intro m hm hx hf
  unfold markThreadRead at hm
  rw [List.mem_map] at hm
  obtain ⟨a, _, ha⟩ := hm
  by_cases hc : a.wa_id = x ∧ a.is_from_me = false ∧ a.status ≠ "read"
  · rw [if_pos hc] at ha
    rw [← ha]
  · rw [if_neg hc] at ha
    subst ha
    by_contra hne
    exact hc ⟨hx, hf, hne⟩

theorem markThreadRead_wa_ids (x : String) (msgs : List Message) :
    (markThreadRead x msgs).map (fun m => m.wa_id) = msgs.map (fun m => m.wa_id) := by
  unfold markThreadRead
  rw [List.map_map]
  apply List.map_congr_left
  intro a _
  simp only [Function.comp]
  split <;> rfl

theorem countUnread_markThreadRead (x : String) (msgs : List Message) :
    countUnread x (markThreadRead x msgs) = 0 := by
  unfold countUnread
  rw [List.length_eq_zero, List.filter_eq_nil_iff]
  intro m hm
  simp only [isUnread, Bool.and_eq_true, decide_eq_true_eq, Bool.not_eq_true', not_and]
  intro hx hf
  have := markThreadRead_read x msgs m hm hx hf
  simp [this]

theorem chatRoute_ok_iff (db : Db) (x : String) (page limit : Option Int) :
    (chatRoute db x page limit).status = 200
      ↔ 0 ≤ (parseIntOr page 1 - 1) * parseIntOr limit 50 := by
  unfold chatRoute getChatMessages
  by_cases h : (parseIntOr page 1 - 1) * parseIntOr limit 50 < 0
  · simp [h]
  · simp only [h, if_false]
    simp only [true_iff]
    exact not_lt.mp h

theorem chatRoute_db {db : Db} {x : String} {page limit : Option Int}
    (h : (chatRoute db x page limit).status = 200) :
    (chatRoute db x page limit).db.messages = markThreadRead x db.messages ∧
      (chatRoute db x page limit).db.users = db.users := by
  unfold chatRoute getChatMessages at h ⊢
  by_cases hs : (parseIntOr page 1 - 1) * parseIntOr limit 50 < 0
  · simp [hs] at h
  · simp [hs]

/-- C5. Mark-thread-read: `GET /api/messages/chat/x` answers 200 exactly when the skip
computed from the query, `(page - 1) * limit`, is not negative (as for the default query
and for every `page ≥ 1`, `limit ≥ 1`); and whenever it answers 200, every stored message
with `wa_id = x` and `is_from_me = false` has the status `read` afterwards, and every
entry that `Message.getConversations` then reports for `x` has `unreadCount = 0` (there
is such an entry when `x` has a message). -/
theorem C5_mark_thread_read (db : Db) (x : String) (page limit : Option Int) :
    ((chatRoute db x page limit).status = 200
      ↔ 0 ≤ (parseIntOr page 1 - 1) * parseIntOr limit 50) ∧
    ((chatRoute db x page limit).status = 200 →
      (∀ m ∈ (chatRoute db x page limit).db.messages,
        m.wa_id = x → m.is_from_me = false → m.status = "read") ∧
      (∀ e ∈ getConversations (chatRoute db x page limit).db, e._id = x → e.unreadCount = 0) ∧
      ((∃ m ∈ db.messages, m.wa_id = x) →
        ∃ e ∈ getConversations (chatRoute db x page limit).db, e._id = x)) := by
  refine ⟨chatRoute_ok_iff db x page limit, fun h => ?_⟩
  obtain ⟨hm, _⟩ := chatRoute_db h
  refine ⟨?_, ?_, ?_⟩
  · rw [hm]; exact markThreadRead_read x db.messages
  · intro e he hk
    rw [(getConversations_entry he).2.2.2.2, hk, hm]
    exact countUnread_markThreadRead x db.messages
  · rintro ⟨m, hmem, hmx⟩
    have hw : x ∈ (chatRoute db x page limit).db.messages.map (fun m => m.wa_id) := by
      rw [hm, markThreadRead_wa_ids, ← hmx]
      exact List.mem_map_of_mem (fun m => m.wa_id) hmem
    rw [List.mem_map] at hw
    obtain ⟨m1, hm1, hm1x⟩ := hw
    obtain ⟨e, he, hk⟩ := getConversations_cover hm1
    exact ⟨e, he, hk.trans hm1x⟩

/-- Witness of C5: the thread of `c1` is opened with the default query; its unread
count, 1 before, is 0 afterwards. -/
theorem C5_mark_thread_read_witness :
    (chatRoute twoContactsDb "c1" none none).status = 200 ∧
    (∀ e ∈ getConversations (chatRoute twoContactsDb "c1" none none).db,
      e._id = "c1" → e.unreadCount = 0) :=
  ⟨by decide,
   ((C5_mark_thread_read twoContactsDb "c1" none none).2 (by decide)).2.1⟩

/-- C6. For every store, the sequence returned by `Message.getConversations` is sorted by
the timestamp of the entries' `lastMessage`, newest first; `GET
/api/messages/conversations` returns the same entries in the same order, so its answer is
sorted in the same way. -/
theorem C6_conversations_sorted (db : Db) :
    List.Sorted (fun a b => b.lastMessage.timestamp ≤ a.lastMessage.timestamp)
      (getConversations db) ∧
    List.Sorted (fun (a b : Conversation) => b.lastMessage.timestamp ≤ a.lastMessage.timestamp)
      (conversationsRoute db) ∧
    (conversationsRoute db).map (fun c => (c.wa_id, c.lastMessage, c.messageCount, c.unreadCount))
      = (getConversations db).map
          (fun e => (e._id, e.lastMessage, e.messageCount, e.unreadCount)) := by
  refine ⟨getConversations_sorted db, ?_, ?_⟩
  · unfold conversationsRoute
    unfold List.Sorted
    rw [List.pairwise_map]
    exact getConversations_sorted db
  · unfold conversationsRoute
    rw [List.map_map]
    rfl

/-- C6 on the sample store: the entries come newest first. -/
theorem C6_conversations_sorted_witness :
    (getConversations twoContactsDb).map (fun e => (e._id, e.lastMessage.timestamp))
      = [("c1", 9000), ("c2", 7000)] ∧
    List.Sorted (fun a b => b.lastMessage.timestamp ≤ a.lastMessage.timestamp)
      (getConversations twoContactsDb) :=
  ⟨by decide, (C6_conversations_sorted twoContactsDb).1⟩

/-- C7. For every store, `Message.getConversations` returns exactly one entry per
distinct `wa_id` of the message collection: no `wa_id` is the key of two entries, every
stored message has the entry of its `wa_id`, every entry is the entry of some stored
message, and its `messageCount` is the number of messages of that contact. -/
theorem C7_one_entry_per_contact (db : Db) :
    ((getConversations db).map (fun e => e._id)).Nodup ∧
    (∀ m ∈ db.messages, ∃ e ∈ getConversations db, e._id = m.wa_id) ∧
    (∀ e ∈ getConversations db,
      (∃ m ∈ db.messages, m.wa_id = e._id) ∧
      e.messageCount = (db.messages.filter (fun m => decide (m.wa_id = e._id))).length) := by
  refine ⟨getConversations_keys_nodup db, fun m hm => getConversations_cover hm, ?_⟩
  intro e he
  obtain ⟨a, b, _, d, _⟩ := getConversations_entry he
  exact ⟨⟨e.lastMessage, a, b⟩, d⟩

/-- Witness of C7: the sample store has the contacts `c1` (three messages) and `c2`
(one message). -/
theorem C7_one_entry_per_contact_witness :
    (getConversations twoContactsDb).map (fun e => (e._id, e.messageCount))
      = [("c1", 3), ("c2", 1)] ∧
    ∀ m ∈ twoContactsDb.messages, ∃ e ∈ getConversations twoContactsDb, e._id = m.wa_id :=
  ⟨by decide, (C7_one_entry_per_contact twoContactsDb).2.1⟩

/-- C8. Out-of-order last-message guard on the server: for every store, the `lastMessage`
of every entry of `Message.getConversations` is a stored message of the entry's contact
whose timestamp is maximal among the messages of that contact, whatever their order in
the collection (every contact with a message has such an entry). -/
theorem C8_last_message_is_newest (db : Db) :
    (∀ m ∈ db.messages, ∃ e ∈ getConversations db, e._id = m.wa_id) ∧
    ∀ e ∈ getConversations db,
      e.lastMessage ∈ db.messages ∧ e.lastMessage.wa_id = e._id ∧
      ∀ m ∈ db.messages, m.wa_id = e._id → m.timestamp ≤ e.lastMessage.timestamp := by
  refine ⟨fun m hm => getConversations_cover hm, ?_⟩
  intro e he
  obtain ⟨a, b, c, _, _⟩ := getConversations_entry he
  exact ⟨a, b, c⟩

/-- Witness of C8: message `A` (timestamp 10) is ingested, then message `B` (timestamp
5) of the same contact; the last message of the contact is `A`. -/
theorem C8_last_message_is_newest_witness :
    (getConversations (webhook (webhook emptyDb
        (messagePayload (textEvent "A" "c1" 10 "first") none)).db
        (messagePayload (textEvent "B" "c1" 5 "second") none)).db).map
      (fun e => (e._id, e.lastMessage.id)) = [("c1", "A")] ∧
    ∀ e ∈ getConversations (webhook (webhook emptyDb
        (messagePayload (textEvent "A" "c1" 10 "first") none)).db
        (messagePayload (textEvent "B" "c1" 5 "second") none)).db,
      e.lastMessage.wa_id = e._id :=
  ⟨by decide, fun e he => ((C8_last_message_is_newest _).2 e he).2.1⟩

/-- C9, as the claim states it, fails: the conversation of `c1` shows the last message
`A` (timestamp 10000); `ADD_MESSAGE` for the older message `B` (timestamp 5000) of `c1`
replaces it. -/
theorem C9_counterexample :
    oneConversationState.conversations.map (fun c => (c.lastMessage.id, c.lastMessage.timestamp))
      = [("A", 10000)] ∧
    (sampleMessage 1 "B" "c1" 5000 "received" false).timestamp < 10000 ∧
    (chatReducer oneConversationState
        (Action.ADD_MESSAGE (sampleMessage 1 "B" "c1" 5000 "received" false))).conversations.map
      (fun c => (c.lastMessage.id, c.lastMessage.timestamp)) = [("B", 5000)] := by
  decide

/-- C9, amended. For every client state and every message `m`, the reducer's
`ADD_MESSAGE` sets the `lastMessage` of every conversation whose `wa_id` equals `m.wa_id`
to `m`, without comparing timestamps, and leaves the `lastMessage` of every other
conversation as it was. -/
theorem C9_add_message_sets_last_message (state : ChatState) (m : Message) :
    (chatReducer state (Action.ADD_MESSAGE m)).conversations.map
        (fun c => (c.wa_id, c.lastMessage))
      = state.conversations.map
          (fun c => (c.wa_id, if c.wa_id = m.wa_id then m else c.lastMessage)) := by
  simp only [chatReducer, List.map_map]
  apply List.map_congr_left
  intro c _
  simp only [Function.comp]
  split <;> rfl

theorem appended_refl (P : Message → Prop) (db : Db) : Appended P db db :=
  ⟨[], by simp, fun _ h => absurd h (List.not_mem_nil _)⟩

theorem appended_trans {P : Message → Prop} {a b c : Db} (h1 : Appended P a b)
    (h2 : Appended P b c) : Appended P a c := by
  obtain ⟨t1, e1, p1⟩ := h1
  obtain ⟨t2, e2, p2⟩ := h2
  refine ⟨t1 ++ t2, by rw [e2, e1, List.append_assoc], ?_⟩
  intro d hd
  rcases List.mem_append.mp hd with h | h
  · exact p1 d h
  · exact p2 d h

theorem appended_of_eq (P : Message → Prop) {db db1 : Db} (h : db1.messages = db.messages) :
    Appended P db db1 :=
  ⟨[], by simp [h], fun _ h => absurd h (List.not_mem_nil _)⟩

theorem appended_one {P : Message → Prop} {db db1 : Db} {d : Message}
    (h : db1.messages = db.messages ++ [d]) (hp : P d) : Appended P db db1 :=
  ⟨[d], h, fun x hx => by rw [List.mem_singleton] at hx; rw [hx]; exact hp⟩

theorem inboundOf_of_validate {oid : Nat} {e : MessageEvent} {d : Message}
    {es : List MessageEvent} (he : e ∈ es) (h : Message.validate oid (inboundInit e) = some d) :
    InboundOf es d := by
  obtain ⟨_, f2, f3, f4, f5, f6, _⟩ := validate_fields h
  refine ⟨f6, f5, e, he, f2, f3, ?_⟩
  have : some d.content = some (getMessageContent e) := f4
  simpa using this

theorem webhookMessages_appended (contact : Option Contact) (messages : List MessageEvent)
    (st : St) :
    Appended (InboundOf messages) st.db (finalState (webhookMessages contact messages st)).db := by
  unfold webhookMessages
  refine forOf_rel (fun a b => Appended (InboundOf messages) a.db b.db) _
    (fun s => appended_refl _ s.db) (fun _ _ _ h1 h2 => appended_trans h1 h2) messages st ?_
  intro s e he
  cases h : webhookMessageStep contact s e with
  | ok s1 =>
    obtain ⟨d, _, _, a, _, _, v⟩ := webhookMessageStep_ok h
    exact appended_one a (inboundOf_of_validate he v)
  | error s1 => exact appended_of_eq _ (webhookMessageStep_error h).1

theorem processMessages_appended (contact : Option Contact) (messages : List MessageEvent)
    (st : St) :
    Appended (InboundOf messages) st.db (finalState (processMessages contact messages st)).db := by
  unfold processMessages
  refine forOf_rel (fun a b => Appended (InboundOf messages) a.db b.db) _
    (fun s => appended_refl _ s.db) (fun _ _ _ h1 h2 => appended_trans h1 h2) messages st ?_
  intro s e he
  cases h : processMessageStep contact s e with
  | ok s1 =>
    obtain ⟨_, h2⟩ := processMessageStep_ok h
    rcases h2 with ⟨a, _⟩ | ⟨d, _, a, _, v⟩
    · exact appended_of_eq _ a
    · exact appended_one a (inboundOf_of_validate he v)
  | error s1 => exact appended_of_eq _ (processMessageStep_error h).1

theorem webhook_single_appended (db : Db) (e : MessageEvent) (contacts : Option (List Contact)) :
    Appended (InboundOf [e]) db (webhook db (messagePayload e contacts)).db := by
  have := webhookMessages_appended (contacts.getD []).head? [e] { db := db, events := [] }
  rw [webhook_single]
  simp only [webhookMessages, forOf] at this
  cases h : webhookMessageStep (contacts.getD []).head? { db := db, events := [] } e with
  | ok s1 => rw [h] at this; exact this
  | error s1 => rw [h] at this; exact this

theorem processPayload_single_appended (db : Db) (e : MessageEvent)
    (contacts : Option (List Contact)) :
    Appended (InboundOf [e]) db (processPayload db (messagePayload e contacts)).db := by
  have := processMessages_appended (contacts.getD []).head? [e] { db := db, events := [] }
  rw [processPayload_single]
  simp only [processMessages, forOf] at this
  cases h : processMessageStep (contacts.getD []).head? { db := db, events := [] } e with
  | ok s1 => rw [h] at this; exact this
  | error s1 => rw [h] at this; exact this

theorem outboundOf_of_validate {oid : Nat} {i : MessageInit} {d : Message} {clock : Nat}
    {rnd : String} (hid : i.id = some (synthId clock rnd)) (hs : i.status = "sent")
    (hf : i.is_from_me = true) (h : Message.validate oid i = some d) :
    OutboundOf clock rnd i.wa_id d := by
  obtain ⟨_, f2, f3, _, f5, f6, _⟩ := validate_fields h
  refine ⟨f6.trans hf, f5.trans hs, ?_, f3⟩
  have : some d.id = some (synthId clock rnd) := f2.trans hid
  simpa using this

theorem sendRoute_appended (db : Db) (clock : Nat) (rnd : String) (now : Int)
    (body : SendBody) :
    ((sendRoute db clock rnd now body).status = 200 →
      ∃ d, (sendRoute db clock rnd now body).db.messages = db.messages ++ [d] ∧
        OutboundOf clock rnd body.wa_id d) ∧
    ((sendRoute db clock rnd now body).status ≠ 200 →
      (sendRoute db clock rnd now body).db.messages = db.messages) := by
  unfold sendRoute
  split
  · exact ⟨fun h => by simp at h, fun _ => rfl⟩
  · split
    · exact ⟨fun h => by simp at h, fun _ => rfl⟩
    · rename_i db1 hdb
      have hm := (ensureUser_eq hdb).1
      split
      · rename_i db2 hs
        exact ⟨fun h => by simp at h, fun _ => (save_none_eq hs).1.trans hm⟩
      · rename_i db2 d hs
        obtain ⟨a, _, _, v⟩ := save_some_eq hs
        refine ⟨fun _ => ⟨d, by rw [a, hm], ?_⟩, fun h => absurd rfl h⟩
        exact outboundOf_of_validate (i := sendInit clock rnd now body) rfl rfl rfl v

theorem socketSendMessage_appended (db : Db) (clock : Nat) (rnd : String) (now : Int)
    (messageData : Option SendData) :
    ((socketSendMessage db clock rnd now messageData).db.messages = db.messages ∧
      (socketSendMessage db clock rnd now messageData).events
        = [Event.message_sent false none]) ∨
    ∃ data d, messageData = some data ∧
      (socketSendMessage db clock rnd now messageData).db.messages = db.messages ++ [d] ∧
      OutboundOf clock rnd data.wa_id d ∧
      (socketSendMessage db clock rnd now messageData).events
        = [Event.new_message d (EventUser.me data.wa_id), Event.message_sent true (some d)] := by
  unfold socketSendMessage
  split
  · left; exact ⟨rfl, rfl⟩
  · rename_i data
    split
    · rename_i db1 hs
      left; exact ⟨(save_none_eq hs).1, rfl⟩
    · rename_i db1 d hs
      obtain ⟨a, _, _, v⟩ := save_some_eq hs
      right
      exact ⟨data, d, rfl, a,
        outboundOf_of_validate (i := socketInit clock rnd now data) rfl rfl rfl v, rfl⟩

/-- C10. Initial status by direction: every message persisted from a webhook message
event, by the messages loop of the `/webhook` handler and by that of `processPayload`
(and so by either handler on a payload that carries one message event), is appended to
the collection with `is_from_me = false` and the status `received`; every message
persisted by `POST /api/messages/send` or by the socket `send_message` handler is appended
with `is_from_me = true`, the status `sent` and the id synthesized from the clock and the
random string. A send that answers 200, or reports success, has persisted such a
message. -/
theorem C10_initial_status_by_direction (db : Db) :
    (∀ contact messages events,
      Appended (InboundOf messages) db
        (finalState (webhookMessages contact messages { db := db, events := events })).db) ∧
    (∀ contact messages events,
      Appended (InboundOf messages) db
        (finalState (processMessages contact messages { db := db, events := events })).db) ∧
    (∀ e contacts, Appended (InboundOf [e]) db (webhook db (messagePayload e contacts)).db) ∧
    (∀ e contacts,
      Appended (InboundOf [e]) db (processPayload db (messagePayload e contacts)).db) ∧
    (∀ clock rnd now body,
      ((sendRoute db clock rnd now body).status = 200 →
        ∃ d, (sendRoute db clock rnd now body).db.messages = db.messages ++ [d] ∧
          OutboundOf clock rnd body.wa_id d) ∧
      ((sendRoute db clock rnd now body).status ≠ 200 →
        (sendRoute db clock rnd now body).db.messages = db.messages)) ∧
    (∀ clock rnd now messageData,
      ((socketSendMessage db clock rnd now messageData).db.messages = db.messages ∧
        (socketSendMessage db clock rnd now messageData).events
          = [Event.message_sent false none]) ∨
      ∃ data d, messageData = some data ∧
        (socketSendMessage db clock rnd now messageData).db.messages = db.messages ++ [d] ∧
        OutboundOf clock rnd data.wa_id d ∧
        (socketSendMessage db clock rnd now messageData).events
          = [Event.new_message d (EventUser.me data.wa_id),
             Event.message_sent true (some d)]) :=
  ⟨fun c ms evs => webhookMessages_appended c ms { db := db, events := evs },
   fun c ms evs => processMessages_appended c ms { db := db, events := evs },
   webhook_single_appended db, processPayload_single_appended db,
   sendRoute_appended db, socketSendMessage_appended db⟩

/-- Witness of C10: a send to the contact `919999` answers 200 and has appended one
message, from me, with the status `sent` and the synthesized id; a webhook message event
is stored as received. -/
theorem C10_initial_status_by_direction_witness :
    (sendRoute emptyDb 1700000000000 "k3x9q2m1z" 1700000000123
      { wa_id := some "919999", content := some "hello", message_type := none }).status = 200 ∧
    (∃ d, (sendRoute emptyDb 1700000000000 "k3x9q2m1z" 1700000000123
        { wa_id := some "919999", content := some "hello", message_type := none }).db.messages
          = emptyDb.messages ++ [d] ∧
        OutboundOf 1700000000000 "k3x9q2m1z" (some "919999") d) ∧
    (webhook emptyDb (messagePayload (textEvent "m1" "c1" 10 "hi") none)).db.messages.map
      (fun m => (m.id, m.status, m.is_from_me)) = [("m1", "received", false)] :=
  ⟨by decide,
   ((C10_initial_status_by_direction emptyDb).2.2.2.2.1 1700000000000 "k3x9q2m1z"
      1700000000123 { wa_id := some "919999", content := some "hello",
                      message_type := none }).1 (by decide),
   by decide⟩

theorem findOneAndUpdate_isSome (filter : Message → Bool) (status : String)
    (msgs : List Message) :
    (findOneAndUpdate filter status msgs).2.isSome = msgs.any filter := by
  induction msgs with
  | nil => rfl
  | cons m ms ih =>
    unfold findOneAndUpdate
    by_cases h : filter m = true
    · simp [h]
    · simp [h, ih]

theorem webhook_statusPayload (db : Db) (statuses : List StatusEvent) :
    webhook db (statusPayload statuses)
      = { status := 200, db := (webhookStatuses statuses { db := db, events := [] }).db,
          events := (webhookStatuses statuses { db := db, events := [] }).events } := by
  simp only [webhook, statusPayload, onFirstChange, List.head?_cons, if_true, webhookChange]

theorem processPayload_statusPayload (db : Db) (statuses : List StatusEvent) :
    processPayload db (statusPayload statuses)
      = { status := 200,
          db := (statuses.foldl processStatusStep { db := db, events := [] }).db,
          events := (statuses.foldl processStatusStep { db := db, events := [] }).events } := by
  simp only [processPayload, statusPayload, onFirstChange, List.head?_cons, if_true,
    processChange]

theorem statusFilter_false_of_unmatched {x : String} {msgs : List Message}
    (h : Unmatched x msgs) : ∀ m ∈ msgs, statusFilter x m = false := by
  intro m hm
  have := h m hm
  simp [statusFilter, this.1, this.2]

theorem webhookStatusStep_unmatched {st : St} {ev : StatusEvent}
    (h : Unmatched ev.id st.db.messages) : webhookStatusStep st ev = st := by
  unfold webhookStatusStep
  rw [findOneAndUpdate_miss _ _ _ (statusFilter_false_of_unmatched h)]

theorem processStatusStep_unmatched {st : St} {ev : StatusEvent}
    (h : Unmatched ev.id st.db.messages) : processStatusStep st ev = st := by
  unfold processStatusStep
  rw [findOneAndUpdate_miss _ _ _ (statusFilter_false_of_unmatched h)]

theorem findOneAndUpdate_unmatched (filter : Message → Bool) (status : String) (x : String)
    (msgs : List Message) (h : Unmatched x msgs) :
    Unmatched x (findOneAndUpdate filter status msgs).1 := by
  induction msgs with
  | nil => exact h
  | cons m ms ih =>
    have hm := h m (List.mem_cons_self m ms)
    have hms : Unmatched x ms := fun y hy => h y (List.mem_cons_of_mem m hy)
    unfold findOneAndUpdate
    split
    · intro y hy
      rcases List.mem_cons.mp hy with e | e
      · rw [e]; exact hm
      · exact hms y e
    · intro y hy
      rcases List.mem_cons.mp hy with e | e
      · rw [e]; exact hm
      · exact ih hms y e

theorem webhookStatusStep_keeps_unmatched (x : String) (st : St) (ev : StatusEvent)
    (h : Unmatched x st.db.messages) : Unmatched x (webhookStatusStep st ev).db.messages := by
  have key := findOneAndUpdate_unmatched (statusFilter ev.id) ev.status x st.db.messages h
  unfold webhookStatusStep
  split
  · rename_i msgs _ hf
    rw [hf] at key
    exact key
  · exact h

theorem processStatusStep_keeps_unmatched (x : String) (st : St) (ev : StatusEvent)
    (h : Unmatched x st.db.messages) : Unmatched x (processStatusStep st ev).db.messages :=
  findOneAndUpdate_unmatched (statusFilter ev.id) ev.status x st.db.messages h

theorem foldl_skip_unmatched (step : St → StatusEvent → St)
    (hkeep : ∀ x st e, Unmatched x st.db.messages → Unmatched x (step st e).db.messages)
    (hskip : ∀ st e, Unmatched e.id st.db.messages → step st e = st)
    (pre : List StatusEvent) (ev : StatusEvent) (post : List StatusEvent) :
    ∀ st : St, Unmatched ev.id st.db.messages →
      (pre ++ ev :: post).foldl step st = (pre ++ post).foldl step st := by
  induction pre with
  | nil =>
    intro st h
    simp only [List.nil_append, List.foldl_cons]
    rw [hskip st ev h]
  | cons p ps ih =>
    intro st h
    simp only [List.cons_append, List.foldl_cons]
    exact ih (step st p) (hkeep ev.id st p h)

/-- C14. For every store and every status event whose id is neither the `id` nor the
`meta_msg_id` of a stored message, the `/webhook` handler and `processPayload` leave the
store as it is, emit nothing, and complete normally (the webhook answers 200); in a
payload with more status events the unmatched one is skipped and the others are
processed as if it were not there. -/
theorem C14_unmatched_status_is_skipped (db : Db) (ev : StatusEvent)
    (h : Unmatched ev.id db.messages) :
    webhook db (statusPayload [ev]) = { status := 200, db := db, events := [] } ∧
    processPayload db (statusPayload [ev]) = { status := 200, db := db, events := [] } ∧
    (∀ pre post, webhook db (statusPayload (pre ++ ev :: post))
      = webhook db (statusPayload (pre ++ post))) ∧
    (∀ pre post, processPayload db (statusPayload (pre ++ ev :: post))
      = processPayload db (statusPayload (pre ++ post))) := by
  have hw := foldl_skip_unmatched webhookStatusStep webhookStatusStep_keeps_unmatched
    (fun st e he => webhookStatusStep_unmatched he)
  have hp := foldl_skip_unmatched processStatusStep processStatusStep_keeps_unmatched
    (fun st e he => processStatusStep_unmatched he)
  refine ⟨?_, ?_, ?_, ?_⟩
  · have := hw [] ev [] { db := db, events := [] } h
    rw [webhook_statusPayload]
    simp only [webhookStatuses]
    simp only [List.nil_append] at this
    rw [this]; rfl
  · have := hp [] ev [] { db := db, events := [] } h
    rw [processPayload_statusPayload]
    simp only [List.nil_append] at this
    rw [this]; rfl
  · intro pre post
    rw [webhook_statusPayload, webhook_statusPayload]
    simp only [webhookStatuses]
    rw [hw pre ev post { db := db, events := [] } h]
  · intro pre post
    rw [processPayload_statusPayload, processPayload_statusPayload]
    rw [hp pre ev post { db := db, events := [] } h]

/-- Witness of C14: a status event for the unknown id `zz` arrives between two events for
the stored message `m1`; the payload is processed as the one without it. -/
theorem C14_unmatched_status_is_skipped_witness :
    Unmatched "zz" oneMessageDb.messages ∧
    webhook oneMessageDb (statusPayload [{ id := "zz", status := "read" }])
      = { status := 200, db := oneMessageDb, events := [] } ∧
    webhook oneMessageDb (statusPayload ([{ id := "m1", status := "delivered" }] ++
        { id := "zz", status := "read" } :: [{ id := "m1", status := "read" }]))
      = webhook oneMessageDb (statusPayload ([{ id := "m1", status := "delivered" }] ++
        [{ id := "m1", status := "read" }])) :=
  ⟨by unfold Unmatched; decide,
   (C14_unmatched_status_is_skipped oneMessageDb { id := "zz", status := "read" }
      (by unfold Unmatched; decide)).1,
   (C14_unmatched_status_is_skipped oneMessageDb { id := "zz", status := "read" }
      (by unfold Unmatched; decide)).2.2.1 _ _⟩

theorem processPayload_status_single (db : Db) (ev : StatusEvent) :
    (processPayload db (statusPayload [ev])).db.messages
      = (findOneAndUpdate (statusFilter ev.id) ev.status db.messages).1 ∧
    (processPayload db (statusPayload [ev])).events = [] ∧
    (processPayload db (statusPayload [ev])).status = 200 := by
  rw [processPayload_statusPayload]
  simp [processStatusStep]

theorem patchStatusRoute_rejects (castObjectId : String → Option Nat) (db : Db)
    (messageId : String) (s : String) (h : s ∉ ["sent", "delivered", "read"]) :
    patchStatusRoute castObjectId db messageId (some s)
      = { status := 400, db := db, events := [] } := by
  unfold patchStatusRoute
  simp only []
  rw [if_pos h]

/-- C11 fails on the webhook path: `bogus` is not a status of the schema; the stored
message `m1` has the status `received`; a webhook status event for `m1` with the status
`bogus` is answered 200 and `bogus` is stored, by the `/webhook` handler and by
`processPayload` alike. (`PATCH` does reject the value, with 400.) -/
theorem C11_webhook_stores_undefined_status :
    "bogus" ∉ statusEnum ∧
    oneMessageDb.messages.map (fun m => (m.id, m.status)) = [("m1", "received")] ∧
    (webhook oneMessageDb (statusPayload [{ id := "m1", status := "bogus" }])).status = 200 ∧
    (webhook oneMessageDb (statusPayload [{ id := "m1", status := "bogus" }])).db.messages.map
      (fun m => (m.id, m.status)) = [("m1", "bogus")] ∧
    (processPayload oneMessageDb
        (statusPayload [{ id := "m1", status := "bogus" }])).db.messages.map
      (fun m => (m.id, m.status)) = [("m1", "bogus")] ∧
    patchStatusRoute sampleCast oneMessageDb "507f1f77bcf86cd799439011" (some "bogus")
      = { status := 400, db := oneMessageDb, events := [] } := by
  decide

/-- When exactly one stored message has `X` as its `id` or as its `meta_msg_id`, a webhook
status event referencing `X` sets the status of that message and leaves every other
message as it was, in the `/webhook` handler and in `processPayload`. With one match the
order in which the database meets the documents plays no part. -/
theorem status_event_updates_only_match (db : Db) (ev : StatusEvent)
    (pre : List Message) (m : Message) (post : List Message)
    (hdb : db.messages = pre ++ m :: post) (hpre : Unmatched ev.id pre)
    (hpost : Unmatched ev.id post)
    (hm : m.id = ev.id ∨ m.meta_msg_id = some ev.id) :
    (webhook db (statusPayload [ev])).db.messages
      = pre ++ { m with status := ev.status } :: post ∧
    (processPayload db (statusPayload [ev])).db.messages
      = pre ++ { m with status := ev.status } :: post ∧
    Unmatched ev.id post := by
  have hf : findOneAndUpdate (statusFilter ev.id) ev.status (pre ++ m :: post)
      = (pre ++ { m with status := ev.status } :: post, some { m with status := ev.status }) :=
    findOneAndUpdate_hit _ _ pre m post (statusFilter_false_of_unmatched hpre)
      (by simpa [statusFilter] using hm)
  rw [(webhook_status_single db ev).1, (processPayload_status_single db ev).1, hdb, hf]
  exact ⟨rfl, rfl, hpost⟩

/-- C15, as the claim states it, fails: the stored message `m1` has the status `read`; a
webhook status event for `m1` with the status `read` changes nothing in the store, and a
`message_status_update` event is emitted all the same. -/
theorem C15_counterexample :
    readMessageDb.messages.map (fun m => (m.id, m.status)) = [("m1", "read")] ∧
    (webhook readMessageDb (statusPayload [{ id := "m1", status := "read" }])).db
      = readMessageDb ∧
    (webhook readMessageDb (statusPayload [{ id := "m1", status := "read" }])).events
      = [Event.message_status_update "m1" "read"] := by
  decide

/-- C15, amended. For every store and every webhook status event, a
`message_status_update` event (carrying the id and the status of the status event) is
emitted exactly when the status event matches a stored message by `id` or by
`meta_msg_id`, whether or not the stored status changes: an event whose status equals the
current status of the message it matches leaves the collection as it was and is emitted
too. -/
theorem C15_status_event_emitted_on_match (db : Db) (ev : StatusEvent) :
    (webhook db (statusPayload [ev])).events
      = (if db.messages.any (statusFilter ev.id) then
          [Event.message_status_update ev.id ev.status] else []) ∧
    (∀ pre m post, db.messages = pre ++ m :: post → Unmatched ev.id pre →
      (m.id = ev.id ∨ m.meta_msg_id = some ev.id) → m.status = ev.status →
      (webhook db (statusPayload [ev])).db.messages = db.messages ∧
      (webhook db (statusPayload [ev])).events
        = [Event.message_status_update ev.id ev.status]) := by
  have hev := (webhook_status_single db ev).2.1
  rw [findOneAndUpdate_isSome] at hev
  refine ⟨hev, ?_⟩
  intro pre m post hdb hpre hm hs
  have hf : findOneAndUpdate (statusFilter ev.id) ev.status (pre ++ m :: post)
      = (pre ++ { m with status := ev.status } :: post, some { m with status := ev.status }) :=
    findOneAndUpdate_hit _ _ pre m post (statusFilter_false_of_unmatched hpre)
      (by simpa [statusFilter] using hm)
  refine ⟨?_, ?_⟩
  · rw [(webhook_status_single db ev).1, hdb, hf, ← hs]
  · rw [(webhook_status_single db ev).2.1, hdb, hf]
    rfl

/-- Witness of the amended C15: the no-op event of the counterexample is emitted. -/
theorem C15_status_event_emitted_on_match_witness :
    readMessageDb.messages = [] ++ sampleMessage 0 "m1" "c1" 10000 "read" true :: [] ∧
    (webhook readMessageDb (statusPayload [{ id := "m1", status := "read" }])).events
      = [Event.message_status_update "m1" "read"] :=
  ⟨rfl,
   ((C15_status_event_emitted_on_match readMessageDb { id := "m1", status := "read" }).2 []
      (sampleMessage 0 "m1" "c1" 10000 "read" true) [] rfl
      (fun x hx => absurd hx (List.not_mem_nil x)) (Or.inl (by decide)) (by decide)).2⟩

/-- C20 fails when the message is matched by its correlation id: the client has opened
the thread of `c1` and holds the message `m1` (status `sent`, `meta_msg_id` `wamid.X`); a
webhook status event `read` for `wamid.X` sets the stored status of `m1` to `read` and
emits an event that carries `wamid.X`, not `m1`; the reducer matches on `msg.id` and the
client's copy of `m1` keeps the status `sent`. -/
theorem C20_status_event_carries_event_id :
    (fetchMessages (chatRoute correlatedDb "c1" none none) "c1" initialState).messages.map
      (fun m => (m.id, m.meta_msg_id, m.status)) = [("m1", some "wamid.X", "sent")] ∧
    (webhook (chatRoute correlatedDb "c1" none none).db
        (statusPayload [{ id := "wamid.X", status := "read" }])).db.messages.map
      (fun m => (m.id, m.status)) = [("m1", "read")] ∧
    (webhook (chatRoute correlatedDb "c1" none none).db
        (statusPayload [{ id := "wamid.X", status := "read" }])).events
      = [Event.message_status_update "wamid.X" "read"] ∧
    (deliver (fetchMessages (chatRoute correlatedDb "c1" none none) "c1" initialState)
        (webhook (chatRoute correlatedDb "c1" none none).db
          (statusPayload [{ id := "wamid.X", status := "read" }])).events).messages.map
      (fun m => (m.id, m.status)) = [("m1", "sent")] := by
  decide

theorem save_untyped (db : Db) (e : MessageEvent) (h : e.type = none) :
    Message.save db (inboundInit e)
      = Message.save db (inboundInit
          { e with type := some "text", text_body := some "📎 undefined message" }) := by
  have hc : getMessageContent e = "📎 undefined message" := by
    unfold getMessageContent
    rw [h]
  have hc1 : getMessageContent
      { e with type := some "text", text_body := some "📎 undefined message" }
      = "📎 undefined message" := by
    unfold getMessageContent
    simp only [orElse]
    decide
  unfold Message.save Message.validate
  simp only [inboundInit, hc, hc1, h, Option.getD_none, Option.getD_some]

theorem webhookMessageStep_untyped (contact : Option Contact) (st : St) (e : MessageEvent)
    (h : e.type = none) :
    webhookMessageStep contact st e
      = webhookMessageStep contact st
          { e with type := some "text", text_body := some "📎 undefined message" } := by
  unfold webhookMessageStep
  cases findOrCreateUser st.db contact with
  | none => rfl
  | some r =>
    simp only []
    rw [save_untyped r.1 e h]

theorem webhookMessageStep_not_ok_of_missing {contact : Option Contact} {st st1 : St}
    {e : MessageEvent} (h : e.id = none ∨ e.from_ = none) :
    webhookMessageStep contact st e ≠ Except.ok st1 := by
  intro hok
  obtain ⟨doc, _, _, _, _, _, v⟩ := webhookMessageStep_ok hok
  obtain ⟨_, f2, f3, _⟩ := validate_fields v
  simp only [inboundInit] at f2 f3
  rcases h with h | h
  · rw [h] at f2; simp at f2
  · rw [h] at f3; simp at f3

/-- C12, as the claim states it, fails twice: a message event without a `type` is
answered 200, stored (as a `text` message) and emitted; and a message event without an
`id` is rejected with 500 after the contact of the payload has been created. -/
theorem C12_counterexample :
    untypedEvent.type = none ∧
    (webhook emptyDb (messagePayload untypedEvent none)).status = 200 ∧
    (webhook emptyDb (messagePayload untypedEvent none)).db.messages.map
      (fun m => (m.id, m.message_type, m.content))
      = [("m1", "text", "📎 undefined message")] ∧
    (webhook emptyDb (messagePayload untypedEvent none)).events ≠ [] ∧
    anonymousEvent.id = none ∧
    (webhook emptyDb (messagePayload anonymousEvent
        (some [{ wa_id := some "c1", name := some "Al" }]))).status = 500 ∧
    (webhook emptyDb (messagePayload anonymousEvent
        (some [{ wa_id := some "c1", name := some "Al" }]))).db.users ≠ emptyDb.users := by
  decide

/-- C12, amended. A webhook message event that lacks an `id` or a sender (`from`) is
rejected by the `/webhook` handler with 500: no message is stored and no event is
emitted; the user collection is unchanged except that a contact of the payload whose
`wa_id` is not yet in it has been created before the message was rejected. A message
event that lacks only its `type` is not rejected on that account: it is handled exactly as
the `text` event with the body `📎 undefined message`. -/
theorem C12_malformed_message_event (db : Db) (e : MessageEvent)
    (contacts : Option (List Contact)) :
    ((e.id = none ∨ e.from_ = none) →
      (webhook db (messagePayload e contacts)).status = 500 ∧
      (webhook db (messagePayload e contacts)).db.messages = db.messages ∧
      (webhook db (messagePayload e contacts)).events = [] ∧
      ((webhook db (messagePayload e contacts)).db.users = db.users ∨
        ∃ c u, (contacts.getD []).head? = some c ∧ findByWaId db c.wa_id = none ∧
          (webhook db (messagePayload e contacts)).db.users = db.users ++ [u] ∧
          some u.wa_id = c.wa_id)) ∧
    (e.type = none →
      webhook db (messagePayload e contacts)
        = webhook db (messagePayload
            { e with type := some "text", text_body := some "📎 undefined message" }
            contacts)) := by
  refine ⟨fun h => ?_, fun h => ?_⟩
  · have hu := webhookMessageStep_users (contacts.getD []).head? { db := db, events := [] } e
    rw [webhook_single]
    cases hs : webhookMessageStep (contacts.getD []).head? { db := db, events := [] } e with
    | ok st1 => exact absurd hs (webhookMessageStep_not_ok_of_missing h)
    | error st1 =>
      rw [hs] at hu
      obtain ⟨a, b⟩ := webhookMessageStep_error hs
      exact ⟨rfl, a, b, hu⟩
  · rw [webhook_single, webhook_single, webhookMessageStep_untyped _ _ e h]

/-- Witness of the amended C12: the event without an id is rejected and no message is
stored; the event without a type is handled as a text event. -/
theorem C12_malformed_message_event_witness :
    (anonymousEvent.id = none ∨ anonymousEvent.from_ = none) ∧
    (webhook emptyDb (messagePayload anonymousEvent none)).status = 500 ∧
    (webhook emptyDb (messagePayload anonymousEvent none)).db.messages = emptyDb.messages ∧
    untypedEvent.type = none ∧
    webhook emptyDb (messagePayload untypedEvent none)
      = webhook emptyDb (messagePayload
          { untypedEvent with type := some "text", text_body := some "📎 undefined message" }
          none) :=
  ⟨Or.inl rfl,
   ((C12_malformed_message_event emptyDb anonymousEvent none).1 (Or.inl rfl)).1,
   ((C12_malformed_message_event emptyDb anonymousEvent none).1 (Or.inl rfl)).2.1,
   rfl,
   (C12_malformed_message_event emptyDb untypedEvent none).2 rfl⟩

theorem sendRoute_user_exists (db : Db) (clock : Nat) (rnd : String) (now : Int)
    (body : SendBody) (h : (sendRoute db clock rnd now body).status = 200) :
    ∃ u ∈ (sendRoute db clock rnd now body).db.users, some u.wa_id = body.wa_id := by
  unfold sendRoute at h ⊢
  split at h
  · simp at h
  · rename_i htr
    split at h
    · simp at h
    · rename_i db1 hdb
      obtain ⟨_, _, u, hu, hw⟩ := ensureUser_eq hdb
      have hwa : some (body.wa_id.getD "") = body.wa_id := by
        cases hb : body.wa_id with
        | none => simp [truthy, hb] at htr
        | some w => rfl
      split at h
      · simp at h
      · rename_i db2 d hs
        rw [if_neg htr]
        simp only [hdb, hs]
        refine ⟨u, ?_, by rw [hw]; exact hwa⟩
        rw [(save_some_eq hs).2.1]
        exact hu

/-- C16 fails on the socket path: on the empty store, the socket `send_message` handler
persists a message for the contact `919999` and reports success, and the user collection
is still empty (`POST /api/messages/send` with the same data does create the user); the
`/webhook` handler too stores the message of `c1` without a user when the payload has no
`contacts`. -/
theorem C16_socket_send_creates_no_user :
    (socketSendMessage emptyDb 1700000000000 "k3x9q2m1z" 1700000000123
        (some { wa_id := some "919999", content := some "hello" })).db.messages.map
      (fun m => m.wa_id) = ["919999"] ∧
    (socketSendMessage emptyDb 1700000000000 "k3x9q2m1z" 1700000000123
        (some { wa_id := some "919999", content := some "hello" })).db.users = [] ∧
    (sendRoute emptyDb 1700000000000 "k3x9q2m1z" 1700000000123
        { wa_id := some "919999", content := some "hello",
          message_type := none }).db.users.map (fun u => u.wa_id) = ["919999"] ∧
    (webhook emptyDb (messagePayload (textEvent "m1" "c1" 10 "hi") none)).status = 200 ∧
    (webhook emptyDb (messagePayload (textEvent "m1" "c1" 10 "hi") none)).db.messages.map
      (fun m => m.wa_id) = ["c1"] ∧
    (webhook emptyDb (messagePayload (textEvent "m1" "c1" 10 "hi") none)).db.users = [] := by
  decide

/-- C18, as the claim states it, fails: a socket joins the chat `a`, then the chat `b`, and
is a member of both rooms. -/
theorem C18_counterexample :
    "a" ≠ "b" ∧
    (join_chat (join_chat (Socket.connect "s1") "a") "b").rooms = ["s1", "a", "b"] ∧
    "a" ∈ (join_chat (join_chat (Socket.connect "s1") "a") "b").rooms := by
  decide

theorem join_rooms (socket : Socket) (room : String) :
    room ∈ (socket.join room).rooms ∧ ∀ r ∈ socket.rooms, r ∈ (socket.join room).rooms := by
  unfold Socket.join
  split
  · rename_i h; exact ⟨h, fun r hr => hr⟩
  · exact ⟨by simp, fun r hr => List.mem_append_left _ hr⟩

/-- C18, amended. `join_chat` only adds a membership: for every socket and all contacts
`a` and `b`, after `join_chat(a)` followed by `join_chat(b)` the socket is a member of the
room of `b` and still a member of the room of `a` and of every room it was in before. -/
theorem C18_join_chat_only_adds (socket : Socket) (a b : String) :
    b ∈ (join_chat (join_chat socket a) b).rooms ∧
    a ∈ (join_chat (join_chat socket a) b).rooms ∧
    ∀ r ∈ socket.rooms, r ∈ (join_chat (join_chat socket a) b).rooms := by
  unfold join_chat
  have h1 := join_rooms socket a
  have h2 := join_rooms (socket.join a) b
  exact ⟨h2.1, h2.2 a h1.1, fun r hr => h2.2 r (h1.2 r hr)⟩

/-- Witness of the amended C18: the socket's own room is kept as well. -/
theorem C18_join_chat_only_adds_witness :
    "s1" ∈ (Socket.connect "s1").rooms ∧
    "s1" ∈ (join_chat (join_chat (Socket.connect "s1") "a") "b").rooms :=
  ⟨by decide, (C18_join_chat_only_adds (Socket.connect "s1") "a" "b").2.2 "s1" (by decide)⟩

theorem findOrCreateUser_created {db db1 : Db} {contact : Option Contact} {user : Option User}
    {u : User} (h : findOrCreateUser db contact = some (db1, user))
    (hu : db1.users = db.users ++ [u]) :
    ∃ c, contact = some c ∧ some u.wa_id = c.wa_id ∧
      u.name = jsTrim (orElse c.name "Unknown User") ∧
      u.profile_name = jsTrim (orElse c.name "Unknown User") := by
  obtain ⟨_, _, hcase⟩ := findOrCreateUser_eq h
  rcases hcase with ⟨a, _, _⟩ | ⟨c, u2, hc, _, _, hus, hw, hn, hp⟩
  · rw [a] at hu
    have := congrArg List.length hu
    simp at this
  · rw [hus] at hu
    have h2 : [u2] = [u] := List.append_cancel_left hu
    simp only [List.cons.injEq, and_true] at h2
    subst h2
    exact ⟨c, hc, hw, hn, hp⟩

theorem webhookMessageStep_created {contact : Option Contact} {st : St} {e : MessageEvent}
    {u : User}
    (hu : (finalState (webhookMessageStep contact st e)).db.users = st.db.users ++ [u]) :
    ∃ c, contact = some c ∧ some u.wa_id = c.wa_id ∧
      u.name = jsTrim (orElse c.name "Unknown User") ∧
      u.profile_name = jsTrim (orElse c.name "Unknown User") := by
  unfold webhookMessageStep at hu
  split at hu
  · have := congrArg List.length hu
    simp [finalState] at this
  · rename_i db1 user hf
    have hfin : ∀ db2 r, Message.save db1 (inboundInit e) = (db2, r) →
        db2.users = db1.users := by
      intro db2 r hs
      cases r with
      | none => exact (save_none_eq hs).2
      | some doc => exact (save_some_eq hs).2.1
    split at hu <;> rename_i hs <;>
      exact findOrCreateUser_created hf ((hfin _ _ hs).symm.trans hu)

theorem processMessageStep_created {contact : Option Contact} {st : St} {e : MessageEvent}
    {u : User}
    (hu : (finalState (processMessageStep contact st e)).db.users = st.db.users ++ [u]) :
    ∃ c, contact = some c ∧ some u.wa_id = c.wa_id ∧
      u.name = jsTrim (orElse c.name "Unknown User") ∧
      u.profile_name = jsTrim (orElse c.name "Unknown User") := by
  unfold processMessageStep at hu
  split at hu
  · have := congrArg List.length hu
    simp [finalState] at this
  · rename_i db1 user hf
    have hfin : ∀ db2 r, Message.save db1 (inboundInit e) = (db2, r) →
        db2.users = db1.users := by
      intro db2 r hs
      cases r with
      | none => exact (save_none_eq hs).2
      | some doc => exact (save_some_eq hs).2.1
    split at hu
    · exact findOrCreateUser_created hf hu
    · split at hu <;> rename_i hs <;>
        exact findOrCreateUser_created hf ((hfin _ _ hs).symm.trans hu)

theorem webhook_single_users (db : Db) (e : MessageEvent) (contacts : Option (List Contact)) :
    (webhook db (messagePayload e contacts)).db.users
      = (finalState (webhookMessageStep (contacts.getD []).head?
          { db := db, events := [] } e)).db.users := by
  rw [webhook_single]
  cases webhookMessageStep (contacts.getD []).head? { db := db, events := [] } e <;> rfl

theorem processPayload_single_users (db : Db) (e : MessageEvent)
    (contacts : Option (List Contact)) :
    (processPayload db (messagePayload e contacts)).db.users
      = (finalState (processMessageStep (contacts.getD []).head?
          { db := db, events := [] } e)).db.users := by
  rw [processPayload_single]
  cases processMessageStep (contacts.getD []).head? { db := db, events := [] } e <;> rfl

theorem ensureUser_created {db db1 : Db} {wa_id : String} {u : User}
    (h : ensureUser db wa_id = some db1) (hu : db1.users = db.users ++ [u]) :
    u.wa_id = wa_id ∧ u.name = jsTrim ("User " ++ sliceLast4 wa_id) ∧
      u.profile_name = jsTrim ("User " ++ sliceLast4 wa_id) := by
  unfold ensureUser at h
  split at h
  · simp only [Option.some.injEq] at h
    subst h
    have := congrArg List.length hu
    simp at this
  · split at h
    · rename_i db2 u2 hs
      simp only [Option.some.injEq] at h
      subst h
      obtain ⟨_, _, c, d, e1, e2, _⟩ := user_save_eq hs
      rw [c] at hu
      have h2 : [u2] = [u] := List.append_cancel_left hu
      simp only [List.cons.injEq, and_true] at h2
      subst h2
      exact ⟨by simpa using d, e1, e2⟩
    · simp at h

theorem sendRoute_users (db : Db) (clock : Nat) (rnd : String) (now : Int) (body : SendBody) :
    (sendRoute db clock rnd now body).db.users = db.users ∨
      ∃ db1, ensureUser db (body.wa_id.getD "") = some db1 ∧
        (sendRoute db clock rnd now body).db.users = db1.users := by
  unfold sendRoute
  split
  · left; rfl
  · split
    · left; rfl
    · rename_i db1 hdb
      right
      refine ⟨db1, hdb, ?_⟩
      split
      · rename_i db2 hs; exact (save_none_eq hs).2
      · rename_i db2 d hs; exact (save_some_eq hs).2.1

/-- The name of a contact that webhook ingestion creates when the provider supplies no
profile name is the fixed string `Unknown User`, in the `/webhook` handler and in
`processPayload`, for every store and payload. -/
theorem ingestion_created_contact_name (db : Db) (e : MessageEvent)
    (contacts : Option (List Contact)) (c : Contact) (u : User)
    (hc : (contacts.getD []).head? = some c) (hn : c.name = none ∨ c.name = some "") :
    ((webhook db (messagePayload e contacts)).db.users = db.users ++ [u] →
      some u.wa_id = c.wa_id ∧ u.name = "Unknown User" ∧ u.profile_name = "Unknown User") ∧
    ((processPayload db (messagePayload e contacts)).db.users = db.users ++ [u] →
      some u.wa_id = c.wa_id ∧ u.name = "Unknown User" ∧ u.profile_name = "Unknown User") := by
  have hname : jsTrim (orElse c.name "Unknown User") = "Unknown User" := by
    rcases hn with h | h <;> rw [h] <;> decide
  refine ⟨?_, ?_⟩
  · intro hu
    rw [webhook_single_users] at hu
    obtain ⟨c2, hc2, hw, h1, h2⟩ := webhookMessageStep_created hu
    rw [hc] at hc2
    simp only [Option.some.injEq] at hc2
    subst hc2
    exact ⟨hw, h1.trans hname, h2.trans hname⟩
  · intro hu
    rw [processPayload_single_users] at hu
    obtain ⟨c2, hc2, hw, h1, h2⟩ := processMessageStep_created hu
    rw [hc] at hc2
    simp only [Option.some.injEq] at hc2
    subst hc2
    exact ⟨hw, h1.trans hname, h2.trans hname⟩

/-- The name of a contact that `POST /api/messages/send` creates is `User ` followed by
the value of `wa_id.slice(-4)`, trimmed by the schema. -/
theorem sendRoute_created_contact_name (db : Db) (clock : Nat) (rnd : String) (now : Int)
    (body : SendBody) (w : String) (u : User) (hw : body.wa_id = some w)
    (hu : (sendRoute db clock rnd now body).db.users = db.users ++ [u]) :
    u.wa_id = w ∧ u.name = jsTrim ("User " ++ sliceLast4 w) ∧
      u.profile_name = jsTrim ("User " ++ sliceLast4 w) := by
  rcases sendRoute_users db clock rnd now body with h | ⟨db1, he, h⟩
  · rw [h] at hu
    have := congrArg List.length hu
    simp at this
  · rw [hw] at he
    simp only [Option.getD_some] at he
    exact ensureUser_created he (h.symm.trans hu)

/-- C17 fails on the ingestion paths: on the empty store a webhook message of the contact
`919876543210` arrives with a contact entry that has no profile name; the `/webhook`
handler and `processPayload` answer 200 and create the contact with the name and the
profile name `Unknown User`, not `User 3210`. `POST /api/messages/send` for the same
contact creates it as `User 3210`, and the conversations route shows `User 3210` for a
contact that has no user document. -/
theorem C17_ingestion_names_contact_unknown_user :
    (webhook emptyDb (messagePayload (textEvent "m1" "919876543210" 10 "hi")
        (some [{ wa_id := some "919876543210", name := none }]))).status = 200 ∧
    (webhook emptyDb (messagePayload (textEvent "m1" "919876543210" 10 "hi")
        (some [{ wa_id := some "919876543210", name := none }]))).db.users.map
      (fun u => (u.wa_id, u.name, u.profile_name))
      = [("919876543210", "Unknown User", "Unknown User")] ∧
    (processPayload emptyDb (messagePayload (textEvent "m1" "919876543210" 10 "hi")
        (some [{ wa_id := some "919876543210", name := none }]))).status = 200 ∧
    (processPayload emptyDb (messagePayload (textEvent "m1" "919876543210" 10 "hi")
        (some [{ wa_id := some "919876543210", name := none }]))).db.users.map
      (fun u => (u.wa_id, u.name, u.profile_name))
      = [("919876543210", "Unknown User", "Unknown User")] ∧
    (sendRoute emptyDb 1700000000000 "k3x9q2m1z" 1700000000123
        { wa_id := some "919876543210", content := some "hello",
          message_type := none }).db.users.map (fun u => (u.wa_id, u.name, u.profile_name))
      = [("919876543210", "User 3210", "User 3210")] ∧
    (conversationsRoute
        (webhook emptyDb (messagePayload (textEvent "m1" "919876543210" 10 "hi")
          none)).db).map (fun c => (c.wa_id, c.user.name, c.user.profile_name))
      = [("919876543210", "User 3210", "User 3210")] ∧
    "Unknown User" ≠ "User 3210" := by
  decide

/-- The cut of `slice(-4)` counts UTF-16 code units: a character outside the Basic
Multilingual Plane takes two of the four, and a cut inside its pair leaves the low
surrogate alone. -/
theorem sliceLast4_samples :
    sliceLast4 "919876543210" = "3210" ∧ sliceLast4 "42" = "42" ∧ sliceLast4 "" = "" ∧
    sliceLast4 "ab😀cd" = "😀cd" ∧ sliceLast4 "a😀bcd" = "\uFFFDbcd" := by
  decide

theorem conversationsRoute_consistent (db : Db) :
    UnreadConsistent (conversationsRoute db) db.messages := by
  intro c hc
  unfold conversationsRoute at hc
  rw [List.mem_map] at hc
  obtain ⟨e, he, hce⟩ := hc
  subst hce
  exact (getConversations_entry he).2.2.2.2

theorem addMessage_consistent {state : ChatState} {msgs : List Message} (d : Message)
    (h : UnreadConsistent state.conversations msgs)
    (hd : d.is_from_me = false → d.status ≠ "read") :
    UnreadConsistent (chatReducer state (Action.ADD_MESSAGE d)).conversations (msgs ++ [d]) := by
  intro c1 hc1
  simp only [chatReducer, List.mem_map] at hc1
  obtain ⟨c, hc, hcc⟩ := hc1
  have hold := h c hc
  rw [countUnread_snoc]
  by_cases hk : c.wa_id = d.wa_id
  · rw [if_pos hk] at hcc
    subst hcc
    simp only []
    rw [if_pos hk.symm, ← hold]
    cases hf : d.is_from_me with
    | true => simp [unreadCond, hf]
    | false => simp [unreadCond, hf, hd hf]
  · rw [if_neg hk] at hcc
    subst hcc
    rw [if_neg (fun h2 => hk h2.symm), ← hold]
    rfl

theorem onServerEvent_keys (state : ChatState) (e : Event) :
    (onServerEvent state e).conversations.map (fun c => c.wa_id)
      = state.conversations.map (fun c => c.wa_id) := by
  cases e with
  | new_message d u =>
    simp only [onServerEvent, chatReducer, List.map_map]
    apply List.map_congr_left
    intro c _
    simp only [Function.comp]
    split <;> rfl
  | message_status_update id status => rfl
  | message_sent s m => rfl

theorem deliver_keys (events : List Event) :
    ∀ state : ChatState, (deliver state events).conversations.map (fun c => c.wa_id)
      = state.conversations.map (fun c => c.wa_id) := by
  induction events with
  | nil => intro state; rfl
  | cons e es ih =>
    intro state
    simp only [deliver, List.foldl_cons]
    have := ih (onServerEvent state e)
    simp only [deliver] at this
    rw [this, onServerEvent_keys]

theorem webhook_single_outcome (db : Db) (e : MessageEvent) (contacts : Option (List Contact)) :
    ((webhook db (messagePayload e contacts)).db.messages = db.messages ∧
      (webhook db (messagePayload e contacts)).events = []) ∨
    ∃ d u, (webhook db (messagePayload e contacts)).db.messages = db.messages ++ [d] ∧
      (webhook db (messagePayload e contacts)).events = [Event.new_message d u] ∧
      d.is_from_me = false ∧ d.status = "received" := by
  rw [webhook_single]
  cases hs : webhookMessageStep (contacts.getD []).head? { db := db, events := [] } e with
  | error st1 =>
    left
    exact webhookMessageStep_error hs
  | ok st1 =>
    right
    obtain ⟨d, u, _, a, b, _, v⟩ := webhookMessageStep_ok hs
    obtain ⟨_, _, _, _, f5, f6, _⟩ := validate_fields v
    exact ⟨d, u, a, by simpa using b, f6, f5⟩

/-- C19, as the claim states it, fails. The client has fetched the conversations of a
store that holds the unread inbound message `m1` of `c1`. (i) A webhook status event
`read` for `m1` is applied and emitted; after the reducer has handled it the client still
shows one unread message for `c1`, and the rebuilt list shows none. (ii) A message of
the new contact `c2` is ingested and emitted; after the reducer has handled it the client
has no entry for `c2`, and the rebuilt list has one. -/
theorem C19_counterexample :
    (fetchConversations oneMessageDb initialState).conversations
      = conversationsRoute oneMessageDb ∧
    (webhook oneMessageDb (statusPayload [{ id := "m1", status := "read" }])).events
      = [Event.message_status_update "m1" "read"] ∧
    (deliver (fetchConversations oneMessageDb initialState)
        (webhook oneMessageDb
          (statusPayload [{ id := "m1", status := "read" }])).events).conversations.map
      (fun c => (c.wa_id, c.unreadCount)) = [("c1", 1)] ∧
    (getConversations (webhook oneMessageDb
        (statusPayload [{ id := "m1", status := "read" }])).db).map
      (fun e => (e._id, e.unreadCount)) = [("c1", 0)] ∧
    (deliver (fetchConversations oneMessageDb initialState)
        (webhook oneMessageDb
          (messagePayload (textEvent "m2" "c2" 20 "yo") none)).events).conversations.map
      (fun c => (c.wa_id, c.unreadCount)) = [("c1", 1)] ∧
    (getConversations (webhook oneMessageDb
        (messagePayload (textEvent "m2" "c2" 20 "yo") none)).db).map
      (fun e => (e._id, e.unreadCount)) = [("c2", 1), ("c1", 1)] := by
  decide

/-- C19, amended. For every store and every client state whose conversations are the
answer of `GET /api/messages/conversations` for that store: after the ingestion of a
webhook message event, or a socket send, and the client's handling of the emitted events,
every entry of the client's conversation list has the `unreadCount` recomputed from the
updated store. The list keeps the contacts it had, in their order, whatever events
arrive (a contact new to the store gets no entry), and a `message_status_update` event
leaves the conversation list as it was. -/
theorem C19_live_unread_counts (db : Db) (state : ChatState)
    (h : state.conversations = conversationsRoute db) :
    (∀ e contacts,
      UnreadConsistent
        (deliver state (webhook db (messagePayload e contacts)).events).conversations
        (webhook db (messagePayload e contacts)).db.messages) ∧
    (∀ clock rnd now messageData,
      UnreadConsistent
        (deliver state (socketSendMessage db clock rnd now messageData).events).conversations
        (socketSendMessage db clock rnd now messageData).db.messages) ∧
    (∀ events, (deliver state events).conversations.map (fun c => c.wa_id)
      = (getConversations db).map (fun e => e._id)) ∧
    (∀ id status,
      (onServerEvent state (Event.message_status_update id status)).conversations
        = state.conversations) := by
  have h0 : UnreadConsistent state.conversations db.messages := by
    rw [h]; exact conversationsRoute_consistent db
  refine ⟨?_, ?_, ?_, fun _ _ => rfl⟩
  · intro e contacts
    rcases webhook_single_outcome db e contacts with ⟨a, b⟩ | ⟨d, u, a, b, f1, f2⟩
    · rw [a, b]; exact h0
    · rw [a, b]
      exact addMessage_consistent d h0 (fun _ => by rw [f2]; decide)
  · intro clock rnd now messageData
    rcases socketSendMessage_appended db clock rnd now messageData with
      ⟨a, b⟩ | ⟨data, d, _, a, o, b⟩
    · rw [a, b]; exact h0
    · rw [a, b]
      exact addMessage_consistent d h0 (fun hf => by rw [o.1] at hf; exact absurd hf (by decide))
  · intro events
    rw [deliver_keys, h]
    unfold conversationsRoute
    rw [List.map_map]
    rfl

/-- Witness of the amended C19: a second inbound message of `c1` is ingested; the client
shows two unread messages for `c1`, as the store has. -/
theorem C19_live_unread_counts_witness :
    (fetchConversations oneMessageDb initialState).conversations
      = conversationsRoute oneMessageDb ∧
    (deliver (fetchConversations oneMessageDb initialState)
        (webhook oneMessageDb
          (messagePayload (textEvent "m2" "c1" 20 "yo") none)).events).conversations.map
      (fun c => (c.wa_id, c.unreadCount)) = [("c1", 2)] ∧
    UnreadConsistent
      (deliver (fetchConversations oneMessageDb initialState)
        (webhook oneMessageDb
          (messagePayload (textEvent "m2" "c1" 20 "yo") none)).events).conversations
      (webhook oneMessageDb (messagePayload (textEvent "m2" "c1" 20 "yo") none)).db.messages :=
  ⟨by decide, by decide,
   (C19_live_unread_counts oneMessageDb (fetchConversations oneMessageDb initialState)
      (by decide)).1 _ _⟩

theorem chatRoute_db_cases (db : Db) (x : String) (page limit : Option Int) :
    (chatRoute db x page limit).db = db ∨
      (chatRoute db x page limit).db = { db with messages := markThreadRead x db.messages } := by
  unfold chatRoute getChatMessages
  by_cases hs : (parseIntOr page 1 - 1) * parseIntOr limit 50 < 0
  · left; simp [hs]
  · right; simp [hs]

/-- C25. Frame of mark-thread-read: for every store and contact `x`, `GET
/api/messages/chat/x` leaves the user collection as it is and changes the message
collection position by position, without adding or removing a message: every message is
either unchanged or is an inbound message of `x` that differs from the stored one in its
status only, which is now `read`. -/
theorem C25_mark_thread_read_frame (db : Db) (x : String) (page limit : Option Int) :
    (chatRoute db x page limit).db.users = db.users ∧
    List.Forall₂
      (fun m m1 => m1 = m ∨
        (m.wa_id = x ∧ m.is_from_me = false ∧ m1 = { m with status := "read" }))
      db.messages (chatRoute db x page limit).db.messages := by
  rcases chatRoute_db_cases db x page limit with h | h
  · rw [h]
    exact ⟨rfl, List.forall₂_same.mpr (fun m _ => Or.inl rfl)⟩
  · rw [h]
    refine ⟨rfl, ?_⟩
    show List.Forall₂ _ db.messages (markThreadRead x db.messages)
    unfold markThreadRead
    rw [List.forall₂_map_right_iff]
    apply List.forall₂_same.mpr
    intro m _
    by_cases hc : m.wa_id = x ∧ m.is_from_me = false ∧ m.status ≠ "read"
    · rw [if_pos hc]
      exact Or.inr ⟨hc.1, hc.2.1, rfl⟩
    · rw [if_neg hc]
      exact Or.inl rfl

/-- C25 on the sample store: opening the thread of `c1` changes the status of its unread
inbound message and nothing else. -/
theorem C25_mark_thread_read_frame_witness :
    (chatRoute twoContactsDb "c1" none none).db.messages
      = [sampleMessage 0 "m1" "c1" 5000 "read" false,
         sampleMessage 1 "m2" "c2" 7000 "received" false,
         sampleMessage 2 "m3" "c1" 9000 "sent" true,
         sampleMessage 3 "m4" "c1" 2000 "read" false] ∧
    (chatRoute twoContactsDb "c1" none none).db.users = twoContactsDb.users :=
  ⟨by decide, (C25_mark_thread_read_frame twoContactsDb "c1" none none).1⟩

/-- C26. For every client state and every message `m`, the reducer's `ADD_MESSAGE` keeps
the length and the order of the conversation list; in every conversation whose `wa_id`
equals `m.wa_id` the `unreadCount` grows by exactly 1 when `m` is inbound and is unchanged
when `m` is outbound (`wa_id`, `user` and `messageCount` are kept); every other
conversation is entirely unchanged. -/
theorem C26_add_message_unread_count (state : ChatState) (m : Message) :
    List.Forall₂
      (fun c c1 => c1.wa_id = c.wa_id ∧ c1.user = c.user ∧ c1.messageCount = c.messageCount ∧
        (c.wa_id = m.wa_id →
          c1.unreadCount = c.unreadCount + (if m.is_from_me = true then 0 else 1)) ∧
        (c.wa_id ≠ m.wa_id → c1 = c))
      state.conversations (chatReducer state (Action.ADD_MESSAGE m)).conversations := by
  show List.Forall₂ _ state.conversations (state.conversations.map _)
  rw [List.forall₂_map_right_iff]
  apply List.forall₂_same.mpr
  intro c _
  by_cases hk : c.wa_id = m.wa_id
  · rw [if_pos hk]
    refine ⟨rfl, rfl, rfl, fun _ => ?_, fun h => absurd hk h⟩
    cases m.is_from_me <;> rfl
  · rw [if_neg hk]
    exact ⟨rfl, rfl, rfl, fun h => absurd h hk, fun _ => rfl⟩

/-- Witness of C26: an inbound message of `c1` raises the unread count of `c1` from 1 to
2 and leaves the entry of `c2` as it was. -/
theorem C26_add_message_unread_count_witness :
    (conversationsRoute twoContactsDb).map (fun c => (c.wa_id, c.unreadCount))
      = [("c1", 1), ("c2", 1)] ∧
    (chatReducer { initialState with conversations := conversationsRoute twoContactsDb }
        (Action.ADD_MESSAGE (sampleMessage 9 "m9" "c1" 9500 "received" false))).conversations.map
      (fun c => (c.wa_id, c.unreadCount)) = [("c1", 2), ("c2", 1)] ∧
    List.Forall₂
      (fun c c1 => c1.wa_id = c.wa_id ∧ c1.user = c.user ∧ c1.messageCount = c.messageCount ∧
        (c.wa_id = (sampleMessage 9 "m9" "c1" 9500 "received" false).wa_id →
          c1.unreadCount = c.unreadCount +
            (if (sampleMessage 9 "m9" "c1" 9500 "received" false).is_from_me = true then 0
             else 1)) ∧
        (c.wa_id ≠ (sampleMessage 9 "m9" "c1" 9500 "received" false).wa_id → c1 = c))
      ({ initialState with conversations := conversationsRoute twoContactsDb } :
        ChatState).conversations
      (chatReducer { initialState with conversations := conversationsRoute twoContactsDb }
        (Action.ADD_MESSAGE (sampleMessage 9 "m9" "c1" 9500 "received" false))).conversations :=
  ⟨by decide, by decide,
   C26_add_message_unread_count
     { initialState with conversations := conversationsRoute twoContactsDb }
     (sampleMessage 9 "m9" "c1" 9500 "received" false)⟩

theorem append_ne_empty {s : String} (t : String) (h : s ≠ "") : s ++ t ≠ "" := by
  intro he
  apply h
  have h1 : (s ++ t).length = 0 := by rw [he]; rfl
  rw [String.length_append] at h1
  have h2 : s.length = 0 := by omega
  have h3 : s.data = [] := List.length_eq_zero.mp h2
  exact String.ext h3

/-- C28, as the claim states it, fails for the kind `text`: for a text message without a
body `getMessageContent` returns the empty string, the `required` validator of `content`
rejects it, and the `/webhook` handler answers 500 without storing the message. -/
theorem C28_counterexample :
    emptyTextEvent.type = some "text" ∧ "text" ∈ messageTypeEnum ∧
    getMessageContent emptyTextEvent = "" ∧
    required (inboundInit emptyTextEvent).content = none ∧
    (webhook emptyDb (messagePayload emptyTextEvent none)).status = 500 ∧
    (webhook emptyDb (messagePayload emptyTextEvent none)).db.messages = [] := by
  decide

/-- C28, amended. For every webhook message whose type is one of the six kinds image,
audio, video, document, sticker, location, `getMessageContent` returns a non-empty string,
which satisfies the `required` validator of `content`. For the kind text it returns the
body of the message, and the empty string when the body is missing or empty; the
validator then rejects the content. -/
theorem C28_content_of_kinds (message : MessageEvent) :
    (∀ t ∈ mediaKinds, message.type = some t →
      getMessageContent message ≠ "" ∧
      required (inboundInit message).content = some (getMessageContent message)) ∧
    (message.type = some "text" →
      getMessageContent message = orElse message.text_body "" ∧
      (getMessageContent message = "" ↔
        (message.text_body = none ∨ message.text_body = some "")) ∧
      (getMessageContent message = "" → required (inboundInit message).content = none)) := by
  refine ⟨?_, ?_⟩
  · intro t ht htype
    have hne : getMessageContent message ≠ "" := by
      unfold getMessageContent
      rw [htype]
      simp only [mediaKinds, List.mem_cons, List.mem_singleton, List.not_mem_nil,
        or_false] at ht
      rcases ht with h | h | h | h | h | h <;> subst h <;> simp only []
      · exact append_ne_empty _ (by decide)
      · decide
      · exact append_ne_empty _ (by decide)
      · exact append_ne_empty _ (by decide)
      · decide
      · decide
    refine ⟨hne, ?_⟩
    simp only [inboundInit, required]
    rw [if_neg hne]
  · intro htype
    have hc : getMessageContent message = orElse message.text_body "" := by
      unfold getMessageContent
      rw [htype]
      simp only []
    refine ⟨hc, ?_, ?_⟩
    · rw [hc]
      unfold orElse
      cases hb : message.text_body with
      | none => simp
      | some v =>
        by_cases hv : v = ""
        · simp [hv]
        · simp [hv]
    · intro he
      simp only [inboundInit, required]
      rw [if_pos he]

/-- Witness of the amended C28: an image message without a caption has a non-empty
content. -/
theorem C28_content_of_kinds_witness :
    "image" ∈ mediaKinds ∧
    getMessageContent { emptyTextEvent with type := some "image" } ≠ "" :=
  ⟨by decide,
   ((C28_content_of_kinds { emptyTextEvent with type := some "image" }).1 "image"
      (by decide) rfl).1⟩

theorem chatRoute_page (db : Db) (x : String) (page limit : Int) (hp : 1 ≤ page)
    (hl : 1 ≤ limit) :
    (chatRoute db x (some page) (some limit)).status = 200 ∧
    (chatRoute db x (some page) (some limit)).messages
      = (((sortByTimestampDesc (thread x db.messages)).drop ((page - 1) * limit).toNat).take
          limit.toNat).reverse ∧
    (chatRoute db x (some page) (some limit)).hasMore
      = decide ((((((sortByTimestampDesc (thread x db.messages)).drop
          ((page - 1) * limit).toNat).take limit.toNat).length : Nat) : Int) = limit) := by
  have h1 : parseIntOr (some page) 1 = page := by
    unfold parseIntOr
    simp only []
    rw [if_neg (by omega)]
  have h2 : parseIntOr (some limit) 50 = limit := by
    unfold parseIntOr
    simp only []
    rw [if_neg (by omega)]
  have h3 : ¬ (page - 1) * limit < 0 := by
    have : 0 ≤ (page - 1) * limit := Int.mul_nonneg (by omega) (by omega)
    omega
  have h4 : limit.natAbs = limit.toNat := by omega
  have h5 : limit ≠ 0 := by omega
  unfold chatRoute getChatMessages
  simp only [h1, h2, h3, h5, if_false, h4, thread]
  exact ⟨trivial, trivial, trivial⟩

/-- C23. Thread page order: for every store, contact `x`, `page ≥ 1` and `limit ≥ 1`,
`GET /api/messages/chat/x` answers 200 and the messages it returns are, in reverse, the
messages at the positions `(page − 1)·limit + 1 … page·limit` of the messages of `x`
ordered newest first; they all have `wa_id = x` and are sorted by timestamp, oldest
first. -/
theorem C23_thread_page_order (db : Db) (x : String) (page limit : Int) (hp : 1 ≤ page)
    (hl : 1 ≤ limit) :
    (chatRoute db x (some page) (some limit)).status = 200 ∧
    (chatRoute db x (some page) (some limit)).messages.reverse
      = ((sortByTimestampDesc (thread x db.messages)).drop ((page - 1) * limit).toNat).take
          limit.toNat ∧
    (∀ m ∈ (chatRoute db x (some page) (some limit)).messages, m.wa_id = x ∧ m ∈ db.messages) ∧
    List.Sorted (fun a b => a.timestamp ≤ b.timestamp)
      (chatRoute db x (some page) (some limit)).messages := by
  obtain ⟨h200, hm, _⟩ := chatRoute_page db x page limit hp hl
  refine ⟨h200, by rw [hm, List.reverse_reverse], ?_, ?_⟩
  · intro m hmem
    rw [hm, List.mem_reverse] at hmem
    have h1 := List.mem_of_mem_drop (List.mem_of_mem_take hmem)
    have h2 : m ∈ thread x db.messages :=
      (sortByTimestampDesc_perm (thread x db.messages)).mem_iff.mp h1
    unfold thread at h2
    rw [List.mem_filter] at h2
    exact ⟨by simpa using h2.2, h2.1⟩
  · rw [hm]
    unfold List.Sorted
    rw [List.pairwise_reverse]
    have hs := sortByTimestampDesc_sorted (thread x db.messages)
    exact (hs.sublist (List.drop_sublist _ _)).sublist (List.take_sublist _ _)

/-- Witness of C23: the first page of size 2 of the thread of `c1`, which has the
messages `m3` (9000), `m1` (5000) and `m4` (2000) newest first. -/
theorem C23_thread_page_order_witness :
    (1 : Int) ≤ 1 ∧ (1 : Int) ≤ 2 ∧
    (chatRoute twoContactsDb "c1" (some 1) (some 2)).messages.map
      (fun m => (m.id, m.timestamp)) = [("m1", 5000), ("m3", 9000)] ∧
    List.Sorted (fun a b => a.timestamp ≤ b.timestamp)
      (chatRoute twoContactsDb "c1" (some 1) (some 2)).messages :=
  ⟨by decide, by decide, by decide,
   (C23_thread_page_order twoContactsDb "c1" 1 2 (by decide) (by decide)).2.2.2⟩

theorem chatRoute_hasMore_iff (db : Db) (x : String) (page limit : Int) (hp : 1 ≤ page)
    (hl : 1 ≤ limit) :
    (chatRoute db x (some page) (some limit)).hasMore = true
      ↔ page * limit ≤ ((thread x db.messages).length : Int) := by
  obtain ⟨_, _, hh⟩ := chatRoute_page db x page limit hp hl
  rw [hh, decide_eq_true_eq, List.length_take, List.length_drop,
    (sortByTimestampDesc_perm (thread x db.messages)).length_eq]
  have h0 : 0 ≤ (page - 1) * limit := Int.mul_nonneg (by omega) (by omega)
  have hmul : page * limit = (page - 1) * limit + limit := by ring
  generalize (thread x db.messages).length = n at *
  generalize (page - 1) * limit = s at *
  omega

/-- C27 fails at the boundary: the contact `c1` has exactly one message; the page 1 of
size 1 has that message and `hasMore` is true, although the number of messages of `c1`
does not exceed `page·limit` and the next page is empty. -/
theorem C27_hasMore_true_on_last_full_page :
    (thread "c1" oneMessageDb.messages).length = 1 ∧
    (chatRoute oneMessageDb "c1" (some 1) (some 1)).messages.map (fun m => m.id) = ["m1"] ∧
    (chatRoute oneMessageDb "c1" (some 1) (some 1)).hasMore = true ∧
    ¬ ((1 : Int) * 1 < ((thread "c1" oneMessageDb.messages).length : Int)) ∧
    (chatRoute (chatRoute oneMessageDb "c1" (some 1) (some 1)).db "c1" (some 2)
      (some 1)).messages = [] := by
  decide

/-- C29 fails on a re-delivered message: the store holds `m1`; a payload carries `m1`
again and the new message `m2`. The `/webhook` handler ends in its `catch` at `m1` (500)
and never stores `m2`; `processPayload` skips `m1` and stores `m2`. -/
theorem C29_ingestion_paths_differ_on_duplicate :
    oneMessageDb.messages.map (fun m => m.id) = ["m1"] ∧
    (webhook oneMessageDb (messagesPayload
        [textEvent "m1" "c1" 10 "hi", textEvent "m2" "c1" 20 "again"] none none)).status
      = 500 ∧
    (webhook oneMessageDb (messagesPayload
        [textEvent "m1" "c1" 10 "hi", textEvent "m2" "c1" 20 "again"] none
        none)).db.messages.map (fun m => m.id) = ["m1"] ∧
    (processPayload oneMessageDb (messagesPayload
        [textEvent "m1" "c1" 10 "hi", textEvent "m2" "c1" 20 "again"] none none)).status
      = 200 ∧
    (processPayload oneMessageDb (messagesPayload
        [textEvent "m1" "c1" 10 "hi", textEvent "m2" "c1" 20 "again"] none
        none)).db.messages.map (fun m => m.id) = ["m1", "m2"] := by
  decide

theorem updateStatus_keeps_thread (state : ChatState) (id status : String) (x : String)
    (h : ∀ m ∈ state.messages, m.wa_id = x) :
    ∀ m ∈ (chatReducer state (Action.UPDATE_MESSAGE_STATUS id status)).messages,
      m.wa_id = x := by
  intro m hm
  simp only [chatReducer, List.mem_map] at hm
  obtain ⟨a, ha, hma⟩ := hm
  have := h a ha
  split at hma <;> subst hma <;> exact this

/-- C30 fails for `ADD_MESSAGE`: the client has opened the thread of `c1`, all its
messages are of `c1`; a message of `c2` is ingested by the webhook, which emits
`new_message` to every client; the listener dispatches `ADD_MESSAGE` and the reducer
appends the message of `c2` to the open thread of `c1`. -/
theorem C30_foreign_message_enters_open_thread :
    (fetchMessages (chatRoute oneMessageDb "c1" none none) "c1" initialState).currentChat.map
      (fun u => u.wa_id) = some "c1" ∧
    (fetchMessages (chatRoute oneMessageDb "c1" none none) "c1" initialState).messages.map
      (fun m => (m.id, m.wa_id)) = [("m1", "c1")] ∧
    (deliver (fetchMessages (chatRoute oneMessageDb "c1" none none) "c1" initialState)
        (webhook (chatRoute oneMessageDb "c1" none none).db
          (messagePayload (textEvent "m2" "c2" 20 "yo") none)).events).currentChat.map
      (fun u => u.wa_id) = some "c1" ∧
    (deliver (fetchMessages (chatRoute oneMessageDb "c1" none none) "c1" initialState)
        (webhook (chatRoute oneMessageDb "c1" none none).db
          (messagePayload (textEvent "m2" "c2" 20 "yo") none)).events).messages.map
      (fun m => (m.id, m.wa_id)) = [("m1", "c1"), ("m2", "c2")] := by
  decide

/-- C21 fails for the deferred status writes: a socket `send_message` is saved and
registers its two timers; the message is deleted through `DELETE /api/messages/:id`
before the first timer fires; the `save()` of the timer callback finds no document, and
the rejection of the `async` callback is handled by nobody. (The handlers themselves do
catch: a payload with an empty `changes` array, or with a change without `value`, is
answered 500.) -/
theorem C21_timer_rejection_is_unhandled :
    (webhook emptyDb { entry := some [{ changes := some [] }] }).status = 500 ∧
    (webhook emptyDb
      { entry := some [{ changes := some [{ field := some "messages", value := none }] }] }).status
      = 500 ∧
    (socketSendMessage emptyDb 1700000000000 "k3x9q2m1z" 1700000000123
        (some { wa_id := some "919999", content := some "hello" })).timers.map
      (fun t => (t.delay, t.doc._id, t.status)) = [(1000, 0, "delivered"), (3000, 0, "read")] ∧
    (deleteRoute sampleCast
        (socketSendMessage emptyDb 1700000000000 "k3x9q2m1z" 1700000000123
          (some { wa_id := some "919999", content := some "hello" })).db
        "507f1f77bcf86cd799439011").status = 200 ∧
    (deleteRoute sampleCast
        (socketSendMessage emptyDb 1700000000000 "k3x9q2m1z" 1700000000123
          (some { wa_id := some "919999", content := some "hello" })).db
        "507f1f77bcf86cd799439011").db.messages = [] ∧
    (socketSendMessage emptyDb 1700000000000 "k3x9q2m1z" 1700000000123
        (some { wa_id := some "919999", content := some "hello" })).timers.map
      (fireTimer (deleteRoute sampleCast
        (socketSendMessage emptyDb 1700000000000 "k3x9q2m1z" 1700000000123
          (some { wa_id := some "919999", content := some "hello" })).db
        "507f1f77bcf86cd799439011").db)
      = [TimerOutcome.rejected { messages := [], users := [], oidSeq := 1 },
         TimerOutcome.rejected { messages := [], users := [], oidSeq := 1 }] := by
  decide

theorem findOneAndUpdate_mem_old (filter : Message → Bool) (status : String)
    (msgs : List Message) :
    ∀ m ∈ msgs, ∃ m1 ∈ (findOneAndUpdate filter status msgs).1,
      m1 = { m with status := m1.status } := by
  induction msgs with
  | nil => intro m hm; exact absurd hm (List.not_mem_nil m)
  | cons a as ih =>
    intro m hm
    unfold findOneAndUpdate
    split
    · rcases List.mem_cons.mp hm with h | h
      · exact ⟨{ a with status := status }, List.mem_cons_self _ _, by rw [h]⟩
      · exact ⟨m, List.mem_cons_of_mem _ h, rfl⟩
    · rcases List.mem_cons.mp hm with h | h
      · exact ⟨a, List.mem_cons_self _ _, by rw [h]⟩
      · obtain ⟨m1, h1, h2⟩ := ih m h
        exact ⟨m1, List.mem_cons_of_mem _ h1, h2⟩

theorem findOneAndUpdate_some_mem {filter : Message → Bool} {status : String}
    {msgs msgs1 : List Message} {d : Message}
    (h : findOneAndUpdate filter status msgs = (msgs1, some d)) :
    d ∈ msgs1 ∧ d.status = status ∧
      ∃ m ∈ msgs, filter m = true ∧ d = { m with status := status } := by
  induction msgs generalizing msgs1 with
  | nil => simp [findOneAndUpdate] at h
  | cons a as ih =>
    unfold findOneAndUpdate at h
    split at h
    · rename_i hf
      simp only [Prod.mk.injEq, Option.some.injEq] at h
      obtain ⟨h1, h2⟩ := h
      subst h1; subst h2
      exact ⟨List.mem_cons_self _ _, rfl, a, List.mem_cons_self _ _, hf, rfl⟩
    · simp only [Prod.mk.injEq] at h
      obtain ⟨h1, h2⟩ := h
      obtain ⟨g1, g2, m, g3, g4, g5⟩ :=
        @ih (findOneAndUpdate filter status as).1 (Prod.ext rfl h2)
      subst h1
      exact ⟨List.mem_cons_of_mem _ g1, g2, m, List.mem_cons_of_mem _ g3, g4, g5⟩

theorem statusFilter_with_status (x : String) (m : Message) (s : String) :
    statusFilter x { m with status := s } = statusFilter x m := rfl

theorem backed_mono {db db1 : Db} {events : List Event} (h : Backed db events)
    (hm : ∀ m ∈ db.messages, ∃ m1 ∈ db1.messages, m1 = { m with status := m1.status }) :
    Backed db1 events := by
  intro e he
  have := h e he
  cases e with
  | new_message d u =>
    simp only [] at this ⊢
    obtain ⟨m, hmem, hd⟩ := this
    obtain ⟨m1, h1, h2⟩ := hm m hmem
    refine ⟨m1, h1, ?_⟩
    rw [h2, hd]
  | message_status_update x s =>
    simp only [] at this ⊢
    obtain ⟨m, hmem, hd⟩ := this
    obtain ⟨m1, h1, h2⟩ := hm m hmem
    refine ⟨m1, h1, ?_⟩
    rw [h2, statusFilter_with_status]
    exact hd
  | message_sent ok r =>
    cases r with
    | none => trivial
    | some d =>
      simp only [] at this ⊢
      obtain ⟨m, hmem, hd⟩ := this
      obtain ⟨m1, h1, h2⟩ := hm m hmem
      refine ⟨m1, h1, ?_⟩
      rw [h2, hd]

theorem backed_append {db : Db} {events more : List Event} (h : Backed db events)
    (h1 : Backed db more) : Backed db (events ++ more) := by
  intro e he
  rcases List.mem_append.mp he with g | g
  · exact h e g
  · exact h1 e g

theorem backed_nil (db : Db) : Backed db [] :=
  fun e he => absurd he (List.not_mem_nil e)

theorem webhookMessageStep_backed (contact : Option Contact) (st : St) (e : MessageEvent)
    (h : Backed st.db st.events) :
    Backed (finalState (webhookMessageStep contact st e)).db
      (finalState (webhookMessageStep contact st e)).events := by
  cases hs : webhookMessageStep contact st e with
  | error st1 =>
    obtain ⟨a, b⟩ := webhookMessageStep_error hs
    simp only [finalState]
    rw [b]
    exact backed_mono h (fun m hm => ⟨m, by rw [a]; exact hm, rfl⟩)
  | ok st1 =>
    obtain ⟨d, u, _, a, b, _, _⟩ := webhookMessageStep_ok hs
    simp only [finalState]
    rw [b]
    refine backed_append
      (backed_mono h (fun m hm => ⟨m, by rw [a]; exact List.mem_append_left _ hm, rfl⟩)) ?_
    intro ev hev
    rw [List.mem_singleton] at hev
    subst hev
    exact ⟨d, by rw [a]; simp, rfl⟩

theorem webhookStatusStep_cases (st : St) (ev : StatusEvent) :
    (webhookStatusStep st ev = st ∧ st.db.messages.any (statusFilter ev.id) = false) ∨
    (∃ m ∈ (webhookStatusStep st ev).db.messages,
      statusFilter ev.id m = true ∧ m.status = ev.status ∧
      (webhookStatusStep st ev).events
        = st.events ++ [Event.message_status_update ev.id ev.status]) := by
  have hany := findOneAndUpdate_isSome (statusFilter ev.id) ev.status st.db.messages
  unfold webhookStatusStep
  cases hf : findOneAndUpdate (statusFilter ev.id) ev.status st.db.messages with
  | mk msgs r =>
    rw [hf] at hany
    cases r with
    | none =>
      left
      exact ⟨rfl, by simpa using hany.symm⟩
    | some d =>
      right
      obtain ⟨g1, g2, m, _, g4, g5⟩ := findOneAndUpdate_some_mem hf
      refine ⟨d, g1, ?_, g2, rfl⟩
      rw [g5, statusFilter_with_status]
      exact g4

theorem webhookStatusStep_backed (st : St) (ev : StatusEvent) (h : Backed st.db st.events) :
    Backed (webhookStatusStep st ev).db (webhookStatusStep st ev).events := by
  have hold := findOneAndUpdate_mem_old (statusFilter ev.id) ev.status st.db.messages
  rcases webhookStatusStep_cases st ev with ⟨a, _⟩ | ⟨m, hm, hf, _, hev⟩
  · rw [a]; exact h
  · rw [hev]
    have hdb : (webhookStatusStep st ev).db.messages
        = (findOneAndUpdate (statusFilter ev.id) ev.status st.db.messages).1 := by
      unfold webhookStatusStep
      split <;> rename_i hf1
      · rw [hf1]
      · rw [hf1]
        have := findOneAndUpdate_none (statusFilter ev.id) ev.status st.db.messages
          (by rw [hf1])
        rw [hf1] at this
        exact this.symm
    refine backed_append (backed_mono h (fun a ha => ?_)) ?_
    · rw [hdb]; exact hold a ha
    · intro e he
      rw [List.mem_singleton] at he
      subst he
      exact ⟨m, hm, hf⟩

theorem webhook_backed (db : Db) (payload : Payload) :
    Backed (webhook db payload).db (webhook db payload).events := by
  have key := onFirstChange_rel
    (fun a b => Backed a.db a.events → Backed b.db b.events) (fun _ h => h) webhookChange
    (webhookChange_rel (fun a b => Backed a.db a.events → Backed b.db b.events)
      (fun _ h => h) (fun _ _ _ h1 h2 h => h2 (h1 h))
      (fun c s m => webhookMessageStep_backed c s m)
      (fun s x => webhookStatusStep_backed s x))
    payload { db := db, events := [] }
  rw [(webhook_eq db payload).1, (webhook_eq db payload).2]
  exact key (backed_nil db)

theorem socketSendMessage_backed (db : Db) (clock : Nat) (rnd : String) (now : Int)
    (messageData : Option SendData) :
    Backed (socketSendMessage db clock rnd now messageData).db
        (socketSendMessage db clock rnd now messageData).events ∧
      ((socketSendMessage db clock rnd now messageData).db.messages = db.messages →
        (socketSendMessage db clock rnd now messageData).events
          = [Event.message_sent false none]) := by
  rcases socketSendMessage_appended db clock rnd now messageData with
    ⟨a, b⟩ | ⟨data, d, _, a, _, b⟩
  · refine ⟨?_, fun _ => b⟩
    rw [b]
    intro e he
    rw [List.mem_singleton] at he
    subst he
    trivial
  · refine ⟨?_, fun h => ?_⟩
    · rw [b]
      intro e he
      simp only [List.mem_cons, List.mem_singleton, List.not_mem_nil, or_false] at he
      rcases he with he | he <;> subst he <;> exact ⟨d, by rw [a]; simp, rfl⟩
    · rw [a] at h
      have := congrArg List.length h
      simp at this

theorem fireTimer_cases (db : Db) (task : TimerTask) :
    match fireTimer db task with
    | TimerOutcome.completed db1 events =>
      events = [Event.message_status_update task.doc.id task.status] ∧
        ∃ m ∈ db1.messages, m._id = task.doc._id ∧ m.status = task.status
    | TimerOutcome.rejected db1 =>
      db1 = db ∧ ∀ m ∈ db.messages, m._id ≠ task.doc._id := by
  unfold fireTimer
  cases hf : findOneAndUpdate (fun m => decide (m._id = task.doc._id)) task.status
      db.messages with
  | mk msgs r =>
    cases r with
    | none =>
      simp only []
      refine ⟨trivial, ?_⟩
      have hany := findOneAndUpdate_isSome (fun m => decide (m._id = task.doc._id)) task.status
        db.messages
      rw [hf] at hany
      intro m hm hid
      have : db.messages.any (fun m => decide (m._id = task.doc._id)) = true := by
        rw [List.any_eq_true]
        exact ⟨m, hm, by simpa using hid⟩
      rw [← hany] at this
      simp at this
    | some d =>
      simp only []
      obtain ⟨g1, g2, m, _, g4, g5⟩ := findOneAndUpdate_some_mem hf
      refine ⟨trivial, d, g1, ?_, g2⟩
      rw [g5]
      simpa using g4

/-- C22. Events are emitted only after the write they describe. In the messages loop of
the `/webhook` handler an iteration appends a `new_message` event exactly when its
`save()` has appended the message, and emits nothing when it throws; an iteration of the
status loop appends a `message_status_update` event exactly when a stored message matched
and has got the status; so every event of a webhook answer is backed by the store of that
answer. The socket `send_message` handler emits `new_message` only with the message
saved, and a timer callback emits its status event only with the status written, and
nothing when its `save()` fails. -/
theorem C22_events_follow_writes (db : Db) :
    (∀ contact events e,
      match webhookMessageStep contact { db := db, events := events } e with
      | Except.ok st1 =>
        ∃ d u, st1.db.messages = db.messages ++ [d] ∧
          st1.events = events ++ [Event.new_message d u]
      | Except.error st1 => st1.db.messages = db.messages ∧ st1.events = events) ∧
    (∀ events ev,
      (webhookStatusStep { db := db, events := events } ev = { db := db, events := events } ∧
        db.messages.any (statusFilter ev.id) = false) ∨
      (∃ m ∈ (webhookStatusStep { db := db, events := events } ev).db.messages,
        statusFilter ev.id m = true ∧ m.status = ev.status ∧
        (webhookStatusStep { db := db, events := events } ev).events
          = events ++ [Event.message_status_update ev.id ev.status])) ∧
    (∀ payload, Backed (webhook db payload).db (webhook db payload).events) ∧
    (∀ clock rnd now messageData,
      Backed (socketSendMessage db clock rnd now messageData).db
        (socketSendMessage db clock rnd now messageData).events ∧
      ((socketSendMessage db clock rnd now messageData).db.messages = db.messages →
        (socketSendMessage db clock rnd now messageData).events
          = [Event.message_sent false none])) ∧
    (∀ task,
      match fireTimer db task with
      | TimerOutcome.completed db1 events =>
        events = [Event.message_status_update task.doc.id task.status] ∧
          ∃ m ∈ db1.messages, m._id = task.doc._id ∧ m.status = task.status
      | TimerOutcome.rejected db1 =>
        db1 = db ∧ ∀ m ∈ db.messages, m._id ≠ task.doc._id) := by
  refine ⟨?_, fun events ev => webhookStatusStep_cases { db := db, events := events } ev,
    webhook_backed db, socketSendMessage_backed db, fireTimer_cases db⟩
  intro contact events e
  cases hs : webhookMessageStep contact { db := db, events := events } e with
  | ok st1 =>
    obtain ⟨d, u, _, a, b, _, _⟩ := webhookMessageStep_ok hs
    exact ⟨d, u, a, b⟩
  | error st1 => exact webhookMessageStep_error hs

/-- Witness of C22: a payload with a new message, a rejected message and a status event
for the new message; the two emitted events are backed by the store, and the rejected
message has no event. -/
theorem C22_events_follow_writes_witness :
    (webhook emptyDb (messagesPayload [textEvent "m1" "c1" 10 "hi"] none
        (some [{ id := "m1", status := "read" }]))).events.length = 2 ∧
    (webhook emptyDb (messagesPayload [textEvent "m1" "c1" 10 "hi", anonymousEvent] none
        (some [{ id := "m1", status := "read" }]))).events.length = 1 ∧
    (socketSendMessage emptyDb 1700000000000 "k3x9q2m1z" 1700000000123 none).db.messages
      = emptyDb.messages ∧
    (socketSendMessage emptyDb 1700000000000 "k3x9q2m1z" 1700000000123 none).events
      = [Event.message_sent false none] :=
  ⟨by decide, by decide, by decide,
   ((C22_events_follow_writes emptyDb).2.2.2.1 1700000000000 "k3x9q2m1z" 1700000000123
      none).2 (by decide)⟩

theorem ingestion_agrees_on_fresh_message (db : Db) (e : MessageEvent)
    (contacts : Option (List Contact)) (h : ∀ m ∈ db.messages, some m.id ≠ e.id) :
    (webhook db (messagePayload e contacts)).db
      = (processPayload db (messagePayload e contacts)).db := by
  rw [webhook_single, processPayload_single]
  unfold webhookMessageStep processMessageStep
  cases hu : findOrCreateUser db (contacts.getD []).head? with
  | none => rfl
  | some r =>
    obtain ⟨db1, user⟩ := r
    have hm := (findOrCreateUser_eq hu).1
    have hany : db1.messages.any (fun m => decide (some m.id = e.id)) = false := by
      rw [List.any_eq_false]
      intro m hmem
      rw [hm] at hmem
      simpa using h m hmem
    simp only [hany]
    cases Message.save db1 (inboundInit e) with
    | mk db2 r2 => cases r2 <;> rfl

end WhatsappClone
